import Mathlib

/-!
# Plot layout engine and plot zoomer of Qwt (Tongyuan fork): a shallow embedding

The definitions below follow `src/qwt_plot_layout.cpp` and `src/qwt_plot_zoomer.cpp`.

Modelling conventions
* `double` / `qreal` values are rationals (`ℚ`).  Their arithmetic is exact, except where
  the result of a computation is stored and read again or cut to an `int`, so that a
  rounding error in the last place shows: the proportional renormalisation of the legend
  offsets, the sums of `adjustLegendOffset`, the share `rect.width() * legendRatio` of a
  docked legend, and the limit `zoomBase().right() - zoomRect().width()` and the sums of
  `moveBy` of the zoomer round every operation to binary64 (`Binary64.round`: to the
  nearest number with 53 bits, ties to even).
* A `double` argument that a setter stores without arithmetic (`ratio` of the legend, the
  position of `moveTo`) is a `Double`: a number, or NaN.
* `int` values are unbounded integers (`ℤ`); pixel arithmetic is assumed not to overflow.
* `unsigned int spacing` is a natural number.
* `uint zoomRectIndex` of the zoomer is a natural number below `2^32`; the conversions
  between `int` and `uint` wrap modulo `2^32`.
* The functions of the zoomer return `Except Fault _`: an access outside of the zoom stack
  is the fault `outOfRange`, a push on a stack of `INT_MAX` rectangles is `outOfMemory`.
* The plot and its widgets (legend, title/footer labels, scale widgets, canvas) are
  collaborators: they are records of the values and functions the layout queries.
* The Qt value classes used by the layout (`QSize`, `QRect`, `QRectF`, the bounding
  rectangle of a `QRegion` difference) are modelled after Qt 5.
-/

namespace Qwt

/-! ## Numeric helpers -/

/-- C++ conversion `int(d)` of a double: truncation towards zero. -/
def cInt (d : ℚ) : ℤ := if 0 ≤ d then ⌊d⌋ else ⌈d⌉

/-- Qt `qFloor`. -/
def qFloor (d : ℚ) : ℤ := ⌊d⌋

/-- Qt `qCeil`. -/
def qCeil (d : ℚ) : ℤ := ⌈d⌉

/-- Qt 5 `qRound(double)`:
`d >= 0.0 ? int(d + 0.5) : int(d - double(int(d-1)) + 0.5) + int(d-1)`. -/
def qRound (d : ℚ) : ℤ :=
  if 0 ≤ d then cInt (d + 1/2)
  else cInt (d - ((cInt (d - 1) : ℤ) : ℚ) + 1/2) + cInt (d - 1)

/-- The constant `QWIDGETSIZE_MAX` of Qt, `(1 << 24) - 1`. -/
def QWIDGETSIZE_MAX : ℤ := 16777215

/-! ## Binary64 arithmetic -/

namespace Binary64

/-- Rounding to the nearest integer, a tie to the even one. -/
def roundEven (q : ℚ) : ℤ :=
  let f : ℤ := ⌊q⌋
  let r : ℚ := q - (f : ℚ)
  if r < 1 / 2 then f
  else if r > 1 / 2 then f + 1
  else if f % 2 = 0 then f else f + 1

/-- The product of `q` and the power `2 ^ e`. -/
def scale (q : ℚ) (e : ℤ) : ℚ :=
  if 0 ≤ e then q * ((2 ^ e.toNat : ℕ) : ℚ) else q / ((2 ^ (-e).toNat : ℕ) : ℚ)

/-- The position of the highest bit of `n`: `fuel` is an upper bound of it. -/
def log2Aux : ℕ → ℕ → ℕ
  | 0, _ => 0
  | fuel + 1, n => if n < 2 then 0 else log2Aux fuel (n / 2) + 1

/-- The position of the highest bit of `n`, 0 for `n = 0`. -/
def log2 (n : ℕ) : ℕ := log2Aux n n

/-- The exponent of the unit in the last place of a binary64 number next to `q > 0`:
the `e` with `2^52 <= q / 2^e < 2^53`, and -1074 for the subnormal numbers. -/
def ulpExp (q : ℚ) : ℤ :=
  let g : ℤ := (log2 q.num.natAbs : ℤ) - (log2 q.den : ℤ) - 52
  let e : ℤ := if scale q (-g) < ((2 ^ 52 : ℕ) : ℚ) then g - 1 else g
  max e (-1074)

/-- The binary64 number nearest to `q`, a tie to the even significand (the rounding of
IEEE 754 arithmetic in its default mode).  Numbers beyond the largest binary64 number
are rounded in the same way: infinities are not modelled. -/
def round (q : ℚ) : ℚ :=
  if q = 0 then 0
  else if 0 < q then scale (roundEven (scale q (-(ulpExp q)))) (ulpExp q)
  else -scale (roundEven (scale (-q) (-(ulpExp (-q))))) (ulpExp (-q))

/-- The sum of two `double`. -/
def add (a b : ℚ) : ℚ := round (a + b)

/-- The difference of two `double`. -/
def sub (a b : ℚ) : ℚ := round (a - b)

/-- The product of two `double`. -/
def mul (a b : ℚ) : ℚ := round (a * b)

/-- The quotient of two `double`, for a divisor other than zero. -/
def div (a b : ℚ) : ℚ := round (a / b)

end Binary64

/-- A `double` that is passed to a setter and stored: a number, or NaN. -/
inductive Double where
  | num (q : ℚ)
  | nan
deriving DecidableEq

namespace Double

/-- The comparison `a > b` of C++: false for NaN. -/
def gt (a : Double) (b : ℚ) : Bool :=
  match a with
  | num q => decide (q > b)
  | nan => false

/-- The comparison `a <= b` of C++: false for NaN. -/
def le (a : Double) (b : ℚ) : Bool :=
  match a with
  | num q => decide (q ≤ b)
  | nan => false

/-- The value is a number, not NaN. -/
def isNumber (a : Double) : Bool :=
  match a with
  | num _ => true
  | nan => false

/-- The value is a number within `]0, 1]`. -/
def inUnit (a : Double) : Prop :=
  match a with
  | num q => 0 < q ∧ q ≤ 1
  | nan => False

end Double

/-! ## Qt value classes -/

/-- `QSize`: width and height. -/
structure QSize where
  wd : ℤ
  ht : ℤ
deriving DecidableEq

namespace QSize

def width (s : QSize) : ℤ := s.wd

def height (s : QSize) : ℤ := s.ht

end QSize

/-- `QRect`: integer rectangle stored as its corner coordinates. -/
structure QRect where
  x1 : ℤ
  y1 : ℤ
  x2 : ℤ
  y2 : ℤ
deriving DecidableEq

namespace QRect

/-- The default constructed `QRect()`. -/
def null : QRect := ⟨0, 0, -1, -1⟩

def x (r : QRect) : ℤ := r.x1

def y (r : QRect) : ℤ := r.y1

def width (r : QRect) : ℤ := r.x2 - r.x1 + 1

def height (r : QRect) : ℤ := r.y2 - r.y1 + 1

def isEmpty (r : QRect) : Bool := decide (r.x1 > r.x2) || decide (r.y1 > r.y2)

end QRect

/-- `QRectF`: position of the top left corner, width and height. -/
structure QRectF where
  xp : ℚ
  yp : ℚ
  w : ℚ
  h : ℚ
deriving DecidableEq

namespace QRectF

/-- The default constructed `QRectF()`; also the value of `QRectF(QRect())`. -/
def null : QRectF := ⟨0, 0, 0, 0⟩

/-- Conversion constructor `QRectF(const QRect &)`. -/
def ofRect (r : QRect) : QRectF := ⟨(r.x : ℚ), (r.y : ℚ), (r.width : ℚ), (r.height : ℚ)⟩

def left (r : QRectF) : ℚ := r.xp

def top (r : QRectF) : ℚ := r.yp

def right (r : QRectF) : ℚ := r.xp + r.w

def bottom (r : QRectF) : ℚ := r.yp + r.h

def x (r : QRectF) : ℚ := r.xp

def y (r : QRectF) : ℚ := r.yp

def width (r : QRectF) : ℚ := r.w

def height (r : QRectF) : ℚ := r.h

def centerX (r : QRectF) : ℚ := r.xp + r.w / 2

def centerY (r : QRectF) : ℚ := r.yp + r.h / 2

def isEmpty (r : QRectF) : Bool := decide (r.w ≤ 0) || decide (r.h ≤ 0)

def isValid (r : QRectF) : Bool := decide (0 < r.w) && decide (0 < r.h)

/-- `setLeft`: moves the left edge, the right edge stays. -/
def setLeft (r : QRectF) (pos : ℚ) : QRectF :=
  let diff := pos - r.xp
  { r with xp := r.xp + diff, w := r.w - diff }

/-- `setTop`: moves the top edge, the bottom edge stays. -/
def setTop (r : QRectF) (pos : ℚ) : QRectF :=
  let diff := pos - r.yp
  { r with yp := r.yp + diff, h := r.h - diff }

def setRight (r : QRectF) (pos : ℚ) : QRectF := { r with w := pos - r.xp }

def setBottom (r : QRectF) (pos : ℚ) : QRectF := { r with h := pos - r.yp }

def setX (r : QRectF) (pos : ℚ) : QRectF := r.setLeft pos

def setY (r : QRectF) (pos : ℚ) : QRectF := r.setTop pos

def setWidth (r : QRectF) (aw : ℚ) : QRectF := { r with w := aw }

def setHeight (r : QRectF) (ah : ℚ) : QRectF := { r with h := ah }

/-- `normalized`: a rectangle with non-negative width and height. -/
def normalized (r : QRectF) : QRectF :=
  let r1 : QRectF := if r.w < 0 then { r with xp := r.xp + r.w, w := -r.w } else r
  if r1.h < 0 then { r1 with yp := r1.yp + r1.h, h := -r1.h } else r1

/-- `toRect` (Qt 5.15):
`QRect(QPoint(qRound(xp), qRound(yp)), QPoint(qRound(xp + w) - 1, qRound(yp + h) - 1))`.
On rectangles with integer coordinates every Qt version agrees with this definition. -/
def toRect (r : QRectF) : QRect :=
  ⟨qRound r.xp, qRound r.yp, qRound (r.xp + r.w) - 1, qRound (r.yp + r.h) - 1⟩

/-- Edge-wise containment of `c` in `b`: no edge of `c` lies outside of `b`. -/
def within (c b : QRectF) : Prop :=
  b.left ≤ c.left ∧ c.right ≤ b.right ∧ b.top ≤ c.top ∧ c.bottom ≤ b.bottom

instance (c b : QRectF) : Decidable (within c b) := by
  unfold within; exact inferInstance

/-- All four coordinates are integers. -/
def isIntegral (r : QRectF) : Prop :=
  ∃ a b c d : ℤ, r = ⟨(a : ℚ), (b : ℚ), (c : ℚ), (d : ℚ)⟩

end QRectF

/-- Bounding rectangle of the points of `r` that are not in `l`: the value of
`QRegion(r).subtracted(l).boundingRect()`.  An empty rectangle makes an empty region and
the bounding rectangle of an empty region is `QRect()`. -/
def subtractedBoundingRect (r l : QRect) : QRect :=
  if r.isEmpty then QRect.null
  else if l.isEmpty then r
  else if l.x2 < r.x1 ∨ r.x2 < l.x1 ∨ l.y2 < r.y1 ∨ r.y2 < l.y1 then r
  else
    let coversX : Bool := decide (l.x1 ≤ r.x1) && decide (r.x2 ≤ l.x2)
    let coversY : Bool := decide (l.y1 ≤ r.y1) && decide (r.y2 ≤ l.y2)
    if coversX && coversY then QRect.null
    else if coversY then
      if l.x1 ≤ r.x1 then { r with x1 := l.x2 + 1 }
      else if r.x2 ≤ l.x2 then { r with x2 := l.x1 - 1 }
      else r
    else if coversX then
      if l.y1 ≤ r.y1 then { r with y1 := l.y2 + 1 }
      else if r.y2 ≤ l.y2 then { r with y2 := l.y1 - 1 }
      else r
    else r

/-! ## The plot and its widgets (collaborators) -/

/-- Axis positions, `QwtPlot::Axis`: `yLeft = 0`, `yRight = 1`, `xBottom = 2`, `xTop = 3`. -/
inductive Axis where
  | yLeft
  | yRight
  | xBottom
  | xTop
deriving DecidableEq

namespace Axis

/-- The axes in the order of `for ( axis = 0; axis < QwtPlot::axisCnt; axis++ )`. -/
def all : List Axis := [yLeft, yRight, xBottom, xTop]

/-- Axis index as used by the `int axis` parameters. -/
def toInt : Axis → ℤ
  | yLeft => 0
  | yRight => 1
  | xBottom => 2
  | xTop => 3

/-- The axis with a given index, if the index is in `0 .. axisCnt - 1`. -/
def ofInt (i : ℤ) : Option Axis :=
  if i = 0 then some yLeft
  else if i = 1 then some yRight
  else if i = 2 then some xBottom
  else if i = 3 then some xTop
  else none

end Axis

/-- Assignment `arr[axis] = v` to an array indexed by the axes. -/
def setAt {α : Type} (arr : Axis → α) (axis : Axis) (v : α) : Axis → α :=
  fun a => if a = axis then v else arr a

/-- `QwtPlot::LegendLayout` of this fork. -/
inductive LegendLayout where
  | LeftLegend
  | RightLegend
  | BottomLegend
  | TopLegend
  | FloatLegend
  | HideLegend
deriving DecidableEq

/-- `QwtPlot::FloatPosition`: the free position and the preset anchors the layout
handles.  Modelled from the spec: the declaration (in `qwt_plot.h`) is not part of the
sources at hand; `Center` is the ninth compass point the spec names, the layout code has
no branch for it. -/
inductive FloatPosition where
  | FreePosition
  | TopLeft
  | TopCenter
  | TopRight
  | LeftCenter
  | RightCenter
  | BottomLeft
  | BottomCenter
  | BottomRight
  | Center
deriving DecidableEq

/-- `QwtPlotLayout::Options`, one flag per bit. -/
structure Options where
  alignScales : Bool
  ignoreScrollbars : Bool
  ignoreFrames : Bool
  ignoreLegend : Bool
  ignoreTitle : Bool
  ignoreFooter : Bool

/-- What the layout asks of a `QwtText`. -/
structure QwtText where
  isEmpty : Bool
  heightForWidth : ℚ → ℚ

namespace QwtText

/-- The default constructed text `QwtText()`: empty. -/
def empty : QwtText := ⟨true, fun _ => 0⟩

end QwtText

/-- What the layout asks of a `QwtTextLabel` (title or footer). -/
structure QwtTextLabel where
  text : QwtText
  frameWidth : ℤ

/-- What the layout asks of a `QwtAbstractLegend`. -/
structure QwtAbstractLegend where
  frameWidth : ℤ
  scrollExtentHorizontal : ℤ
  scrollExtentVertical : ℤ
  sizeHint : QSize
  heightForWidth : ℤ → ℤ
  isEmpty : Bool

/-- What the layout asks of a `QwtScaleWidget`. -/
structure QwtScaleWidget where
  startBorderDist : ℤ
  endBorderDist : ℤ
  margin : ℤ
  hasTicks : Bool
  maxTickLength : ℚ
  titleIsEmpty : Bool
  titleHeightForWidth : ℤ → ℤ
  dimForLength : ℤ → ℤ
  drawScaleIndexMode : Bool
  scaleIndexSize : QSize

/-- What the layout asks of a `QwtPlot`. -/
structure QwtPlot where
  legend : Option QwtAbstractLegend
  titleLabel : Option QwtTextLabel
  footerLabel : Option QwtTextLabel
  axisEnabled : Axis → Bool
  axisWidget : Axis → QwtScaleWidget
  canvasContentsMargins : Axis → ℤ

/-! ## State of the layout -/

/-- `LayoutData::t_legendData`. -/
structure LegendData where
  frameWidth : ℤ
  hScrollExtent : ℤ
  vScrollExtent : ℤ
  hint : QSize
  xOffset : ℚ
  yOffset : ℚ
  xTotalSize : ℚ
  yTotalSize : ℚ
  maxHint : QSize

/-- `LayoutData::t_titleData` and `LayoutData::t_footerData`. -/
structure TextData where
  text : QwtText
  frameWidth : ℤ

/-- `LayoutData::t_scaleData`.  The pointer `scaleWidget` and `scaleFont` are not
stored: they are only read while `isEnabled` holds, in the pass in which `init` has set
them to the plot's widget of that axis, so the model reads the plot's widget instead. -/
structure ScaleData where
  isEnabled : Bool
  start : ℤ
  endDist : ℤ
  baseLineOffset : ℤ
  tickOffset : ℚ
  hintDim : ℤ
  fixedDim : ℤ
  dim : ℤ
  dimBefore : ℤ
  hintMargin : ℤ
  fixedMargin : ℤ
  margin : ℤ
  marginBefore : ℤ
  dimWithoutTitle : ℤ

/-- `QwtPlotLayout::LayoutData`. -/
structure LayoutData where
  legend : LegendData
  title : TextData
  footer : TextData
  scale : Axis → ScaleData
  canvasContentsMargins : Axis → ℤ

/-- `QwtPlotLayout::PrivateData`. -/
structure PrivateData where
  titleRect : QRectF
  footerRect : QRectF
  legendRect : QRectF
  scaleRect : Axis → QRectF
  scaleIndexRect : Axis → QRectF
  canvasRect : QRectF
  layoutData : LayoutData
  legendPos : LegendLayout
  legendFloatPos : FloatPosition
  legendRatio : Double
  spacing : ℕ
  canvasMargin : Axis → ℕ
  alignCanvasToScales : Axis → Bool
  allScaleVisible : Bool
  dimChanged : Bool
  minCanvasWidth : ℤ
  minCanvasHeight : ℤ

namespace LayoutData

/-- The constructor `LayoutData::LayoutData()`.  Members it leaves uninitialised are
given here the value `0` (`QSize()` for the sizes, the empty text for the texts). -/
def new : LayoutData :=
  { legend := ⟨0, 0, 0, ⟨-1, -1⟩, 0, 0, 0, 0, ⟨-1, -1⟩⟩
    title := ⟨QwtText.empty, 0⟩
    footer := ⟨QwtText.empty, 0⟩
    scale := fun _ => ⟨false, 0, 0, 0, 0, 0, 0, 0, 0, 0, 0, 0, 0, 0⟩
    canvasContentsMargins := fun _ => 0 }

/-- The legend part of `LayoutData::init`. -/
def initLegend (lg : QwtAbstractLegend) (rect : QRectF) (l : LegendData) : LegendData :=
  let hint := lg.sizeHint
  let w := min hint.width (qFloor rect.width)
  let h0 := lg.heightForWidth w
  let h := if h0 ≤ 0 then hint.height else h0
  let w1 := if (h : ℚ) > rect.height then w + lg.scrollExtentHorizontal else w
  { l with
    frameWidth := lg.frameWidth
    hScrollExtent := lg.scrollExtentHorizontal
    vScrollExtent := lg.scrollExtentVertical
    maxHint := hint
    hint := ⟨w1, h⟩ }

/-- The title and footer part of `LayoutData::init`. -/
def initText (label : Option QwtTextLabel) : TextData :=
  match label with
  | some lb => ⟨lb.text, lb.frameWidth⟩
  | none => ⟨QwtText.empty, 0⟩

/-- The body of the loop over the axes of `LayoutData::init`. -/
def initScale (enabled : Bool) (sw : QwtScaleWidget) (s : ScaleData) : ScaleData :=
  if enabled then
    let tick : ℚ := if sw.hasTicks then (sw.margin : ℚ) + sw.maxTickLength else (sw.margin : ℚ)
    let base : ℤ := if s.fixedDim ≠ 0 then s.fixedDim else sw.dimForLength QWIDGETSIZE_MAX
    let dwt : ℤ :=
      if !sw.titleIsEmpty then base - sw.titleHeightForWidth QWIDGETSIZE_MAX else base
    { s with
      isEnabled := true
      start := sw.startBorderDist
      endDist := sw.endBorderDist
      baseLineOffset := sw.margin
      tickOffset := tick
      dimWithoutTitle := dwt }
  else
    { s with
      isEnabled := false
      start := 0
      endDist := 0
      baseLineOffset := 0
      tickOffset := 0
      dimWithoutTitle := s.fixedDim }

/-- `LayoutData::init`: extract all layout relevant data from the plot components. -/
def init (plot : QwtPlot) (rect : QRectF) (ld : LayoutData) : LayoutData :=
  { legend :=
      match plot.legend with
      | some lg => initLegend lg rect ld.legend
      | none => ld.legend
    title := initText plot.titleLabel
    footer := initText plot.footerLabel
    scale := fun axis => initScale (plot.axisEnabled axis) (plot.axisWidget axis) (ld.scale axis)
    canvasContentsMargins := plot.canvasContentsMargins }

end LayoutData

namespace QwtPlotLayout

/-- `invalidate()`: invalidate the geometry of all components. -/
def invalidate (d : PrivateData) : PrivateData :=
  { d with
    titleRect := QRectF.ofRect QRect.null
    footerRect := QRectF.ofRect QRect.null
    legendRect := QRectF.ofRect QRect.null
    canvasRect := QRectF.ofRect QRect.null
    scaleRect := fun _ => QRectF.ofRect QRect.null
    scaleIndexRect := fun _ => QRectF.ofRect QRect.null
    dimChanged := false }

def scaleVisible (d : PrivateData) : Bool := d.allScaleVisible

def setAllScaleVisible (visible : Bool) (d : PrivateData) : PrivateData :=
  { d with allScaleVisible := visible }

def isDimChanged (d : PrivateData) : Bool := d.dimChanged

def legendPosition (d : PrivateData) : LegendLayout := d.legendPos

def legendFloatPosition (d : PrivateData) : FloatPosition := d.legendFloatPos

def legendRatio (d : PrivateData) : Double := d.legendRatio

def legendXOffsetRatio (d : PrivateData) : ℚ := d.layoutData.legend.xOffset

def legendYOffsetRataio (d : PrivateData) : ℚ := d.layoutData.legend.yOffset

def setCanvasMinSize (w h : ℤ) (d : PrivateData) : PrivateData :=
  { d with minCanvasHeight := h, minCanvasWidth := w }

def setSpacing (spacing : ℤ) (d : PrivateData) : PrivateData :=
  { d with spacing := (max 0 spacing).toNat }

def fixedDimOfAxis (d : PrivateData) (axis : Axis) : ℤ := (d.layoutData.scale axis).fixedDim

def hintDimOfAxis (d : PrivateData) (axis : Axis) : ℤ := (d.layoutData.scale axis).hintDim

def dimOfAxis (d : PrivateData) (axis : Axis) : ℤ := (d.layoutData.scale axis).dim

def marginOfAxis (d : PrivateData) (axis : Axis) : ℤ := (d.layoutData.scale axis).margin

def hintMarginOfAxis (d : PrivateData) (axis : Axis) : ℤ :=
  (d.layoutData.scale axis).hintMargin

/-- Replace the scale data of one axis. -/
def updScale (d : PrivateData) (axis : Axis) (f : ScaleData → ScaleData) : PrivateData :=
  { d with layoutData :=
      { d.layoutData with scale := setAt d.layoutData.scale axis (f (d.layoutData.scale axis)) } }

def setFixedDimOfAxis (axis : Axis) (dimLength : ℤ) (d : PrivateData) : PrivateData :=
  updScale d axis (fun s => { s with fixedDim := dimLength })

def setHintDimOfAxis (axis : Axis) (dimLength : ℤ) (d : PrivateData) : PrivateData :=
  updScale d axis (fun s => { s with hintDim := dimLength })

def setDimOfAxis (axis : Axis) (dimLen : ℤ) (d : PrivateData) : PrivateData :=
  updScale d axis (fun s => { s with dim := dimLen })

def setMarginOfAxis (axis : Axis) (margin : ℤ) (d : PrivateData) : PrivateData :=
  updScale d axis (fun s => { s with margin := margin })

def setHintMarginOfAxis (axis : Axis) (margin : ℤ) (d : PrivateData) : PrivateData :=
  updScale d axis (fun s => { s with hintMargin := margin })

/-- `setLegendPosition( pos, ratio )`.  In the `switch`, the case `FloatLegend` has no
`break` and falls through to the case `HideLegend`.  The tests `ratio > 1.0` and
`ratio <= 0.0` are both false for NaN; the constants are the binary64 numbers nearest to
0.33 and 0.5. -/
def setLegendPosition (pos : LegendLayout) (ratio : Double) (d : PrivateData) :
    PrivateData :=
  let ratio1 : Double := if ratio.gt 1 then Double.num 1 else ratio
  match pos with
  | LegendLayout.TopLegend | LegendLayout.BottomLegend =>
      let ratio2 : Double :=
        if ratio1.le 0 then Double.num (Binary64.round (33 / 100)) else ratio1
      { d with legendRatio := ratio2, legendPos := pos }
  | LegendLayout.LeftLegend | LegendLayout.RightLegend =>
      let ratio2 : Double :=
        if ratio1.le 0 then Double.num (Binary64.round (1 / 2)) else ratio1
      { d with legendRatio := ratio2, legendPos := pos }
  | LegendLayout.FloatLegend =>
      { d with legendPos := pos, legendRatio := ratio1 }
  | LegendLayout.HideLegend =>
      { d with legendPos := pos }

/-- `setLegendPosition( pos )`. -/
def setLegendPositionDefault (pos : LegendLayout) (d : PrivateData) : PrivateData :=
  setLegendPosition pos (Double.num 0) d

/-- `setLegendRatio( ratio )`. -/
def setLegendRatio (ratio : Double) (d : PrivateData) : PrivateData :=
  setLegendPosition (legendPosition d) ratio d

def setLegendFloatPosition (f_pos : FloatPosition) (d : PrivateData) : PrivateData :=
  let d1 := { d with legendFloatPos := f_pos }
  if f_pos ≠ FloatPosition.FreePosition then { d1 with legendPos := LegendLayout.FloatLegend }
  else d1

/-- `adjustLegendOffset( x_off, y_off )`: the sums `xOffset += x_off` and
`yOffset += y_off` are stored, as binary64 values. -/
def adjustLegendOffset (x_off y_off : ℚ) (d : PrivateData) : PrivateData :=
  { d with
    layoutData := { d.layoutData with legend := { d.layoutData.legend with
      xOffset := Binary64.add d.layoutData.legend.xOffset x_off
      yOffset := Binary64.add d.layoutData.legend.yOffset y_off } }
    legendFloatPos := FloatPosition.FreePosition }

/-- The value an `int` takes when it is stored in an `unsigned int` (32 bit). -/
def toUnsigned (i : ℤ) : ℕ := (i % 4294967296).toNat

/-- The value an `unsigned int` takes when it is returned as an `int` (32 bit). -/
def toSigned (n : ℕ) : ℤ := if n < 2147483648 then (n : ℤ) else (n : ℤ) - 4294967296

/-- `setCanvasMargin( margin, axis )` with the `int axis` of the source: `-1` means all
borders, an index outside of `0 .. 3` changes nothing. -/
def setCanvasMargin (margin : ℤ) (axis : ℤ) (d : PrivateData) : PrivateData :=
  let margin1 : ℤ := if margin < -1 then -1 else margin
  if axis = -1 then
    { d with canvasMargin := fun _ => toUnsigned margin1 }
  else
    match Axis.ofInt axis with
    | some a => { d with canvasMargin := setAt d.canvasMargin a (toUnsigned margin1) }
    | none => d

/-- `canvasMargin( axisId )`. -/
def canvasMargin (d : PrivateData) (axisId : ℤ) : ℤ :=
  match Axis.ofInt axisId with
  | some a => toSigned (d.canvasMargin a)
  | none => 0

def setAlignCanvasToScales (flag : Bool) (d : PrivateData) : PrivateData :=
  { d with alignCanvasToScales := fun _ => flag }

/-- The constructor `PrivateData::PrivateData()`.  Members it leaves uninitialised
(`legendRatio`, `canvasMargin`, `alignCanvasToScales`, `dimChanged`) are given a value
here; the constructor of `QwtPlotLayout` assigns all of them. -/
def PrivateData.new : PrivateData :=
  { titleRect := QRectF.null
    footerRect := QRectF.null
    legendRect := QRectF.null
    scaleRect := fun _ => QRectF.null
    scaleIndexRect := fun _ => QRectF.null
    canvasRect := QRectF.null
    layoutData := LayoutData.new
    legendPos := LegendLayout.TopLegend
    legendFloatPos := FloatPosition.TopCenter
    legendRatio := Double.num 0
    spacing := 5
    canvasMargin := fun _ => 0
    alignCanvasToScales := fun _ => false
    allScaleVisible := true
    dimChanged := false
    minCanvasWidth := 40
    minCanvasHeight := 40 }

/-- The constructor `QwtPlotLayout::QwtPlotLayout()`. -/
def new : PrivateData :=
  invalidate (setAlignCanvasToScales false (setCanvasMargin 4 (-1)
    (setLegendPositionDefault LegendLayout.BottomLegend PrivateData.new)))

/-! ## Legend placement -/

/-- The share `int( size * legendRatio )` of a docked legend: the product is rounded to
binary64 and cut to an `int`.  With the ratio NaN the product is NaN, and its conversion
to `int` is undefined in C++; the model takes `INT_MIN`, the value the conversion
instruction of x86-64 gives. -/
def ratioShare (size : ℚ) (ratio : Double) : ℤ :=
  match ratio with
  | Double.num r => cInt (Binary64.mul size r)
  | Double.nan => -2147483648

/-- The thickness `dim` that `layoutLegend` computes for a legend docked at an edge
(the value is also computed, and not used, for the other positions). -/
def legendDim (options : Options) (rect : QRectF) (d : PrivateData) (hint : QSize) : ℤ :=
  if d.legendPos = LegendLayout.LeftLegend ∨ d.legendPos = LegendLayout.RightLegend then
    let dim0 : ℤ := min hint.width (ratioShare rect.width d.legendRatio)
    if !options.ignoreScrollbars then
      if (hint.height : ℚ) > rect.height then dim0 + d.layoutData.legend.hScrollExtent
      else dim0
    else dim0
  else
    let dim0 : ℤ := min hint.height (ratioShare rect.height d.legendRatio)
    max dim0 d.layoutData.legend.vScrollExtent

/-- One coordinate of the renormalisation of the drag offset in `layoutLegend`:
`off` is the stored offset, `total` the size it was computed against, `hintSize` the
size of the legend and `size` the size of the rectangle of this pass.  The proportional
branch, `x_ratio = (xOffset + hint.width() / 2) / xTotalSize` and what follows, rounds
each operation to binary64; the snap back of the first branch is exact. -/
def renormOffset (isNormalPos : Bool) (off total : ℚ) (hintSize : ℤ) (size : ℚ) : ℚ :=
  let outLow : Bool := decide (off < 10)
  let outHigh : Bool := decide (off + (hintSize : ℚ) + 10 > total)
  if total ≠ 0 ∧ outHigh ∧ isNormalPos then
    off + (size - total)
  else if total ≠ 0 ∧ !outLow ∧ isNormalPos then
    let ratio : ℚ :=
      Binary64.div (Binary64.add off ((hintSize.tdiv 2 : ℤ) : ℚ)) total
    let off1 : ℚ := Binary64.sub (Binary64.mul ratio size) ((hintSize.tdiv 2 : ℤ) : ℚ)
    let off2 : ℚ := max 10 off1
    min (Binary64.sub (Binary64.sub size (hintSize : ℚ)) 10) off2
  else off

/-- The offsets after the chain of tests on the preset anchors in `layoutLegend`. -/
def presetOffset (pos : FloatPosition) (rect : QRectF) (hint : QSize) (xOff yOff : ℚ) :
    ℚ × ℚ :=
  let hw2 : ℚ := ((hint.width.tdiv 2 : ℤ) : ℚ)
  let hh2 : ℚ := ((hint.height.tdiv 2 : ℤ) : ℚ)
  match pos with
  | FloatPosition.TopLeft => (0, 0)
  | FloatPosition.TopCenter => (rect.centerX - hw2 - rect.left, 0)
  | FloatPosition.TopRight => (rect.right - (hint.width : ℚ) - rect.left, 0)
  | FloatPosition.LeftCenter => (0, rect.centerY - hh2 - rect.top)
  | FloatPosition.RightCenter =>
      (rect.right - (hint.width : ℚ) - rect.left, rect.centerY - hh2 - rect.top)
  | FloatPosition.BottomLeft => (0, rect.bottom - (hint.height : ℚ) - rect.top)
  | FloatPosition.BottomCenter =>
      (rect.centerX - hw2 - rect.left, rect.bottom - (hint.height : ℚ) - rect.top)
  | FloatPosition.BottomRight =>
      (rect.right - (hint.width : ℚ) - rect.left, rect.bottom - (hint.height : ℚ) - rect.top)
  | FloatPosition.FreePosition => (xOff, yOff)
  | FloatPosition.Center => (xOff, yOff)

/-- The rectangle of a floating legend: the case `FloatLegend` of the `switch` in
`layoutLegend`, before the offsets are stored and the size is set. -/
def floatRect (rect : QRectF) (hint : QSize) (xOff yOff : ℚ) : QRectF :=
  let r1 := rect.setX (xOff + rect.left)
  let r2 := r1.setY (yOff + rect.top)
  let r3 := r2.setX (if r2.x + (hint.width : ℚ) < 5 then 5 - (hint.width : ℚ) else r2.x)
  let r4 := r3.setY (if r3.y + (hint.height : ℚ) < 5 then 5 - (hint.height : ℚ) else r3.y)
  let r5 := r4.setX (if r4.x - 5 < rect.right then r4.x else rect.right + 5)
  r5.setY (if r5.y - 5 < rect.bottom then r5.y else rect.bottom + 5)

/-- `layoutLegend( options, rect )`: the geometry for the legend.  The method is `const`
but writes the legend offsets and total sizes through `d_data`; the model returns the
rectangle together with the new state. -/
def layoutLegend (options : Options) (rect : QRectF) (d : PrivateData) :
    QRectF × PrivateData :=
  let lg := d.layoutData.legend
  let hint : QSize := if d.legendPos = LegendLayout.FloatLegend then lg.maxHint else lg.hint
  let dim : ℤ := legendDim options rect d hint
  let isNormalPos : Bool := decide (d.legendFloatPos = FloatPosition.FreePosition)
  let xOff1 : ℚ := renormOffset isNormalPos lg.xOffset lg.xTotalSize hint.width rect.width
  let yOff1 : ℚ := renormOffset isNormalPos lg.yOffset lg.yTotalSize hint.height rect.height
  let offs : ℚ × ℚ := presetOffset d.legendFloatPos rect hint xOff1 yOff1
  let withLegend (l : LegendData) : PrivateData :=
    { d with layoutData := { d.layoutData with legend := l } }
  let lg1 : LegendData :=
    { lg with xOffset := offs.1, yOffset := offs.2
              xTotalSize := rect.width, yTotalSize := rect.height }
  match d.legendPos with
  | LegendLayout.LeftLegend => (rect.setWidth (dim : ℚ), withLegend lg1)
  | LegendLayout.RightLegend =>
      ((rect.setX (rect.right - (dim : ℚ))).setWidth (dim : ℚ), withLegend lg1)
  | LegendLayout.TopLegend => (rect.setHeight (dim : ℚ), withLegend lg1)
  | LegendLayout.BottomLegend =>
      ((rect.setY (rect.bottom - (dim : ℚ))).setHeight (dim : ℚ), withLegend lg1)
  | LegendLayout.FloatLegend =>
      let r6 := floatRect rect hint offs.1 offs.2
      ((r6.setWidth (hint.width : ℚ)).setHeight (hint.height : ℚ),
        withLegend { lg1 with xOffset := r6.x - rect.left, yOffset := r6.y - rect.top })
  | LegendLayout.HideLegend => (rect, withLegend lg1)

/-- `alignLegend( canvasRect, legendRect )`: align the legend to the canvas. -/
def alignLegend (canvasRect legendRect : QRectF) (d : PrivateData) : QRectF :=
  if d.legendPos = LegendLayout.BottomLegend ∨ d.legendPos = LegendLayout.TopLegend then
    if (d.layoutData.legend.hint.width : ℚ) < canvasRect.width then
      (legendRect.setX canvasRect.x).setWidth canvasRect.width
    else legendRect
  else if d.legendPos = LegendLayout.LeftLegend ∨ d.legendPos = LegendLayout.RightLegend then
    if (d.layoutData.legend.hint.height : ℚ) < canvasRect.height then
      (legendRect.setY canvasRect.y).setHeight canvasRect.height
    else legendRect
  else legendRect

/-! ## Expansion of the line breaks -/

/-- The values `expandLineBreaks` computes: `dimFooter`, `dimAxis` and `axisExHeight`
(`dimTitle` is passed by reference and not written). -/
structure ExpandState where
  dimFooter : ℤ
  dimAxis : Axis → ℤ
  axisExHeight : Axis → ℤ

/-- `expandLineBreaks`, footer: the height `d` of the footer for the width left by the
current `dimAxis`. -/
def footerDim (options : Options) (rect : QRectF) (d : PrivateData) (dimAxis : Axis → ℤ) : ℤ :=
  let w : ℚ :=
    if (d.layoutData.scale Axis.yLeft).isEnabled ≠ (d.layoutData.scale Axis.yRight).isEnabled
    then rect.width - ((dimAxis Axis.yLeft + dimAxis Axis.yRight : ℤ) : ℚ)
    else rect.width
  let d0 : ℤ := qCeil (d.layoutData.footer.text.heightForWidth w)
  if !options.ignoreFrames then d0 + 2 * d.layoutData.footer.frameWidth else d0

/-- The footer part of one round of the loop of `expandLineBreaks`. -/
def expandFooter (options : Options) (rect : QRectF) (d : PrivateData)
    (s : ExpandState × Bool) : ExpandState × Bool :=
  if !(options.ignoreFooter || d.layoutData.footer.text.isEmpty) then
    let d1 : ℤ := footerDim options rect d s.1.dimAxis
    if d1 > s.1.dimFooter then ({ s.1 with dimFooter := d1 }, false) else s
  else s

/-- `expandLineBreaks`, axis: the size of the index badge stored in `axisExHeight`. -/
def expandAxisEx (plot : QwtPlot) (axis : Axis) (ex : Axis → ℤ) : Axis → ℤ :=
  let sw := plot.axisWidget axis
  if (axis = Axis.xBottom ∨ axis = Axis.xTop) ∧ plot.axisEnabled axis ∧ sw.drawScaleIndexMode
  then setAt ex axis sw.scaleIndexSize.width
  else if plot.axisEnabled axis ∧ sw.drawScaleIndexMode
  then setAt ex axis sw.scaleIndexSize.height
  else ex

/-- `expandLineBreaks`, axis: the dimension `d` of the axis, `dimWithoutTitle` plus the
height of the title of an enabled axis. -/
def expandAxisDim (plot : QwtPlot) (d : PrivateData) (axis : Axis) : ℤ :=
  let scaleData := d.layoutData.scale axis
  let sw := plot.axisWidget axis
  if scaleData.isEnabled then
    if !sw.titleIsEmpty then
      scaleData.dimWithoutTitle + sw.titleHeightForWidth (qFloor (QWIDGETSIZE_MAX : ℚ))
    else scaleData.dimWithoutTitle
  else scaleData.dimWithoutTitle

/-- The body of the loop over the axes in one round of the loop of `expandLineBreaks`. -/
def expandAxis (plot : QwtPlot) (d : PrivateData) (s : ExpandState × Bool) (axis : Axis) :
    ExpandState × Bool :=
  let d1 : ℤ := expandAxisDim plot d axis
  let done : Bool :=
    if (d.layoutData.scale axis).isEnabled then
      (if d1 > s.1.dimAxis axis then false else s.2)
    else s.2
  ({ s.1 with
     axisExHeight := expandAxisEx plot axis s.1.axisExHeight
     dimAxis := setAt s.1.dimAxis axis d1 }, done)

/-- One round of the `while ( !done )` loop: the state after the round and `done`. -/
def expandRound (plot : QwtPlot) (options : Options) (rect : QRectF) (d : PrivateData)
    (s : ExpandState) : ExpandState × Bool :=
  Axis.all.foldl (expandAxis plot d) (expandFooter options rect d (s, true))

/-- The `while ( !done )` loop, run for at most `fuel` rounds: `none` when the loop has
not come to its end by then. -/
def expandLoop (plot : QwtPlot) (options : Options) (rect : QRectF) (d : PrivateData) :
    ℕ → ExpandState → Option ExpandState
  | 0, _ => none
  | fuel + 1, s =>
      let r := expandRound plot options rect d s
      if r.2 then some r.1 else expandLoop plot options rect d fuel r.1

/-- The state `expandLineBreaks` starts its loop with. -/
def expandInit : ExpandState := ⟨0, fun _ => 0, fun _ => 0⟩

/-- `expandLineBreaks`: the loop comes to its end within three rounds (theorem
`expandLoop_three` below), so three rounds of fuel are all it ever uses. -/
def expandLineBreaks (plot : QwtPlot) (options : Options) (rect : QRectF) (d : PrivateData) :
    ExpandState :=
  (expandLoop plot options rect d 3 expandInit).getD expandInit

/-! ## `activate` -/

/-- The local variables of `activate`. -/
structure Locals where
  rect : QRectF
  axisMargin : Axis → ℤ
  axisSubtracted : Axis → ℤ
  dimTitle : ℤ
  dimFooter : ℤ
  dimAxes : Axis → ℤ
  axisExHeight : Axis → ℤ

/-- The local variables at the start of `activate`. -/
def Locals.start (plotRect : QRectF) : Locals :=
  ⟨plotRect, fun _ => 0, fun _ => 0, 0, 0, fun _ => 0, fun _ => 0⟩

/-- `activate`, the title: lines `if (!((options & IgnoreTitle) || ...))`. -/
def activateTitle (options : Options) (s : PrivateData × Locals) : PrivateData × Locals :=
  let d := s.1
  let l := s.2
  if !(options.ignoreTitle || d.layoutData.title.text.isEmpty) then
    let w : ℚ := l.rect.width
    let dimTitle0 : ℤ := qCeil (d.layoutData.title.text.heightForWidth w)
    let dimTitle : ℤ :=
      if !options.ignoreFrames then dimTitle0 + 2 * d.layoutData.title.frameWidth else dimTitle0
    let titleRect : QRectF := ⟨l.rect.left, l.rect.top, l.rect.width, (dimTitle : ℚ)⟩
    ({ d with titleRect := titleRect },
     { l with
       dimTitle := dimTitle
       axisSubtracted := setAt l.axisSubtracted Axis.xTop
         (l.axisSubtracted Axis.xTop + (dimTitle + (d.spacing : ℤ)))
       rect := l.rect.setTop (titleRect.bottom + (d.spacing : ℚ)) })
  else s

/-- The test guarding the legend block of `activate`. -/
def legendShown (plot : QwtPlot) (options : Options) (d : PrivateData) : Bool :=
  match plot.legend with
  | some lg =>
      !options.ignoreLegend && !lg.isEmpty && !decide (legendPosition d = LegendLayout.HideLegend)
  | none => false

/-- `arr[axis] += v` for an `int` array and a `double` value. -/
def addAt (arr : Axis → ℤ) (axis : Axis) (v : ℚ) : Axis → ℤ :=
  setAt arr axis (cInt (((arr axis : ℤ) : ℚ) + v))

/-- `activate`, the legend: the subtraction of the legend rectangle from the working
rectangle and the `switch` on the legend position; `d` is the state with the legend
rectangle that `layoutLegend` has found. -/
def legendLocals (d : PrivateData) (l : Locals) : Locals :=
  let rect1 : QRectF :=
    if d.legendPos ≠ LegendLayout.FloatLegend then
      QRectF.ofRect (subtractedBoundingRect l.rect.toRect d.legendRect.toRect)
    else l.rect
  let sp : ℚ := (d.spacing : ℚ)
  match d.legendPos with
  | LegendLayout.LeftLegend =>
      { l with
        rect := rect1.setLeft (rect1.left + sp)
        axisMargin := addAt l.axisMargin Axis.yLeft (d.legendRect.width + sp)
        axisSubtracted := addAt l.axisSubtracted Axis.yLeft (d.legendRect.width + sp) }
  | LegendLayout.RightLegend =>
      { l with
        rect := rect1.setRight (rect1.right - sp)
        axisMargin := addAt l.axisMargin Axis.yRight (d.legendRect.width + sp)
        axisSubtracted := addAt l.axisSubtracted Axis.yRight (d.legendRect.width + sp) }
  | LegendLayout.TopLegend =>
      { l with
        rect := rect1.setTop (rect1.top + sp)
        axisMargin := addAt l.axisMargin Axis.xTop (d.legendRect.height + sp)
        axisSubtracted := addAt l.axisSubtracted Axis.xTop (d.legendRect.height + sp) }
  | LegendLayout.BottomLegend =>
      { l with
        rect := rect1.setBottom (rect1.bottom - sp)
        axisMargin := addAt l.axisMargin Axis.xBottom (d.legendRect.height + sp)
        axisSubtracted := addAt l.axisSubtracted Axis.xBottom (d.legendRect.height + sp) }
  | LegendLayout.FloatLegend => { l with rect := rect1 }
  | LegendLayout.HideLegend => { l with rect := rect1 }

/-- `activate`, the legend: lines `if ( !( options & IgnoreLegend ) && ...)`. -/
def activateLegend (plot : QwtPlot) (options : Options) (s : PrivateData × Locals) :
    PrivateData × Locals :=
  if legendShown plot options s.1 then
    let r := layoutLegend options s.2.rect s.1
    let d : PrivateData := { r.2 with legendRect := r.1 }
    (d, legendLocals d s.2)
  else s

/-- `activate`, the four assignments after the call of `expandLineBreaks`, by which the
index badge of an axis widens the top and the right axis unless their dimension is
fixed. -/
def coupledDim (d : PrivateData) (dimAxis ex : Axis → ℤ) : Axis → ℤ :=
  let top1 : ℤ :=
    if (d.layoutData.scale Axis.xTop).fixedDim ≠ 0 then dimAxis Axis.xTop
    else max (dimAxis Axis.xTop) (ex Axis.yLeft)
  let top2 : ℤ :=
    if (d.layoutData.scale Axis.xTop).fixedDim ≠ 0 then top1 else max top1 (ex Axis.yRight)
  let dimAxes1 := setAt dimAxis Axis.xTop top2
  let right1 : ℤ :=
    if (d.layoutData.scale Axis.yRight).fixedDim ≠ 0 then dimAxes1 Axis.yRight
    else max (dimAxes1 Axis.yRight) (ex Axis.xTop)
  let right2 : ℤ :=
    if (d.layoutData.scale Axis.yRight).fixedDim ≠ 0 then right1
    else max right1 (ex Axis.xBottom)
  setAt dimAxes1 Axis.yRight right2

/-- `activate`, the call of `expandLineBreaks`, the assignments to `dimAxes` after it
and the margins that the title and the footer add to the top and the bottom axis. -/
def activateExpand (plot : QwtPlot) (options : Options) (s : PrivateData × Locals) :
    PrivateData × Locals :=
  let d := s.1
  let l := s.2
  let e := expandLineBreaks plot options l.rect d
  let sp : ℤ := (d.spacing : ℤ)
  let m1 := setAt l.axisMargin Axis.xTop
    (l.axisMargin Axis.xTop + (if l.dimTitle > 0 then l.dimTitle + sp else 0))
  let m2 := setAt m1 Axis.xBottom
    (m1 Axis.xBottom + (if e.dimFooter > 0 then e.dimFooter + sp else 0))
  (d, { l with dimFooter := e.dimFooter, dimAxes := coupledDim d e.dimAxis e.axisExHeight,
               axisExHeight := e.axisExHeight, axisMargin := m2 })

/-- `activate`, loop over the axes: `autoScaleDim`, the dimension the axis would have
without a hint, widened by the index badges of the crossing axes. -/
def autoScaleDim (plot : QwtPlot) (l : Locals) (axis : Axis) : ℤ :=
  let auto0 : ℤ :=
    if plot.axisEnabled axis then (plot.axisWidget axis).dimForLength QWIDGETSIZE_MAX else 0
  if axis = Axis.yRight then
    max (max auto0 (l.axisExHeight Axis.xBottom)) (l.axisExHeight Axis.xTop)
  else if axis = Axis.xTop then
    max (max auto0 (l.axisExHeight Axis.yLeft)) (l.axisExHeight Axis.yRight)
  else auto0

/-- `activate`, loop over the axes: the lines from `setDimOfAxis` to
`d_data->dimChanged = true`, which record `dim` and `margin` of the axis. -/
def recordDim (axis : Axis) (autoDim margin : ℤ) (d : PrivateData) : PrivateData :=
  let d1 := setDimOfAxis axis autoDim d
  let dimBefore : ℤ := (d1.layoutData.scale axis).dimBefore
  let d2 := setMarginOfAxis axis margin d1
  let marginBefore : ℤ := (d2.layoutData.scale axis).marginBefore
  let emitSignal : Bool :=
    decide (dimBefore ≠ dimOfAxis d2 axis) || decide (marginBefore ≠ margin)
  let d3 := updScale d2 axis
    (fun sc => { sc with dimBefore := (dimOfAxis d2 axis), marginBefore := margin })
  if emitSignal then { d3 with dimChanged := true } else d3

/-- `activate`, the body of the loop `for (int axis = 0; ...)` that records `dim` and
`margin` of every axis, raises `dimChanged` and applies the hinted dimensions. -/
def activateDim (plot : QwtPlot) (s : PrivateData × Locals) (axis : Axis) :
    PrivateData × Locals :=
  let l := s.2
  let d4 := recordDim axis (autoScaleDim plot l axis) (l.axisMargin axis) s.1
  let dimAxes1 : Axis → ℤ :=
    if fixedDimOfAxis d4 axis = 0 then
      setAt l.dimAxes axis (max (l.dimAxes axis) (hintDimOfAxis d4 axis))
    else l.dimAxes
  (d4, { l with
    dimAxes := dimAxes1
    axisMargin := setAt l.axisMargin axis (max (l.axisMargin axis) (hintMarginOfAxis d4 axis)) })

/-- `activate`, the loop over the axes. -/
def activateDims (plot : QwtPlot) (s : PrivateData × Locals) : PrivateData × Locals :=
  Axis.all.foldl (activateDim plot) s

/-- `activate`, the footer: lines `if ( dimFooter > 0 )`. -/
def activateFooter (s : PrivateData × Locals) : PrivateData × Locals :=
  let d := s.1
  let l := s.2
  if l.dimFooter > 0 then
    let sp : ℚ := (d.spacing : ℚ)
    let footerRect0 : QRectF :=
      ⟨l.rect.left, l.rect.bottom - (l.dimFooter : ℚ), l.rect.width, (l.dimFooter : ℚ)⟩
    let rect1 := l.rect.setBottom (footerRect0.top - sp)
    let footerRect1 : QRectF :=
      if (d.layoutData.scale Axis.yLeft).isEnabled ≠ (d.layoutData.scale Axis.yRight).isEnabled
      then
        (footerRect0.setX (rect1.left + (l.dimAxes Axis.yLeft : ℚ))).setWidth
          (rect1.width - (l.dimAxes Axis.yLeft : ℚ) - (l.dimAxes Axis.yRight : ℚ))
      else footerRect0
    ({ d with footerRect := footerRect1 },
     { l with
       axisSubtracted := setAt l.axisSubtracted Axis.xBottom
         (l.axisSubtracted Axis.xBottom + (l.dimFooter + (d.spacing : ℤ)))
       rect := rect1 })
  else s

/-- `activate`, the four `rect.set...` lines that move the edges by the margins not yet
taken from the rectangle. -/
def marginRect (l : Locals) : QRectF :=
  let r1 := l.rect.setTop
    (l.rect.top + (l.axisMargin Axis.xTop : ℚ) - (l.axisSubtracted Axis.xTop : ℚ))
  let r2 := r1.setBottom
    (r1.bottom - (l.axisMargin Axis.xBottom : ℚ) + (l.axisSubtracted Axis.xBottom : ℚ))
  let r3 := r2.setLeft
    (r2.left + (l.axisMargin Axis.yLeft : ℚ) - (l.axisSubtracted Axis.yLeft : ℚ))
  r3.setRight (r3.right - (l.axisMargin Axis.yRight : ℚ) + (l.axisSubtracted Axis.yRight : ℚ))

/-- `activate`, the provisional canvas: the rectangle of `d_data->canvasRect.setRect(...)`,
the working rectangle inset by the four resolved axis dimensions. -/
def provisionalCanvas (l : Locals) : QRectF :=
  let rect := marginRect l
  ⟨rect.x + (l.dimAxes Axis.yLeft : ℚ),
   rect.y + (l.dimAxes Axis.xTop : ℚ),
   rect.width - (l.dimAxes Axis.yRight : ℚ) - (l.dimAxes Axis.yLeft : ℚ),
   rect.height - (l.dimAxes Axis.xBottom : ℚ) - (l.dimAxes Axis.xTop : ℚ)⟩

/-- `activate`, the test of the minimal canvas size. -/
def canvasTooSmall (d : PrivateData) (canvas : QRectF) : Bool :=
  decide (canvas.height < (d.minCanvasHeight : ℚ)) || decide (canvas.width < (d.minCanvasWidth : ℚ))

/-- The 1 pixel rectangle of an enabled axis when only the canvas is shown. -/
def collapsedScaleRect (canvasRect : QRectF) (axisId : Axis) : QRectF :=
  match axisId with
  | Axis.yLeft => (canvasRect.setX (canvasRect.left - 1)).setWidth 1
  | Axis.yRight => (canvasRect.setX canvasRect.right).setWidth 1
  | Axis.xBottom => (canvasRect.setY canvasRect.bottom).setHeight 1
  | Axis.xTop => (canvasRect.setY (canvasRect.top - 1)).setHeight 1

/-- `activate`, collapsed layout: the loop over the axes, as a function of the list of
axes to visit. -/
def collapsedFold (plot : QwtPlot) (axes : List Axis) (d : PrivateData) : PrivateData :=
  axes.foldl
    (fun (acc : PrivateData) (axisId : Axis) =>
      if !plot.axisEnabled axisId then acc
      else
        let sr := setAt acc.scaleRect axisId (collapsedScaleRect acc.canvasRect axisId)
        { acc with scaleRect := sr })
    d

/-- `activate`, the branch taken when the canvas is too small: only the canvas is kept. -/
def activateCollapsed (plot : QwtPlot) (plotRect : QRectF) (d : PrivateData) : PrivateData :=
  let d1 : PrivateData := { d with legendRect := QRectF.null, canvasRect := plotRect }
  setAllScaleVisible false (collapsedFold plot Axis.all d1)

/-- The rectangle of an axis with a dimension other than zero in the normal layout. -/
def normalScaleRect (canvasRect : QRectF) (axis : Axis) (dim : ℤ) (exHeight : ℤ) : QRectF :=
  let r : QRectF :=
    match axis with
    | Axis.yLeft =>
        let r1 := (canvasRect.setX (canvasRect.left - (dim : ℚ))).setWidth (dim : ℚ)
        r1.setY (r1.y - (exHeight : ℚ))
    | Axis.yRight =>
        let r1 := (canvasRect.setX canvasRect.right).setWidth (dim : ℚ)
        r1.setY (r1.y - (exHeight : ℚ))
    | Axis.xBottom =>
        let r1 := (canvasRect.setY canvasRect.bottom).setHeight (dim : ℚ)
        r1.setWidth (r1.width + (exHeight : ℚ))
    | Axis.xTop => (canvasRect.setY (canvasRect.top - (dim : ℚ))).setHeight (dim : ℚ)
  r.normalized

/-- `activate`, normal layout: the loop over the axes, as a function of the list of axes
to visit. -/
def normalFold (l : Locals) (axes : List Axis) (d : PrivateData) : PrivateData :=
  axes.foldl
    (fun (acc : PrivateData) (axis : Axis) =>
      if l.dimAxes axis ≠ 0 then
        let sr := setAt acc.scaleRect axis
          (normalScaleRect acc.canvasRect axis (l.dimAxes axis) (l.axisExHeight axis))
        { acc with scaleRect := sr }
      else acc)
    d

/-- `activate`, the normal layout: the scales around the canvas and the legend aligned
to the canvas. -/
def activateNormal (l : Locals) (d : PrivateData) : PrivateData :=
  let d2 : PrivateData := normalFold l Axis.all (setAllScaleVisible true d)
  if !d2.legendRect.isEmpty then
    { d2 with legendRect := alignLegend d2.canvasRect d2.legendRect d2 }
  else d2

/-- `activate`, the first lines: `invalidate()`, `d_data->layoutData.init( plot, rect )`
and the initial values of the local variables. -/
def activateStart (plot : QwtPlot) (plotRect : QRectF) (d : PrivateData) :
    PrivateData × Locals :=
  let d0 := invalidate d
  ({ d0 with layoutData := d0.layoutData.init plot plotRect }, Locals.start plotRect)

/-- The state and the local variables of `activate` when the canvas rectangle is
computed: after the title, the legend, `expandLineBreaks`, the loop over the axes and
the footer. -/
def activateStages (plot : QwtPlot) (plotRect : QRectF) (options : Options)
    (d : PrivateData) : PrivateData × Locals :=
  activateFooter (activateDims plot (activateExpand plot options
    (activateLegend plot options (activateTitle options (activateStart plot plotRect d)))))

/-- `activate`, the last part: the canvas rectangle, the test of the minimal canvas size
and the collapsed or the normal layout. -/
def activateFinish (plot : QwtPlot) (plotRect : QRectF) (s : PrivateData × Locals) :
    PrivateData :=
  let d1 : PrivateData := { s.1 with canvasRect := provisionalCanvas s.2 }
  if canvasTooSmall d1 d1.canvasRect then activateCollapsed plot plotRect d1
  else activateNormal s.2 d1

/-- `activate( plot, plotRect, options )`: recalculate the geometry of all components. -/
def activate (plot : QwtPlot) (plotRect : QRectF) (options : Options) (d : PrivateData) :
    PrivateData :=
  activateFinish plot plotRect (activateStages plot plotRect options d)

/-- The scale data that `recordDim` leaves for its axis. -/
def recordedScale (autoDim margin : ℤ) (sc : ScaleData) : ScaleData :=
  { sc with dim := autoDim, margin := margin, dimBefore := autoDim, marginBefore := margin }

/-! ## Settings that a layout pass leaves alone -/

/-- The persisted settings of two states are the same: everything `activate` reads and
never writes. -/
structure SameSettings (a b : PrivateData) : Prop where
  legendPos : a.legendPos = b.legendPos
  legendFloatPos : a.legendFloatPos = b.legendFloatPos
  ratio : a.legendRatio = b.legendRatio
  spacing : a.spacing = b.spacing
  canvasMargin : a.canvasMargin = b.canvasMargin
  alignCanvasToScales : a.alignCanvasToScales = b.alignCanvasToScales
  minCanvasWidth : a.minCanvasWidth = b.minCanvasWidth
  minCanvasHeight : a.minCanvasHeight = b.minCanvasHeight
  fixedDim : ∀ axis, (a.layoutData.scale axis).fixedDim = (b.layoutData.scale axis).fixedDim
  hintDim : ∀ axis, (a.layoutData.scale axis).hintDim = (b.layoutData.scale axis).hintDim
  hintMargin : ∀ axis,
    (a.layoutData.scale axis).hintMargin = (b.layoutData.scale axis).hintMargin
  fixedMargin : ∀ axis,
    (a.layoutData.scale axis).fixedMargin = (b.layoutData.scale axis).fixedMargin

/-- The size of the index badge of an axis as `expandLineBreaks` stores it. -/
def badgeOf (plot : QwtPlot) (old : ℤ) (axis : Axis) : ℤ :=
  if plot.axisEnabled axis ∧ (plot.axisWidget axis).drawScaleIndexMode then
    (if axis = Axis.xBottom ∨ axis = Axis.xTop then (plot.axisWidget axis).scaleIndexSize.width
     else (plot.axisWidget axis).scaleIndexSize.height)
  else old

/-- The dimension of an axis after the hint has been applied to it. -/
def hintedDim (d : PrivateData) (dimAxes : Axis → ℤ) (a : Axis) : ℤ :=
  if fixedDimOfAxis d a = 0 then max (dimAxes a) (hintDimOfAxis d a) else dimAxes a

/-- The margin of an axis after the hint has been applied to it. -/
def hintedMargin (d : PrivateData) (axisMargin : Axis → ℤ) (a : Axis) : ℤ :=
  max (axisMargin a) (hintMarginOfAxis d a)

/-- Every edge of the working rectangle of `l'` lies on or inside of that of `l`. -/
def Inward (l l' : Locals) : Prop :=
  (marginRect l).left ≤ (marginRect l').left ∧ (marginRect l').right ≤ (marginRect l).right ∧
    (marginRect l).top ≤ (marginRect l').top ∧ (marginRect l').bottom ≤ (marginRect l).bottom

/-- The dimension `expandLineBreaks` finds for an axis: the fixed dimension when there is
one, else the dimension the scale widget asks for (`0` for a disabled axis). -/
def resolvedDim (plot : QwtPlot) (d : PrivateData) (a : Axis) : ℤ :=
  if plot.axisEnabled a then
    (if fixedDimOfAxis d a ≠ 0 then fixedDimOfAxis d a
     else (plot.axisWidget a).dimForLength QWIDGETSIZE_MAX)
  else fixedDimOfAxis d a

/-- The dimension of an axis that `activate` lays the canvas out with. -/
def finalDim (plot : QwtPlot) (d : PrivateData) : Axis → ℤ :=
  hintedDim d (coupledDim d (resolvedDim plot d) (badgeOf plot 0))

/-! ## Example inputs -/

namespace Example

/-- A scale widget without title and index badge that asks for 20 pixels. -/
def scaleWidget : QwtScaleWidget :=
  ⟨0, 0, 0, false, 0, true, fun _ => 0, fun _ => 20, false, ⟨0, 0⟩⟩

/-- A legend with one row: size hint 50 x 20, no frame, no scroll bars. -/
def legend : QwtAbstractLegend := ⟨0, 0, 0, ⟨50, 20⟩, fun _ => 20, false⟩

/-- A plot with the legend, without title, footer and axes. -/
def plotNoAxes : QwtPlot :=
  ⟨some legend, none, none, fun _ => false, fun _ => scaleWidget, fun _ => 0⟩

/-- A plot with the legend and the four axes, without title and footer. -/
def plotAxes : QwtPlot :=
  ⟨some legend, none, none, fun _ => true, fun _ => scaleWidget, fun _ => 0⟩

/-- No layout option set. -/
def options : Options := ⟨false, false, false, false, false, false⟩

end Example

/-- The thickness of a legend rectangle in the docking direction of the position. -/
def dockThickness (pos : LegendLayout) (r : QRectF) : ℚ :=
  match pos with
  | LegendLayout.LeftLegend | LegendLayout.RightLegend => r.width
  | _ => r.height

/-- The share of the working rectangle `rect` a docked legend may take: the ratio of its
thickness, the product in binary64, and the allowance for a scroll bar: at the left and
the right the extent of the horizontal scroll bar, if scroll bars are not ignored and the
legend with the size hint `hint` is higher than the rectangle; at the top and the bottom
the extent of the vertical scroll bar as the least thickness. -/
def dockBound (options : Options) (pos : LegendLayout) (ratio : ℚ) (rect : QRectF)
    (hint : QSize) (hScroll vScroll : ℤ) : ℚ :=
  match pos with
  | LegendLayout.LeftLegend | LegendLayout.RightLegend =>
      Binary64.mul rect.width ratio +
        (if options.ignoreScrollbars = false ∧ (hint.height : ℚ) > rect.height then
          max 0 (hScroll : ℚ)
        else 0)
  | _ => max (Binary64.mul rect.height ratio) (vScroll : ℚ)

/-- The position is one of the four docked at an edge. -/
def isDocked (pos : LegendLayout) : Prop :=
  pos = LegendLayout.LeftLegend ∨ pos = LegendLayout.RightLegend ∨
    pos = LegendLayout.TopLegend ∨ pos = LegendLayout.BottomLegend

/-! ## What a layout pass reads from the state -/

/-- The scale data of an axis without `dim`, `margin`, `dimBefore` and `marginBefore`. -/
def staticScale (sc : ScaleData) : ScaleData :=
  { sc with dim := 0, dimBefore := 0, margin := 0, marginBefore := 0 }

/-- The state without what a layout pass writes and never reads back, or reads only in
the legend step: the legend rectangle and the legend data, `dim`, `margin`, `dimBefore`
and `marginBefore` of the axes, `allScaleVisible` and `dimChanged`. -/
def core (d : PrivateData) : PrivateData :=
  { d with
    legendRect := QRectF.null
    allScaleVisible := true
    dimChanged := false
    layoutData := { d.layoutData with
      legend := LayoutData.new.legend
      scale := fun a => staticScale (d.layoutData.scale a) } }

/-- The steps of `activate` between the legend and the canvas. -/
def afterLegend (plot : QwtPlot) (options : Options) (s : PrivateData × Locals) :
    PrivateData × Locals :=
  activateFooter (activateDims plot (activateExpand plot options s))

/-- A step of `activate` that takes states with the same core and the same local
variables to states with the same core and the same local variables. -/
def CoreStable (step : PrivateData × Locals → PrivateData × Locals) : Prop :=
  ∀ s t : PrivateData × Locals, core s.1 = core t.1 → s.2 = t.2 →
    core (step s).1 = core (step t).1 ∧ (step s).2 = (step t).2

/-- The plot without its legend. -/
def withoutLegend (plot : QwtPlot) : QwtPlot := { plot with legend := none }

/-- The options with `IgnoreLegend` set. -/
def ignoringLegend (options : Options) : Options := { options with ignoreLegend := true }

namespace Example

/-- A layout with the legend position `HideLegend`. -/
def hidden : PrivateData :=
  setLegendPositionDefault LegendLayout.HideLegend QwtPlotLayout.new

/-- A layout with the legend position `FloatLegend`. -/
def floating : PrivateData :=
  setLegendPositionDefault LegendLayout.FloatLegend QwtPlotLayout.new

/-- A legend without items: `isEmpty()`, size hint 0 x 0. -/
def emptyLegend : QwtAbstractLegend := ⟨0, 0, 0, ⟨0, 0⟩, fun _ => 0, true⟩

/-- A legend that is not `isEmpty()` and has the size hint 0 x 0. -/
def zeroLegend : QwtAbstractLegend := ⟨0, 0, 0, ⟨0, 0⟩, fun _ => 0, false⟩

end Example

/-- One coordinate of a floating legend after the four clamps of `layoutLegend`: `v` is
the coordinate asked for, `hintSize` the size of the legend in that direction and `far`
the right (bottom) edge of the rectangle. -/
def floatClamp (hintSize : ℤ) (far v : ℚ) : ℚ :=
  let v1 : ℚ := if v + (hintSize : ℚ) < 5 then 5 - (hintSize : ℚ) else v
  if v1 - 5 < far then v1 else far + 5

/-- Two records of legend data agree in what `LayoutData::init` reads from the legend. -/
def SameLegendInfo (a b : LegendData) : Prop :=
  a.frameWidth = b.frameWidth ∧ a.hScrollExtent = b.hScrollExtent ∧
    a.vScrollExtent = b.vScrollExtent ∧ a.hint = b.hint ∧ a.maxHint = b.maxHint

/-- The bounds of the C++ type `int` (32 bit). -/
def isInt32 (i : ℤ) : Prop := -2147483648 ≤ i ∧ i ≤ 2147483647

/-- The state and the local variables of `activate` when the loop over the axes begins:
after the title, the legend and `expandLineBreaks`. -/
def beforeDims (plot : QwtPlot) (plotRect : QRectF) (options : Options) (d : PrivateData) :
    PrivateData × Locals :=
  activateExpand plot options (activateLegend plot options
    (activateTitle options (activateStart plot plotRect d)))

/-- The thickness of the rectangle of an axis: the width for the y axes, the height for
the x axes. -/
def scaleThickness (a : Axis) (r : QRectF) : ℚ :=
  match a with
  | Axis.yLeft | Axis.yRight => r.width
  | Axis.xBottom | Axis.xTop => r.height

/-- A band of thickness `dim` flush against the edge of the canvas `c` for the axis: as
long as the canvas, the bands of the y axes extended upwards and the band of the bottom
axis extended to the right by `ex`; the band of the top axis is not extended. -/
def flushBand (c : QRectF) (a : Axis) (dim ex : ℚ) : QRectF :=
  match a with
  | Axis.yLeft => ⟨c.left - dim, c.top - ex, dim, c.height + ex⟩
  | Axis.yRight => ⟨c.right, c.top - ex, dim, c.height + ex⟩
  | Axis.xBottom => ⟨c.left, c.bottom, c.width + ex, dim⟩
  | Axis.xTop => ⟨c.left, c.top - dim, c.width, dim⟩

/-- The state and the local variables of `activate` when `expandLineBreaks` is called:
after the title and the legend. -/
def beforeExpand (plot : QwtPlot) (plotRect : QRectF) (options : Options) (d : PrivateData) :
    PrivateData × Locals :=
  activateLegend plot options (activateTitle options (activateStart plot plotRect d))

namespace Example

/-- A layout with the fixed dimension 35 for the left axis. -/
def fixedLeft : PrivateData := setFixedDimOfAxis Axis.yLeft 35 QwtPlotLayout.new

/-- A layout with the fixed dimension -35 for the left axis. -/
def fixedLeftNegative : PrivateData := setFixedDimOfAxis Axis.yLeft (-35) QwtPlotLayout.new

/-- A layout with the hinted dimension 50 for the left axis. -/
def hintedLeft : PrivateData := setHintDimOfAxis Axis.yLeft 50 QwtPlotLayout.new

/-- A scale widget with a title 12 high, which asks for 32 pixels with it. -/
def titledWidget : QwtScaleWidget :=
  ⟨0, 0, 0, false, 0, false, fun _ => 12, fun _ => 32, false, ⟨0, 0⟩⟩

/-- The plot with four axes whose left axis has a title. -/
def plotTitledLeft : QwtPlot :=
  { plotAxes with
    axisWidget := fun a => if a = Axis.yLeft then titledWidget else scaleWidget }

end Example

namespace Example

/-- A title label whose text is 25 high at every width, without frame. -/
def titleLabel : QwtTextLabel := ⟨⟨false, fun _ => 25⟩, 0⟩

/-- A plot with the legend and a title, without footer and axes. -/
def plotTitled : QwtPlot := { plotNoAxes with titleLabel := some titleLabel }

end Example

/-- A call of one of the setters of the legend configuration. -/
inductive LegendCall where
  | setLegendPosition (pos : LegendLayout) (ratio : Double)
  | setLegendPositionDefault (pos : LegendLayout)
  | setLegendRatio (ratio : Double)
  | setLegendFloatPosition (anchor : FloatPosition)
  | adjustLegendOffset (dx dy : ℚ)

/-- The effect of one call on the state of the layout. -/
def LegendCall.run (c : LegendCall) (d : PrivateData) : PrivateData :=
  match c with
  | LegendCall.setLegendPosition pos ratio => QwtPlotLayout.setLegendPosition pos ratio d
  | LegendCall.setLegendPositionDefault pos => QwtPlotLayout.setLegendPositionDefault pos d
  | LegendCall.setLegendRatio ratio => QwtPlotLayout.setLegendRatio ratio d
  | LegendCall.setLegendFloatPosition anchor => QwtPlotLayout.setLegendFloatPosition anchor d
  | LegendCall.adjustLegendOffset dx dy => QwtPlotLayout.adjustLegendOffset dx dy d

/-- The ratio passed by a call, if the call has one, is a number. -/
def LegendCall.isNumber : LegendCall → Bool
  | LegendCall.setLegendPosition _ ratio => ratio.isNumber
  | LegendCall.setLegendRatio ratio => ratio.isNumber
  | _ => true

namespace Example

/-- A scale widget in the mode `DrawScaleIndexMode` with an index badge 30 x 14, which
asks for 20 pixels. -/
def badgeWidget : QwtScaleWidget :=
  ⟨0, 0, 0, false, 0, true, fun _ => 0, fun _ => 20, true, ⟨30, 14⟩⟩

/-- The plot with four axes that all show an index badge. -/
def plotBadges : QwtPlot :=
  { plotAxes with axisWidget := fun _ => badgeWidget }

end Example

namespace Example

/-- A footer label whose text is 15 high at every width, without frame. -/
def footerLabel : QwtTextLabel := ⟨⟨false, fun _ => 15⟩, 0⟩

/-- A plot with a footer, the left and the bottom axis, without legend and title. -/
def plotFooter : QwtPlot :=
  ⟨none, none, some footerLabel, fun a => decide (a = Axis.yLeft ∨ a = Axis.xBottom),
    fun _ => scaleWidget, fun _ => 0⟩

/-- A layout with the hinted margin 30 for the left axis. -/
def marginLeft : PrivateData := setHintMarginOfAxis Axis.yLeft 30 QwtPlotLayout.new

end Example

namespace Example

end Example

namespace Example

/-- A legend with the size hint 800 x 50, no frame, no scroll bars. -/
def wideLegend : QwtAbstractLegend := ⟨0, 0, 0, ⟨800, 50⟩, fun _ => 50, false⟩

/-- A legend with the size hint 200 x 150 and scroll bars 16 wide. -/
def highLegend : QwtAbstractLegend := ⟨0, 16, 16, ⟨200, 150⟩, fun _ => 150, false⟩

end Example

namespace Example

end Example

end QwtPlotLayout

/-! ## Qt value classes used by the zoomer -/

/-- `QPoint`: a point with integer coordinates. -/
structure QPoint where
  xp : ℤ
  yp : ℤ
deriving DecidableEq

namespace QSize

/-- `expandedTo`: the maximum of the widths and the maximum of the heights. -/
def expandedTo (s other : QSize) : QSize := ⟨max s.wd other.wd, max s.ht other.ht⟩

end QSize

namespace QRect

/-- `QRect( topLeft, bottomRight )`. -/
def ofPoints (topLeft bottomRight : QPoint) : QRect :=
  ⟨topLeft.xp, topLeft.yp, bottomRight.xp, bottomRight.yp⟩

/-- `normalized` (Qt 5): the corners are swapped when `x2 < x1 - 1`, and when
`y2 < y1 - 1`. -/
def normalized (r : QRect) : QRect :=
  let xs : ℤ × ℤ := if r.x2 < r.x1 - 1 then (r.x2, r.x1) else (r.x1, r.x2)
  let ys : ℤ × ℤ := if r.y2 < r.y1 - 1 then (r.y2, r.y1) else (r.y1, r.y2)
  ⟨xs.1, ys.1, xs.2, ys.2⟩

/-- `center`: `QPoint((x1 + x2) / 2, (y1 + y2) / 2)` with the division of `int`. -/
def center (r : QRect) : QPoint := ⟨(r.x1 + r.x2).tdiv 2, (r.y1 + r.y2).tdiv 2⟩

/-- `size`. -/
def size (r : QRect) : QSize := ⟨r.width, r.height⟩

/-- `setSize`: the top left corner stays. -/
def setSize (r : QRect) (s : QSize) : QRect :=
  { r with x2 := s.width + r.x1 - 1, y2 := s.height + r.y1 - 1 }

/-- `moveCenter`: `x1 = p.x() - w/2; y1 = p.y() - h/2; x2 = x1 + w; y2 = y1 + h` with
`w = x2 - x1` and `h = y2 - y1`. -/
def moveCenter (r : QRect) (p : QPoint) : QRect :=
  let w : ℤ := r.x2 - r.x1
  let h : ℤ := r.y2 - r.y1
  let nx : ℤ := p.xp - w.tdiv 2
  let ny : ℤ := p.yp - h.tdiv 2
  ⟨nx, ny, nx + w, ny + h⟩

/-- `topLeft`. -/
def topLeft (r : QRect) : QPoint := ⟨r.x1, r.y1⟩

/-- `bottomRight`. -/
def bottomRight (r : QRect) : QPoint := ⟨r.x2, r.y2⟩

end QRect

/-- `qFuzzyCompare( double p1, double p2 )`:
`qAbs(p1 - p2) * 1000000000000. <= qMin(qAbs(p1), qAbs(p2))`. -/
def qFuzzyCompare (p1 p2 : ℚ) : Bool :=
  let qAbs : ℚ → ℚ := fun t => if t ≥ 0 then t else -t
  let a1 : ℚ := qAbs p1
  let a2 : ℚ := qAbs p2
  decide (qAbs (p1 - p2) * 1000000000000 ≤ (if a1 < a2 then a1 else a2))

namespace QRectF

/-- `isNull`: width and height are both zero. -/
def isNull (r : QRectF) : Bool := decide (r.w = 0) && decide (r.h = 0)

/-- The operator `!=` of `QRectF` (Qt 5): some coordinate fails `qFuzzyCompare`. -/
def ne (r1 r2 : QRectF) : Bool :=
  !qFuzzyCompare r1.xp r2.xp || !qFuzzyCompare r1.yp r2.yp ||
    !qFuzzyCompare r1.w r2.w || !qFuzzyCompare r1.h r2.h

/-- The operator `|` of `QRectF` (Qt 5): the bounding rectangle of both. -/
def united (a r : QRectF) : QRectF :=
  if a.isNull then r
  else if r.isNull then a
  else
    let left0 : ℚ := if a.w < 0 then a.xp + a.w else a.xp
    let right0 : ℚ := if a.w < 0 then a.xp else a.xp + a.w
    let left1 : ℚ := if r.w < 0 then min left0 (r.xp + r.w) else min left0 r.xp
    let right1 : ℚ := if r.w < 0 then max right0 r.xp else max right0 (r.xp + r.w)
    let top0 : ℚ := if a.h < 0 then a.yp + a.h else a.yp
    let bottom0 : ℚ := if a.h < 0 then a.yp else a.yp + a.h
    let top1 : ℚ := if r.h < 0 then min top0 (r.yp + r.h) else min top0 r.yp
    let bottom1 : ℚ := if r.h < 0 then max bottom0 r.yp else max bottom0 (r.yp + r.h)
    ⟨left1, top1, right1 - left1, bottom1 - top1⟩

end QRectF

/-! ## The zoomer, `src/qwt_plot_zoomer.cpp` -/

namespace QwtPlotZoomer

/-- What ends a call of the zoomer in the model. -/
inductive Fault where
  /-- An access outside of the zoom stack: `zoomStack[i]` with `i` not in
  `0 .. count() - 1`, or `pop()` on the empty stack. -/
  | outOfRange
  /-- A `push` on a stack that holds `INT_MAX` rectangles already. -/
  | outOfMemory
  /-- A NaN has been stored as a coordinate of a rectangle of the zoom stack: the
  rectangles of the model hold numbers, the model does not follow the state further. -/
  | notANumber
deriving DecidableEq

/-- The members of `QwtPlotZoomer::PrivateData`: `zoomRectIndex` is an `unsigned int`,
`maxStackDepth` an `int`. -/
structure PrivateData where
  zoomRectIndex : ℕ
  zoomStack : List QRectF
  maxStackDepth : ℤ
  isAxisEnabled : Axis → Bool

/-- `zoomStack[i]` with the `int` index of `QVector::operator[]`. -/
def stackAt (stack : List QRectF) (i : ℤ) : Except Fault QRectF :=
  if 0 ≤ i then
    match stack[i.toNat]? with
    | some r => Except.ok r
    | none => Except.error Fault.outOfRange
  else Except.error Fault.outOfRange

/-- `zoomStack.push( r )`: the count of a `QStack` is an `int`. -/
def push (stack : List QRectF) (r : QRectF) : Except Fault (List QRectF) :=
  if stack.length + 1 < 2147483648 then Except.ok (stack ++ [r])
  else Except.error Fault.outOfMemory

/-- The loops `for ( i = ...; i > index; i-- ) zoomStack.pop()`: `fuel` is one more than
the count of the stack, which is all the loop can use. -/
def popLoopAux (index : ℤ) : ℕ → ℤ → List QRectF → Except Fault (List QRectF)
  | 0, _, _ => Except.error Fault.outOfRange
  | fuel + 1, i, stack =>
      if i > index then
        match stack with
        | [] => Except.error Fault.outOfRange
        | r :: rs => popLoopAux index fuel (i - 1) (r :: rs).dropLast
      else Except.ok stack

/-- The loop that removes the rectangles above `index`, started with `i`. -/
def popLoop (index i : ℤ) (stack : List QRectF) : Except Fault (List QRectF) :=
  popLoopAux index (stack.length + 1) i stack

/-- `setAxisEnabled( axis, on )` with the `int axis` of the source; `enabled` is its
parameter `on`. -/
def setAxisEnabled (axis : ℤ) (enabled : Bool) (d : PrivateData) : PrivateData :=
  match Axis.ofInt axis with
  | some a => { d with isAxisEnabled := setAt d.isAxisEnabled a enabled }
  | none => d

/-- `maxStackDepth()`. -/
def maxStackDepth (d : PrivateData) : ℤ := d.maxStackDepth

/-- `zoomStack()`. -/
def zoomStack (d : PrivateData) : List QRectF := d.zoomStack

/-- `zoomRectIndex()`. -/
def zoomRectIndex (d : PrivateData) : ℕ := d.zoomRectIndex

/-- `zoomBase()`: `zoomStack[0]`. -/
def zoomBase (d : PrivateData) : Except Fault QRectF := stackAt d.zoomStack 0

/-- `zoomRect()`: `zoomStack[zoomRectIndex]`. -/
def zoomRect (d : PrivateData) : Except Fault QRectF :=
  stackAt d.zoomStack (QwtPlotLayout.toSigned d.zoomRectIndex)

/-- `rescale()`: reads `zoomStack[zoomRectIndex]` and adjusts the scales of the plot to
it.  The zoomer is attached to a plot; the plot is not part of the state. -/
def rescale (d : PrivateData) : Except Fault PrivateData :=
  match stackAt d.zoomStack (QwtPlotLayout.toSigned d.zoomRectIndex) with
  | Except.ok _ => Except.ok d
  | Except.error e => Except.error e

/-- `setZoomBase( bool doReplot )`: `sRect` is the value of `scaleRect()`. -/
def setZoomBaseOfScale (sRect : QRectF) (d : PrivateData) : Except Fault PrivateData :=
  rescale { d with zoomStack := [sRect], zoomRectIndex := 0 }

/-- `setZoomBase( const QRectF &base )`: `sRect` is the value of `scaleRect()`. -/
def setZoomBase (base sRect : QRectF) (d : PrivateData) : Except Fault PrivateData :=
  let bRect : QRectF := base.united sRect
  if QRectF.ne base sRect then
    rescale { d with zoomStack := [bRect, sRect], zoomRectIndex := 1 }
  else
    rescale { d with zoomStack := [bRect], zoomRectIndex := 0 }

/-- `init( doReplot )`: the state the constructors leave, for the scale rectangle
`sRect` of the plot. -/
def init (sRect : QRectF) : Except Fault PrivateData :=
  setZoomBase sRect sRect ⟨0, [], -1, fun _ => true⟩

/-- `zoom( const QRectF &rect )`. -/
def zoom (rect : QRectF) (d : PrivateData) : Except Fault PrivateData :=
  if d.maxStackDepth ≥ 0 ∧ QwtPlotLayout.toSigned d.zoomRectIndex ≥ d.maxStackDepth then
    Except.ok d
  else
    let zoomRect : QRectF := rect.normalized
    match stackAt d.zoomStack (QwtPlotLayout.toSigned d.zoomRectIndex) with
    | Except.error e => Except.error e
    | Except.ok cur =>
      if QRectF.ne zoomRect cur then
        match popLoop (d.zoomRectIndex : ℤ)
            ((QwtPlotLayout.toUnsigned ((d.zoomStack.length : ℤ) - 1) : ℕ) : ℤ)
            d.zoomStack with
        | Except.error e => Except.error e
        | Except.ok stack1 =>
          match push stack1 zoomRect with
          | Except.error e => Except.error e
          | Except.ok stack2 =>
            rescale { d with
              zoomStack := stack2
              zoomRectIndex := (d.zoomRectIndex + 1) % 4294967296 }
      else Except.ok d

/-- `zoom( int offset )`. -/
def zoomOffset (offset : ℤ) (d : PrivateData) : Except Fault PrivateData :=
  let d1 : PrivateData :=
    if offset = 0 then { d with zoomRectIndex := 0 }
    else
      let newIndex0 : ℤ := QwtPlotLayout.toSigned
        ((d.zoomRectIndex + QwtPlotLayout.toUnsigned offset) % 4294967296)
      let newIndex1 : ℤ := max 0 newIndex0
      let newIndex2 : ℤ := min ((d.zoomStack.length : ℤ) - 1) newIndex1
      { d with zoomRectIndex := QwtPlotLayout.toUnsigned newIndex2 }
  rescale d1

/-- `setMaxStackDepth( depth )`. -/
def setMaxStackDepth (depth : ℤ) (d : PrivateData) : Except Fault PrivateData :=
  let d1 : PrivateData := { d with maxStackDepth := depth }
  if depth ≥ 0 then
    let zoomOut : ℤ := (d1.zoomStack.length : ℤ) - 1 - depth
    if zoomOut > 0 then
      match zoomOffset (-zoomOut) d1 with
      | Except.error e => Except.error e
      | Except.ok d2 =>
        match popLoop (QwtPlotLayout.toSigned d2.zoomRectIndex)
            ((d2.zoomStack.length : ℤ) - 1) d2.zoomStack with
        | Except.error e => Except.error e
        | Except.ok stack1 => Except.ok { d2 with zoomStack := stack1 }
    else Except.ok d1
  else Except.ok d1

/-- `setZoomStack( zoomStack, zoomRectIndex )`. -/
def setZoomStack (zoomStack : List QRectF) (zoomRectIndex : ℤ) (d : PrivateData) :
    Except Fault PrivateData :=
  if zoomStack.isEmpty then Except.ok d
  else if d.maxStackDepth ≥ 0 ∧ (zoomStack.length : ℤ) > d.maxStackDepth then Except.ok d
  else
    let index1 : ℤ :=
      if zoomRectIndex < 0 ∨ zoomRectIndex > (zoomStack.length : ℤ) then
        (zoomStack.length : ℤ) - 1
      else zoomRectIndex
    match stackAt zoomStack index1 with
    | Except.error e => Except.error e
    | Except.ok r =>
      match zoomRect d with
      | Except.error e => Except.error e
      | Except.ok cur =>
        let doRescale : Bool := QRectF.ne r cur
        let d1 : PrivateData :=
          { d with zoomStack := zoomStack, zoomRectIndex := QwtPlotLayout.toUnsigned index1 }
        if doRescale then rescale d1 else Except.ok d1

/-- `accept( pa )`, the lines from `int min_zoom_size = 20` to `rect.moveCenter(center)`:
the selected rectangle expanded to the minimal size. -/
def expandedSelection (rect : QRect) : QRect :=
  let min_zoom_size : ℤ := 20
  let center : QPoint := rect.center
  let rect1 : QRect :=
    rect.setSize (rect.size.expandedTo ⟨min_zoom_size, min_zoom_size⟩)
  rect1.moveCenter center

/-- `accept( pa )`: the value returned and the polygon `pa` after the call. -/
def accept (d : PrivateData) (pa : List QPoint) : Bool × List QPoint :=
  if pa.length < 2 then (false, pa)
  else
    match pa.head?, pa.getLast? with
    | some first, some last =>
      let rect : QRect := (QRect.ofPoints first last).normalized
      let min_size : ℤ := 15
      if (d.isAxisEnabled Axis.yLeft == false || d.isAxisEnabled Axis.yRight == false)
          && decide (rect.width < min_size) then (false, pa)
      else if (d.isAxisEnabled Axis.xBottom == false || d.isAxisEnabled Axis.xTop == false)
          && decide (rect.height < min_size) then (false, pa)
      else
        let rect2 : QRect := expandedSelection rect
        (true, [rect2.topLeft, rect2.bottomRight])
    | _, _ => (false, pa)

/-- A call of one of the methods that change the zoom stack. -/
inductive Call where
  | setZoomBaseOfScale (sRect : QRectF)
  | setZoomBase (base sRect : QRectF)
  | zoom (rect : QRectF)
  | zoomOffset (offset : ℤ)
  | setMaxStackDepth (depth : ℤ)
  | setZoomStack (stack : List QRectF) (index : ℤ)

/-- The effect of one call. -/
def Call.run (c : Call) (d : PrivateData) : Except Fault PrivateData :=
  match c with
  | Call.setZoomBaseOfScale sRect => QwtPlotZoomer.setZoomBaseOfScale sRect d
  | Call.setZoomBase base sRect => QwtPlotZoomer.setZoomBase base sRect d
  | Call.zoom rect => QwtPlotZoomer.zoom rect d
  | Call.zoomOffset offset => QwtPlotZoomer.zoomOffset offset d
  | Call.setMaxStackDepth depth => QwtPlotZoomer.setMaxStackDepth depth d
  | Call.setZoomStack stack index => QwtPlotZoomer.setZoomStack stack index d

/-- A sequence of calls, the first call first; it stops at the first fault. -/
def runCalls : List Call → PrivateData → Except Fault PrivateData
  | [], d => Except.ok d
  | c :: cs, d =>
      match c.run d with
      | Except.error e => Except.error e
      | Except.ok d1 => runCalls cs d1

/-- The index is a position of the stack, and the stack is a `QStack`: its count is an
`int`. -/
def Valid (d : PrivateData) : Prop :=
  d.zoomRectIndex < d.zoomStack.length ∧ d.zoomStack.length < 2147483648

instance (d : PrivateData) : Decidable (Valid d) := by
  unfold Valid; exact inferInstance

/-- The bound of `setMaxStackDepth( depth )`: at most `depth + 1` rectangles and an index
of at most `depth`. -/
def Bounded (depth : ℤ) (d : PrivateData) : Prop :=
  d.maxStackDepth = depth ∧ Valid d ∧ (d.zoomStack.length : ℤ) ≤ depth + 1 ∧
    (d.zoomRectIndex : ℤ) ≤ depth

/-- The call is `zoom( rect )` or `zoom( offset )`. -/
def Call.isZoom : Call → Bool
  | Call.zoom _ => true
  | Call.zoomOffset _ => true
  | _ => false

/-- The call is not `setZoomStack` with an index that equals the count of its stack, and
the stack it passes is a `QStack`. -/
def Call.inRange : Call → Prop
  | Call.setZoomStack stack index =>
      index ≠ (stack.length : ℤ) ∧ stack.length < 2147483648
  | _ => True

namespace Example

/-- The zoomer of a plot with the scale rectangle (0, 0, 100, 100), as constructed. -/
def zoomer : PrivateData := ⟨0, [⟨0, 0, 100, 100⟩], -1, fun _ => true⟩

/-- The zoomer after three zoom steps. -/
def zoomed : PrivateData :=
  ⟨3, [⟨0, 0, 100, 100⟩, ⟨10, 10, 80, 80⟩, ⟨20, 20, 60, 60⟩, ⟨30, 30, 40, 40⟩], -1,
    fun _ => true⟩

/-- The zoomer with the zoom of the y axes disabled (`setAxisEnabled( yLeft, false )`). -/
def zoomerX : PrivateData := setAxisEnabled 0 false zoomer

end Example

end QwtPlotZoomer

/-! # Properties -/

/-! ## Arithmetic of the helpers -/

theorem cInt_intCast (n : ℤ) : cInt (n : ℚ) = n := by
  unfold cInt
  split <;> simp

theorem cInt_le_of_nonneg {q : ℚ} (h : 0 ≤ q) : ((cInt q : ℤ) : ℚ) ≤ q := by
  unfold cInt
  rw [if_pos h]
  exact Int.floor_le q

theorem cInt_nonneg {q : ℚ} (h : 0 ≤ q) : 0 ≤ cInt q := by
  unfold cInt
  rw [if_pos h]
  exact Int.floor_nonneg.mpr h

theorem qRound_intCast (n : ℤ) : qRound (n : ℚ) = n := by
  unfold qRound
  have h1 : cInt ((n : ℚ) - 1) = n - 1 := by
    have : ((n : ℚ) - 1) = ((n - 1 : ℤ) : ℚ) := by push_cast; ring
    rw [this, cInt_intCast]
  split
  · rename_i h
    unfold cInt
    have h0 : (0 : ℚ) ≤ (n : ℚ) + 1 / 2 := by linarith
    rw [if_pos h0, Int.floor_eq_iff]
    constructor <;> linarith
  · rw [h1]
    have h2 : (n : ℚ) - ((n - 1 : ℤ) : ℚ) + 1 / 2 = 3 / 2 := by push_cast; ring
    rw [h2]
    have h3 : cInt (3 / 2 : ℚ) = 1 := by
      unfold cInt
      norm_num
    rw [h3]
    ring

namespace Binary64

theorem scale_nonneg (q : ℚ) (e : ℤ) (h : 0 ≤ q) : 0 ≤ scale q e := by
  unfold scale
  split_ifs
  · exact mul_nonneg h (Nat.cast_nonneg _)
  · exact div_nonneg h (Nat.cast_nonneg _)

theorem roundEven_nonneg (q : ℚ) (h : 0 ≤ q) : 0 ≤ roundEven q := by
  have hf : 0 ≤ ⌊q⌋ := Int.floor_nonneg.mpr h
  unfold roundEven
  dsimp only
  split_ifs <;> omega

/-- The rounding keeps the sign. -/
theorem round_nonneg (q : ℚ) (h : 0 ≤ q) : 0 ≤ round q := by
  unfold round
  split_ifs with h0 h1
  · exact le_refl _
  · exact scale_nonneg _ _ (Int.cast_nonneg.mpr (roundEven_nonneg _ (scale_nonneg _ _ h)))
  · exact absurd (lt_of_le_of_ne h (Ne.symm h0)) h1

end Binary64

namespace QRectF

theorem toRect_intCast (a b c d : ℤ) :
    toRect ⟨(a : ℚ), (b : ℚ), (c : ℚ), (d : ℚ)⟩ = ⟨a, b, a + c - 1, b + d - 1⟩ := by
  unfold toRect
  have h1 : ((a : ℚ) + (c : ℚ)) = ((a + c : ℤ) : ℚ) := by push_cast; ring
  have h2 : ((b : ℚ) + (d : ℚ)) = ((b + d : ℤ) : ℚ) := by push_cast; ring
  simp only [h1, h2, qRound_intCast]

theorem within_refl (r : QRectF) : within r r := by
  unfold within
  exact ⟨le_refl _, le_refl _, le_refl _, le_refl _⟩

theorem within_trans {a b c : QRectF} (h1 : within a b) (h2 : within b c) : within a c := by
  unfold within at *
  obtain ⟨a1, a2, a3, a4⟩ := h1
  obtain ⟨b1, b2, b3, b4⟩ := h2
  exact ⟨le_trans b1 a1, le_trans a2 b2, le_trans b3 a3, le_trans a4 b4⟩

end QRectF

namespace QwtPlotLayout

/-! ## Frame lemmas -/

theorem SameSettings.rfl_settings (a : PrivateData) : SameSettings a a :=
  ⟨rfl, rfl, rfl, rfl, rfl, rfl, rfl, rfl, fun _ => rfl, fun _ => rfl, fun _ => rfl,
    fun _ => rfl⟩

theorem SameSettings.then_settings {a b c : PrivateData} (h1 : SameSettings a b)
    (h2 : SameSettings b c) : SameSettings a c :=
  ⟨h1.legendPos.trans h2.legendPos, h1.legendFloatPos.trans h2.legendFloatPos,
    h1.ratio.trans h2.ratio, h1.spacing.trans h2.spacing,
    h1.canvasMargin.trans h2.canvasMargin,
    h1.alignCanvasToScales.trans h2.alignCanvasToScales,
    h1.minCanvasWidth.trans h2.minCanvasWidth, h1.minCanvasHeight.trans h2.minCanvasHeight,
    fun x => (h1.fixedDim x).trans (h2.fixedDim x),
    fun x => (h1.hintDim x).trans (h2.hintDim x),
    fun x => (h1.hintMargin x).trans (h2.hintMargin x),
    fun x => (h1.fixedMargin x).trans (h2.fixedMargin x)⟩

theorem sameSettings_invalidate (d : PrivateData) : SameSettings d (invalidate d) :=
  ⟨rfl, rfl, rfl, rfl, rfl, rfl, rfl, rfl, fun _ => rfl, fun _ => rfl, fun _ => rfl,
    fun _ => rfl⟩

theorem initScale_fixedDim (e : Bool) (sw : QwtScaleWidget) (s : ScaleData) :
    (LayoutData.initScale e sw s).fixedDim = s.fixedDim := by
  unfold LayoutData.initScale; split <;> rfl

theorem initScale_hintDim (e : Bool) (sw : QwtScaleWidget) (s : ScaleData) :
    (LayoutData.initScale e sw s).hintDim = s.hintDim := by
  unfold LayoutData.initScale; split <;> rfl

theorem initScale_hintMargin (e : Bool) (sw : QwtScaleWidget) (s : ScaleData) :
    (LayoutData.initScale e sw s).hintMargin = s.hintMargin := by
  unfold LayoutData.initScale; split <;> rfl

theorem initScale_fixedMargin (e : Bool) (sw : QwtScaleWidget) (s : ScaleData) :
    (LayoutData.initScale e sw s).fixedMargin = s.fixedMargin := by
  unfold LayoutData.initScale; split <;> rfl

theorem sameSettings_init (plot : QwtPlot) (rect : QRectF) (d : PrivateData) :
    SameSettings d { d with layoutData := d.layoutData.init plot rect } :=
  ⟨rfl, rfl, rfl, rfl, rfl, rfl, rfl, rfl,
    fun _ => (initScale_fixedDim _ _ _).symm, fun _ => (initScale_hintDim _ _ _).symm,
    fun _ => (initScale_hintMargin _ _ _).symm, fun _ => (initScale_fixedMargin _ _ _).symm⟩

theorem sameSettings_activateTitle (options : Options) (s : PrivateData × Locals) :
    SameSettings s.1 (activateTitle options s).1 := by
  unfold activateTitle
  dsimp only
  split_ifs <;> constructor <;> intros <;> rfl

theorem sameSettings_layoutLegend (options : Options) (rect : QRectF) (d : PrivateData) :
    SameSettings d (layoutLegend options rect d).2 := by
  unfold layoutLegend
  cases h : d.legendPos <;>
    exact ⟨by simp [h], rfl, rfl, rfl, rfl, rfl, rfl, rfl, fun _ => rfl, fun _ => rfl,
      fun _ => rfl, fun _ => rfl⟩

theorem sameSettings_activateLegend (plot : QwtPlot) (options : Options)
    (s : PrivateData × Locals) : SameSettings s.1 (activateLegend plot options s).1 := by
  have h := sameSettings_layoutLegend options s.2.rect s.1
  unfold activateLegend
  dsimp only
  split_ifs
  · exact ⟨h.legendPos, h.legendFloatPos, h.ratio, h.spacing, h.canvasMargin,
      h.alignCanvasToScales, h.minCanvasWidth, h.minCanvasHeight, h.fixedDim, h.hintDim,
      h.hintMargin, h.fixedMargin⟩
  · exact SameSettings.rfl_settings _

theorem sameSettings_activateExpand (plot : QwtPlot) (options : Options)
    (s : PrivateData × Locals) : SameSettings s.1 (activateExpand plot options s).1 :=
  SameSettings.rfl_settings _

theorem setAt_same {α : Type} (arr : Axis → α) (axis : Axis) (v : α) :
    setAt arr axis v axis = v := by
  simp [setAt]

theorem setAt_other {α : Type} (arr : Axis → α) {axis a : Axis} (v : α) (h : a ≠ axis) :
    setAt arr axis v a = arr a := by
  simp [setAt, h]

theorem setAt_setAt {α : Type} (arr : Axis → α) (axis : Axis) (v w : α) :
    setAt (setAt arr axis v) axis w = setAt arr axis w := by
  funext a
  simp only [setAt]
  split_ifs <;> rfl

theorem recordDim_eq (axis : Axis) (autoDim margin : ℤ) (d : PrivateData) :
    recordDim axis autoDim margin d =
      { d with
        dimChanged := (recordDim axis autoDim margin d).dimChanged
        layoutData := { d.layoutData with
          scale := setAt d.layoutData.scale axis
            (recordedScale autoDim margin (d.layoutData.scale axis)) } } := by
  unfold recordDim
  simp only [setDimOfAxis, setMarginOfAxis, updScale, dimOfAxis, setAt_same, setAt_setAt,
    recordedScale]
  split_ifs <;> rfl

theorem recordDim_dimChanged (axis : Axis) (autoDim margin : ℤ) (d : PrivateData) :
    (recordDim axis autoDim margin d).dimChanged =
      (decide ((d.layoutData.scale axis).dimBefore ≠ autoDim) ||
        decide ((d.layoutData.scale axis).marginBefore ≠ margin) || d.dimChanged) := by
  unfold recordDim
  simp only [setDimOfAxis, setMarginOfAxis, updScale, dimOfAxis, setAt_same, setAt_setAt]
  split_ifs with h
  · simp only [h, Bool.true_or]
  · simp only [Bool.not_eq_true] at h
    simp only [h, Bool.false_or]

theorem sameSettings_recordDim (axis : Axis) (autoDim margin : ℤ) (d : PrivateData) :
    SameSettings d (recordDim axis autoDim margin d) := by
  rw [recordDim_eq]
  constructor <;> intros <;> simp only [setAt, recordedScale] <;> split_ifs <;> simp_all

theorem sameSettings_activateDim (plot : QwtPlot) (s : PrivateData × Locals) (axis : Axis) :
    SameSettings s.1 (activateDim plot s axis).1 :=
  sameSettings_recordDim axis _ _ s.1

theorem sameSettings_activateDims (plot : QwtPlot) (s : PrivateData × Locals) :
    SameSettings s.1 (activateDims plot s).1 := by
  unfold activateDims
  simp only [Axis.all, List.foldl]
  exact (((sameSettings_activateDim plot s _).then_settings (sameSettings_activateDim plot _ _)).then_settings
    (sameSettings_activateDim plot _ _)).then_settings (sameSettings_activateDim plot _ _)

theorem sameSettings_activateFooter (s : PrivateData × Locals) :
    SameSettings s.1 (activateFooter s).1 := by
  unfold activateFooter
  dsimp only
  split_ifs <;> constructor <;> intros <;> rfl

theorem sameSettings_activateStart (plot : QwtPlot) (plotRect : QRectF) (d : PrivateData) :
    SameSettings d (activateStart plot plotRect d).1 :=
  (sameSettings_invalidate d).then_settings (sameSettings_init plot plotRect (invalidate d))

theorem sameSettings_activateStages (plot : QwtPlot) (plotRect : QRectF) (options : Options)
    (d : PrivateData) : SameSettings d (activateStages plot plotRect options d).1 := by
  have h0 := sameSettings_activateStart plot plotRect d
  have h1 := sameSettings_activateTitle options (activateStart plot plotRect d)
  have h2 := sameSettings_activateLegend plot options
    (activateTitle options (activateStart plot plotRect d))
  have h3 := sameSettings_activateExpand plot options (activateLegend plot options
    (activateTitle options (activateStart plot plotRect d)))
  have h4 := sameSettings_activateDims plot (activateExpand plot options
    (activateLegend plot options (activateTitle options (activateStart plot plotRect d))))
  have h5 := sameSettings_activateFooter (activateDims plot (activateExpand plot options
    (activateLegend plot options (activateTitle options (activateStart plot plotRect d)))))
  exact ((((h0.then_settings h1).then_settings h2).then_settings h3).then_settings h4).then_settings h5

/-! ## The two final branches -/

theorem collapsedFold_eq (plot : QwtPlot) (axes : List Axis) (d : PrivateData) :
    collapsedFold plot axes d = { d with scaleRect := (collapsedFold plot axes d).scaleRect } := by
  induction axes generalizing d with
  | nil => rfl
  | cons a t ih =>
    unfold collapsedFold at ih ⊢
    simp only [List.foldl_cons]
    split_ifs
    · exact ih d
    · rw [ih]

theorem normalFold_eq (l : Locals) (axes : List Axis) (d : PrivateData) :
    normalFold l axes d = { d with scaleRect := (normalFold l axes d).scaleRect } := by
  induction axes generalizing d with
  | nil => rfl
  | cons a t ih =>
    unfold normalFold at ih ⊢
    simp only [List.foldl_cons]
    split_ifs
    · rw [ih]
    · exact ih d

theorem activateCollapsed_eq (plot : QwtPlot) (plotRect : QRectF) (d : PrivateData) :
    activateCollapsed plot plotRect d =
      { d with
        legendRect := QRectF.null
        canvasRect := plotRect
        scaleRect := (activateCollapsed plot plotRect d).scaleRect
        allScaleVisible := false } := by
  unfold activateCollapsed setAllScaleVisible
  dsimp only
  rw [collapsedFold_eq]

theorem activateNormal_eq (l : Locals) (d : PrivateData) :
    activateNormal l d =
      { d with
        legendRect := (activateNormal l d).legendRect
        scaleRect := (activateNormal l d).scaleRect
        allScaleVisible := true } := by
  unfold activateNormal
  dsimp only
  split_ifs
  · rw [normalFold_eq]; rfl
  · rw [normalFold_eq]; rfl

theorem canvasTooSmall_iff (d : PrivateData) (canvas : QRectF) :
    canvasTooSmall d canvas = true ↔
      canvas.height < (d.minCanvasHeight : ℚ) ∨ canvas.width < (d.minCanvasWidth : ℚ) := by
  unfold canvasTooSmall
  simp only [Bool.or_eq_true, decide_eq_true_eq]

theorem activate_tooSmall (plot : QwtPlot) (plotRect : QRectF) (options : Options)
    (d : PrivateData) :
    canvasTooSmall { (activateStages plot plotRect options d).1 with
        canvasRect := provisionalCanvas (activateStages plot plotRect options d).2 }
      (provisionalCanvas (activateStages plot plotRect options d).2) = true ↔
      (provisionalCanvas (activateStages plot plotRect options d).2).height
          < (d.minCanvasHeight : ℚ) ∨
        (provisionalCanvas (activateStages plot plotRect options d).2).width
          < (d.minCanvasWidth : ℚ) := by
  have hs := sameSettings_activateStages plot plotRect options d
  rw [canvasTooSmall_iff]
  dsimp only
  rw [← hs.minCanvasHeight, ← hs.minCanvasWidth]

/-- C5: after `activate`, `scaleVisible()` is false exactly when the provisional canvas
(the working rectangle inset by the four resolved axis dimensions) is strictly lower than
`minCanvasHeight` or strictly narrower than `minCanvasWidth`; hence a provisional canvas
of exactly the minimal size is laid out normally.  A freshly constructed layout has the
minimal size 40 x 40. -/
theorem collapse_test_strict (plot : QwtPlot) (plotRect : QRectF) (options : Options)
    (d : PrivateData) :
    (scaleVisible (activate plot plotRect options d) = false ↔
      (provisionalCanvas (activateStages plot plotRect options d).2).height
          < (d.minCanvasHeight : ℚ) ∨
        (provisionalCanvas (activateStages plot plotRect options d).2).width
          < (d.minCanvasWidth : ℚ)) ∧
    QwtPlotLayout.new.minCanvasWidth = 40 ∧ QwtPlotLayout.new.minCanvasHeight = 40 := by
  refine ⟨?_, rfl, rfl⟩
  rw [← activate_tooSmall]
  unfold activate activateFinish scaleVisible
  dsimp only
  split_ifs with h
  · rw [activateCollapsed_eq]
    simp only [h]
  · rw [activateNormal_eq]
    simp only [h]
    decide

set_option maxRecDepth 8000 in
/-- The binary64 numbers nearest to 0.33 and 0.5 lie in `]0, 1]`. -/
theorem defaultRatio_inUnit :
    (0 < Binary64.round (33 / 100) ∧ Binary64.round (33 / 100) ≤ 1) ∧
      (0 < Binary64.round (1 / 2) ∧ Binary64.round (1 / 2) ≤ 1) := by
  with_unfolding_all decide

/-- C7: `setLegendPosition(pos, ratio)` does not limit every ratio to `]0, 1]`, as its
comment says it does.  For a position docked at an edge the stored ratio is 1 when
`ratio > 1`, the default of the position (0.33 for top and bottom, 0.5 for left and
right) when `ratio <= 0`, and `ratio` otherwise: a number in `]0, 1]` if `ratio` is a
number, but NaN if `ratio` is NaN, for which both tests are false.  For `FloatLegend`
the stored ratio is 1 when `ratio > 1` and `ratio` otherwise: a ratio `<= 0` is not
reset.  For `HideLegend` the ratio is not stored.  `setLegendRatio(ratio)` is
`setLegendPosition` with the current position. -/
theorem setLegendPosition_ratio (pos : LegendLayout) (ratio : Double) (d : PrivateData) :
    legendRatio (setLegendPosition pos ratio d) =
      (match pos, ratio with
        | LegendLayout.HideLegend, _ => legendRatio d
        | _, Double.nan => Double.nan
        | LegendLayout.TopLegend, Double.num r =>
            Double.num (if r > 1 then 1 else if r ≤ 0 then Binary64.round (33 / 100) else r)
        | LegendLayout.BottomLegend, Double.num r =>
            Double.num (if r > 1 then 1 else if r ≤ 0 then Binary64.round (33 / 100) else r)
        | LegendLayout.LeftLegend, Double.num r =>
            Double.num (if r > 1 then 1 else if r ≤ 0 then Binary64.round (1 / 2) else r)
        | LegendLayout.RightLegend, Double.num r =>
            Double.num (if r > 1 then 1 else if r ≤ 0 then Binary64.round (1 / 2) else r)
        | LegendLayout.FloatLegend, Double.num r => Double.num (if r > 1 then 1 else r)) ∧
    (isDocked pos → ratio.isNumber = true →
      (legendRatio (setLegendPosition pos ratio d)).inUnit) ∧
    (pos ≠ LegendLayout.HideLegend → ratio = Double.nan →
      legendRatio (setLegendPosition pos ratio d) = Double.nan) ∧
    legendPosition (setLegendPosition pos ratio d) = pos ∧
    setLegendRatio ratio d = setLegendPosition (legendPosition d) ratio d := by
  have key : legendRatio (setLegendPosition pos ratio d) =
      (match pos, ratio with
        | LegendLayout.HideLegend, _ => legendRatio d
        | _, Double.nan => Double.nan
        | LegendLayout.TopLegend, Double.num r =>
            Double.num (if r > 1 then 1 else if r ≤ 0 then Binary64.round (33 / 100) else r)
        | LegendLayout.BottomLegend, Double.num r =>
            Double.num (if r > 1 then 1 else if r ≤ 0 then Binary64.round (33 / 100) else r)
        | LegendLayout.LeftLegend, Double.num r =>
            Double.num (if r > 1 then 1 else if r ≤ 0 then Binary64.round (1 / 2) else r)
        | LegendLayout.RightLegend, Double.num r =>
            Double.num (if r > 1 then 1 else if r ≤ 0 then Binary64.round (1 / 2) else r)
        | LegendLayout.FloatLegend, Double.num r => Double.num (if r > 1 then 1 else r)) := by
    cases ratio with
    | nan => cases pos <;> rfl
    | num r =>
      have e1 : ¬ (1 : ℚ) ≤ 0 := by norm_num
      by_cases h1 : r > 1 <;> by_cases h2 : r ≤ 0 <;> cases pos <;>
        simp only [setLegendPosition, legendRatio, Double.gt, Double.le, h1, h2, e1,
          decide_True, decide_False, if_true, if_false, Bool.false_eq_true]
  obtain ⟨⟨a1, a2⟩, b1, b2⟩ := defaultRatio_inUnit
  refine ⟨key, ?_, ?_, ?_, rfl⟩
  · intro hd hn
    rw [key]
    cases ratio with
    | nan => exact absurd hn (by decide)
    | num r =>
      rcases hd with h | h | h | h <;> subst h <;> simp only [Double.inUnit] <;>
        split_ifs <;> constructor <;> linarith
  · intro hp hn
    rw [key, hn]
    cases pos <;> first | rfl | exact absurd rfl hp
  · cases pos <;> rfl

set_option maxRecDepth 8000 in
/-- Witness for `setLegendPosition_ratio`, the ratios that are stored against the
comment: -1 for a floating legend, NaN for a legend at the bottom. -/
theorem setLegendPosition_ratio_witness :
    legendRatio (setLegendPosition LegendLayout.FloatLegend (Double.num (-1))
        QwtPlotLayout.new) = Double.num (-1) ∧
    legendRatio (setLegendPosition LegendLayout.BottomLegend Double.nan
        QwtPlotLayout.new) = Double.nan :=
  ⟨(setLegendPosition_ratio LegendLayout.FloatLegend (Double.num (-1))
      QwtPlotLayout.new).1.trans (by with_unfolding_all decide),
    (setLegendPosition_ratio LegendLayout.BottomLegend Double.nan
      QwtPlotLayout.new).2.2.1 (by decide) rfl⟩

/-! ## The loop of `expandLineBreaks` -/

theorem expandAxisEx_apply (plot : QwtPlot) (axis a : Axis) (ex : Axis → ℤ) :
    expandAxisEx plot axis ex a = if a = axis then badgeOf plot (ex a) a else ex a := by
  unfold expandAxisEx badgeOf
  by_cases h : a = axis
  · subst h
    simp only [if_true]
    split_ifs <;> simp_all [setAt]
  · simp only [if_neg h]
    split_ifs <;> simp [setAt, h]

theorem foldl_expandAxis_dimFooter (plot : QwtPlot) (d : PrivateData) (axes : List Axis)
    (s : ExpandState × Bool) :
    (axes.foldl (expandAxis plot d) s).1.dimFooter = s.1.dimFooter := by
  induction axes generalizing s with
  | nil => rfl
  | cons a t ih => simp only [List.foldl_cons]; rw [ih]; rfl

theorem expandRound_dimAxis (plot : QwtPlot) (options : Options) (rect : QRectF)
    (d : PrivateData) (s : ExpandState) (a : Axis) :
    (expandRound plot options rect d s).1.dimAxis a = expandAxisDim plot d a := by
  unfold expandRound
  simp only [Axis.all, List.foldl, expandAxis]
  cases a <;> simp [setAt]

theorem expandRound_axisExHeight (plot : QwtPlot) (options : Options) (rect : QRectF)
    (d : PrivateData) (s : ExpandState) (a : Axis) :
    (expandRound plot options rect d s).1.axisExHeight a = badgeOf plot (s.axisExHeight a) a := by
  have hf : (expandFooter options rect d (s, true)).1.axisExHeight = s.axisExHeight := by
    unfold expandFooter; dsimp only; split_ifs <;> rfl
  unfold expandRound
  simp only [Axis.all, List.foldl, expandAxis, expandAxisEx_apply, hf]
  cases a <;> simp

theorem foldl_expandAxis_done (plot : QwtPlot) (d : PrivateData) (axes : List Axis)
    (s : ExpandState × Bool)
    (h : ∀ a, s.1.dimAxis a = expandAxisDim plot d a) :
    (axes.foldl (expandAxis plot d) s).2 = s.2 := by
  induction axes generalizing s with
  | nil => rfl
  | cons a t ih =>
    simp only [List.foldl_cons]
    rw [ih]
    · unfold expandAxis
      simp only [h a, gt_iff_lt, lt_self_iff_false, if_false, ite_self]
    · intro b
      unfold expandAxis
      simp only [setAt]
      split_ifs with hb
      · rw [hb]
      · exact h b

theorem expandFooter_dimAxis (options : Options) (rect : QRectF) (d : PrivateData)
    (s : ExpandState × Bool) : (expandFooter options rect d s).1.dimAxis = s.1.dimAxis := by
  unfold expandFooter
  dsimp only
  split_ifs <;> rfl

theorem expandFooter_ge (options : Options) (rect : QRectF) (d : PrivateData)
    (s : ExpandState × Bool)
    (h : (!(options.ignoreFooter || d.layoutData.footer.text.isEmpty)) = true) :
    footerDim options rect d s.1.dimAxis ≤ (expandFooter options rect d s).1.dimFooter := by
  unfold expandFooter
  dsimp only
  rw [if_pos h]
  split_ifs with h2
  · exact le_refl _
  · exact not_lt.mp h2

theorem expandFooter_flag (options : Options) (rect : QRectF) (d : PrivateData)
    (s : ExpandState)
    (h : (!(options.ignoreFooter || d.layoutData.footer.text.isEmpty)) = true →
      footerDim options rect d s.dimAxis ≤ s.dimFooter) :
    (expandFooter options rect d (s, true)).2 = true := by
  unfold expandFooter
  dsimp only
  split_ifs with h1 h2
  · exact absurd h2 (not_lt.mpr (h h1))
  · rfl
  · rfl

theorem expandRound_dimFooter (plot : QwtPlot) (options : Options) (rect : QRectF)
    (d : PrivateData) (s : ExpandState) :
    (expandRound plot options rect d s).1.dimFooter =
      (expandFooter options rect d (s, true)).1.dimFooter := by
  unfold expandRound
  rw [foldl_expandAxis_dimFooter]

/-- A round that starts from the final axis dimensions and a footer height that is not
exceeded ends the loop. -/
theorem expandRound_done (plot : QwtPlot) (options : Options) (rect : QRectF)
    (d : PrivateData) (s : ExpandState)
    (h : ∀ a, s.dimAxis a = expandAxisDim plot d a)
    (hf : (expandFooter options rect d (s, true)).2 = true) :
    (expandRound plot options rect d s).2 = true := by
  unfold expandRound
  rw [foldl_expandAxis_done plot d Axis.all _ (by rw [expandFooter_dimAxis]; exact h)]
  exact hf

theorem expandRound_dimAxis_eq (plot : QwtPlot) (options : Options) (rect : QRectF)
    (d : PrivateData) (s : ExpandState) :
    (expandRound plot options rect d s).1.dimAxis = expandAxisDim plot d :=
  funext (expandRound_dimAxis plot options rect d s)

/-- The loop of `expandLineBreaks` comes to its end within three rounds, whatever the
plot, the options, the rectangle and the state. -/
theorem expandLoop_three (plot : QwtPlot) (options : Options) (rect : QRectF)
    (d : PrivateData) (s : ExpandState) :
    ∃ e, expandLoop plot options rect d 3 s = some e ∧
      e.dimAxis = expandAxisDim plot d ∧
      (∀ a, e.axisExHeight a = badgeOf plot (s.axisExHeight a) a) := by
  have hbadge : ∀ (old : ℤ) (a : Axis), badgeOf plot (badgeOf plot old a) a = badgeOf plot old a := by
    intro old a
    unfold badgeOf
    split_ifs <;> rfl
  simp only [expandLoop]
  by_cases h1 : (expandRound plot options rect d s).2 = true
  · rw [if_pos h1]
    exact ⟨_, rfl, expandRound_dimAxis_eq _ _ _ _ _, expandRound_axisExHeight _ _ _ _ _⟩
  · rw [if_neg h1]
    by_cases h2 : (expandRound plot options rect d (expandRound plot options rect d s).1).2 = true
    · rw [if_pos h2]
      refine ⟨_, rfl, expandRound_dimAxis_eq _ _ _ _ _, ?_⟩
      intro a
      rw [expandRound_axisExHeight, expandRound_axisExHeight, hbadge]
    · rw [if_neg h2]
      have h3 : (expandRound plot options rect d
          (expandRound plot options rect d (expandRound plot options rect d s).1).1).2 = true := by
        apply expandRound_done
        · intro a; rw [expandRound_dimAxis]
        · apply expandFooter_flag
          intro hs
          rw [expandRound_dimFooter, expandRound_dimAxis_eq,
            ← expandRound_dimAxis_eq plot options rect d s]
          exact expandFooter_ge options rect d _ hs
      rw [if_pos h3]
      refine ⟨_, rfl, expandRound_dimAxis_eq _ _ _ _ _, ?_⟩
      intro a
      rw [expandRound_axisExHeight, expandRound_axisExHeight, expandRound_axisExHeight, hbadge,
        hbadge]

theorem expandLineBreaks_dimAxis (plot : QwtPlot) (options : Options) (rect : QRectF)
    (d : PrivateData) :
    (expandLineBreaks plot options rect d).dimAxis = expandAxisDim plot d := by
  obtain ⟨e, he, h1, _⟩ := expandLoop_three plot options rect d expandInit
  unfold expandLineBreaks
  rw [he]
  exact h1

theorem expandLineBreaks_axisExHeight (plot : QwtPlot) (options : Options) (rect : QRectF)
    (d : PrivateData) (a : Axis) :
    (expandLineBreaks plot options rect d).axisExHeight a = badgeOf plot 0 a := by
  obtain ⟨e, he, _, h2⟩ := expandLoop_three plot options rect d expandInit
  unfold expandLineBreaks
  rw [he]
  exact h2 a

/-! ## The loop over the axes of `activate` -/

theorem fixedDimOfAxis_recordDim (axis a : Axis) (v m : ℤ) (d : PrivateData) :
    fixedDimOfAxis (recordDim axis v m d) a = fixedDimOfAxis d a :=
  ((sameSettings_recordDim axis v m d).fixedDim a).symm

theorem hintDimOfAxis_recordDim (axis a : Axis) (v m : ℤ) (d : PrivateData) :
    hintDimOfAxis (recordDim axis v m d) a = hintDimOfAxis d a :=
  ((sameSettings_recordDim axis v m d).hintDim a).symm

theorem hintMarginOfAxis_recordDim (axis a : Axis) (v m : ℤ) (d : PrivateData) :
    hintMarginOfAxis (recordDim axis v m d) a = hintMarginOfAxis d a :=
  ((sameSettings_recordDim axis v m d).hintMargin a).symm

theorem activateDim_locals (plot : QwtPlot) (s : PrivateData × Locals) (axis : Axis) :
    (activateDim plot s axis).2 =
      { s.2 with
        dimAxes := fun a => if a = axis then hintedDim s.1 s.2.dimAxes a else s.2.dimAxes a
        axisMargin := fun a =>
          if a = axis then hintedMargin s.1 s.2.axisMargin a else s.2.axisMargin a } := by
  unfold activateDim hintedDim hintedMargin
  simp only [fixedDimOfAxis_recordDim, hintDimOfAxis_recordDim, hintMarginOfAxis_recordDim]
  congr 1
  · funext a
    simp only [setAt]
    split_ifs with h <;> first | rfl | rw [h]
  · funext a
    split_ifs with h1 h2 h3 <;> simp_all [setAt]

theorem foldl_activateDim_locals (plot : QwtPlot) (axes : List Axis)
    (s : PrivateData × Locals) :
    (axes.foldl (activateDim plot) s).2 =
      { s.2 with
        dimAxes := fun a => if a ∈ axes then hintedDim s.1 s.2.dimAxes a else s.2.dimAxes a
        axisMargin := fun a =>
          if a ∈ axes then hintedMargin s.1 s.2.axisMargin a else s.2.axisMargin a } := by
  induction axes generalizing s with
  | nil =>
    simp only [List.foldl_nil, List.not_mem_nil, if_false]
  | cons x t ih =>
    simp only [List.foldl_cons]
    rw [ih, activateDim_locals]
    have hf : ∀ a, fixedDimOfAxis (activateDim plot s x).1 a = fixedDimOfAxis s.1 a :=
      fun a => fixedDimOfAxis_recordDim x a _ _ s.1
    have hh : ∀ a, hintDimOfAxis (activateDim plot s x).1 a = hintDimOfAxis s.1 a :=
      fun a => hintDimOfAxis_recordDim x a _ _ s.1
    have hm : ∀ a, hintMarginOfAxis (activateDim plot s x).1 a = hintMarginOfAxis s.1 a :=
      fun a => hintMarginOfAxis_recordDim x a _ _ s.1
    dsimp only
    congr 1
    · funext a
      simp only [hintedMargin, hm, List.mem_cons]
      split_ifs <;> simp_all
    · funext a
      simp only [hintedDim, hf, hh, List.mem_cons]
      split_ifs <;> simp_all

/-- The local variables after the loop over the axes. -/
theorem activateDims_locals (plot : QwtPlot) (s : PrivateData × Locals) :
    (activateDims plot s).2 =
      { s.2 with
        dimAxes := hintedDim s.1 s.2.dimAxes
        axisMargin := hintedMargin s.1 s.2.axisMargin } := by
  unfold activateDims
  rw [foldl_activateDim_locals]
  have hall : ∀ a : Axis, a ∈ Axis.all := by
    intro a; cases a <;> simp [Axis.all]
  simp only [hall, if_true]

end QwtPlotLayout

/-! ## Rectangles -/

namespace QRectF

theorem width_eq (r : QRectF) : r.width = r.right - r.left := by
  simp only [width, right, left]; ring

theorem height_eq (r : QRectF) : r.height = r.bottom - r.top := by
  simp only [height, bottom, top]; ring

end QRectF

theorem subtractedBoundingRect_cases (r l : QRect) :
    subtractedBoundingRect r l = QRect.null ∨
      (r.x1 ≤ (subtractedBoundingRect r l).x1 ∧ (subtractedBoundingRect r l).x2 ≤ r.x2 ∧
        r.y1 ≤ (subtractedBoundingRect r l).y1 ∧ (subtractedBoundingRect r l).y2 ≤ r.y2) := by
  unfold subtractedBoundingRect
  dsimp only
  split_ifs with h1 h2 h3 h4 h5 h6 h7 h8 h9 h10
  all_goals first
    | (left; rfl)
    | (right; exact ⟨le_refl _, le_refl _, le_refl _, le_refl _⟩)
    | (right
       simp only [Bool.and_eq_true, decide_eq_true_eq, not_or, not_lt, not_and, not_le] at *
       refine ⟨?_, ?_, ?_, ?_⟩ <;> omega)

namespace QRectF

theorem ofRect_null : ofRect QRect.null = ⟨0, 0, 0, 0⟩ := by
  simp [ofRect, QRect.null, QRect.x, QRect.y, QRect.width, QRect.height]

/-- For a rectangle with integer coordinates, the rectangle left by the subtraction of a
region is `QRectF(QRect())` or lies within the rectangle. -/
theorem subtracted_within (r : QRectF) (hr : r.isIntegral) (l : QRect) :
    ofRect (subtractedBoundingRect r.toRect l) = ⟨0, 0, 0, 0⟩ ∨
      within (ofRect (subtractedBoundingRect r.toRect l)) r := by
  obtain ⟨a, b, c, e, rfl⟩ := hr
  rw [toRect_intCast]
  rcases subtractedBoundingRect_cases ⟨a, b, a + c - 1, b + e - 1⟩ l with h | ⟨h1, h2, h3, h4⟩
  · left
    rw [h, ofRect_null]
  · right
    dsimp only at h1 h2 h3 h4
    simp only [within, ofRect, QRect.x, QRect.y, QRect.width, QRect.height, left, right, top,
      bottom]
    refine ⟨?_, ?_, ?_, ?_⟩
    · exact_mod_cast h1
    · have : (subtractedBoundingRect ⟨a, b, a + c - 1, b + e - 1⟩ l).x2 + 1 ≤ a + c := by omega
      have h' : (((subtractedBoundingRect ⟨a, b, a + c - 1, b + e - 1⟩ l).x2 + 1 : ℤ) : ℚ)
          ≤ ((a + c : ℤ) : ℚ) := Int.cast_le.mpr this
      push_cast at h' ⊢
      linarith
    · exact_mod_cast h3
    · have : (subtractedBoundingRect ⟨a, b, a + c - 1, b + e - 1⟩ l).y2 + 1 ≤ b + e := by omega
      have h' : (((subtractedBoundingRect ⟨a, b, a + c - 1, b + e - 1⟩ l).y2 + 1 : ℤ) : ℚ)
          ≤ ((b + e : ℤ) : ℚ) := Int.cast_le.mpr this
      push_cast at h' ⊢
      linarith

end QRectF

namespace QwtPlotLayout

/-! ## The working rectangle of `activate` -/

theorem marginRect_left (l : Locals) :
    (marginRect l).left =
      l.rect.left + (l.axisMargin Axis.yLeft : ℚ) - (l.axisSubtracted Axis.yLeft : ℚ) := by
  simp only [marginRect, QRectF.setTop, QRectF.setBottom, QRectF.setLeft, QRectF.setRight,
    QRectF.left, QRectF.right, QRectF.top, QRectF.bottom]
  ring

theorem marginRect_right (l : Locals) :
    (marginRect l).right =
      l.rect.right - (l.axisMargin Axis.yRight : ℚ) + (l.axisSubtracted Axis.yRight : ℚ) := by
  simp only [marginRect, QRectF.setTop, QRectF.setBottom, QRectF.setLeft, QRectF.setRight,
    QRectF.left, QRectF.right, QRectF.top, QRectF.bottom]
  ring

theorem marginRect_top (l : Locals) :
    (marginRect l).top =
      l.rect.top + (l.axisMargin Axis.xTop : ℚ) - (l.axisSubtracted Axis.xTop : ℚ) := by
  simp only [marginRect, QRectF.setTop, QRectF.setBottom, QRectF.setLeft, QRectF.setRight,
    QRectF.left, QRectF.right, QRectF.top, QRectF.bottom]
  ring

theorem marginRect_bottom (l : Locals) :
    (marginRect l).bottom =
      l.rect.bottom - (l.axisMargin Axis.xBottom : ℚ) + (l.axisSubtracted Axis.xBottom : ℚ) := by
  simp only [marginRect, QRectF.setTop, QRectF.setBottom, QRectF.setLeft, QRectF.setRight,
    QRectF.left, QRectF.right, QRectF.top, QRectF.bottom]
  ring

theorem Inward.rfl_inward (l : Locals) : Inward l l :=
  ⟨le_refl _, le_refl _, le_refl _, le_refl _⟩

theorem Inward.then_inward {a b c : Locals} (h1 : Inward a b) (h2 : Inward b c) : Inward a c :=
  ⟨le_trans h1.1 h2.1, le_trans h2.2.1 h1.2.1, le_trans h1.2.2.1 h2.2.2.1,
    le_trans h2.2.2.2 h1.2.2.2⟩

theorem inward_activateTitle (options : Options) (s : PrivateData × Locals) :
    Inward s.2 (activateTitle options s).2 := by
  unfold activateTitle
  dsimp only
  split_ifs
  all_goals
    refine ⟨le_of_eq ?_, le_of_eq ?_, le_of_eq ?_, le_of_eq ?_⟩ <;>
    simp only [marginRect_left, marginRect_right, marginRect_top, marginRect_bottom] <;>
    simp only [setAt, QRectF.setTop, QRectF.left, QRectF.right, QRectF.top, QRectF.bottom,
      if_true, reduceCtorEq, if_false] <;>
    (try push_cast) <;> ring

theorem inward_activateFooter (s : PrivateData × Locals) :
    Inward s.2 (activateFooter s).2 := by
  unfold activateFooter
  dsimp only
  split_ifs
  all_goals
    refine ⟨le_of_eq ?_, le_of_eq ?_, le_of_eq ?_, le_of_eq ?_⟩ <;>
    simp only [marginRect_left, marginRect_right, marginRect_top, marginRect_bottom] <;>
    simp only [setAt, QRectF.setBottom, QRectF.left, QRectF.right, QRectF.top, QRectF.bottom,
      if_true, reduceCtorEq, if_false] <;>
    (try push_cast) <;> ring

theorem inward_activateDims (plot : QwtPlot) (s : PrivateData × Locals) :
    Inward s.2 (activateDims plot s).2 := by
  rw [activateDims_locals]
  refine ⟨?_, ?_, ?_, ?_⟩ <;>
    simp only [marginRect_left, marginRect_right, marginRect_top, marginRect_bottom,
      hintedMargin] <;>
    push_cast <;>
    linarith [le_max_left ((s.2.axisMargin Axis.yLeft : ℤ) : ℚ) (hintMarginOfAxis s.1 Axis.yLeft : ℚ),
      le_max_left ((s.2.axisMargin Axis.yRight : ℤ) : ℚ) (hintMarginOfAxis s.1 Axis.yRight : ℚ),
      le_max_left ((s.2.axisMargin Axis.xTop : ℤ) : ℚ) (hintMarginOfAxis s.1 Axis.xTop : ℚ),
      le_max_left ((s.2.axisMargin Axis.xBottom : ℤ) : ℚ) (hintMarginOfAxis s.1 Axis.xBottom : ℚ)]

theorem inward_activateExpand (plot : QwtPlot) (options : Options) (s : PrivateData × Locals) :
    Inward s.2 (activateExpand plot options s).2 := by
  unfold activateExpand
  dsimp only
  have hsp : (0 : ℤ) ≤ (s.1.spacing : ℤ) := Int.natCast_nonneg _
  refine ⟨?_, ?_, ?_, ?_⟩ <;>
    simp only [marginRect_left, marginRect_right, marginRect_top, marginRect_bottom, setAt] <;>
    (try simp) <;> split_ifs <;>
    first
    | linarith
    | (have h1 : ((0 : ℤ) : ℚ) ≤ ((s.2.dimTitle + (s.1.spacing : ℤ) : ℤ) : ℚ) :=
         Int.cast_le.mpr (by omega)
       push_cast at h1; linarith)
    | (have h1 : ((0 : ℤ) : ℚ) ≤
           (((expandLineBreaks plot options s.2.rect s.1).dimFooter + (s.1.spacing : ℤ) : ℤ) : ℚ) :=
         Int.cast_le.mpr (by omega)
       push_cast at h1; linarith)

theorem layoutLegend_height_top (options : Options) (rect : QRectF) (d : PrivateData)
    (h : d.legendPos = LegendLayout.TopLegend) :
    ∃ n : ℤ, (layoutLegend options rect d).1.height = (n : ℚ) := by
  unfold layoutLegend
  simp only [h]
  exact ⟨_, rfl⟩

theorem addAt_intCast (arr : Axis → ℤ) (axis : Axis) (n : ℤ) :
    addAt arr axis (n : ℚ) = setAt arr axis (arr axis + n) := by
  unfold addAt
  rw [← Int.cast_add, cInt_intCast]

/-- The legend step of `activate` on a working rectangle with integer coordinates: the
working rectangle shrinks, or it is left with no width at all. -/
theorem legend_inward (plot : QwtPlot) (options : Options) (s : PrivateData × Locals)
    (hint : s.2.rect.isIntegral)
    (hL : s.2.axisMargin Axis.yLeft = s.2.axisSubtracted Axis.yLeft)
    (hR : s.2.axisMargin Axis.yRight = s.2.axisSubtracted Axis.yRight)
    (hB : s.2.axisMargin Axis.xBottom = s.2.axisSubtracted Axis.xBottom) :
    Inward s.2 (activateLegend plot options s).2 ∨
      (marginRect (activateLegend plot options s).2).right ≤
        (marginRect (activateLegend plot options s).2).left := by
  have hpos := (sameSettings_layoutLegend options s.2.rect s.1).legendPos
  have hspc := (sameSettings_layoutLegend options s.2.rect s.1).spacing
  have hsp : (0 : ℚ) ≤ ((s.1.spacing : ℕ) : ℚ) := Nat.cast_nonneg _
  unfold activateLegend
  by_cases hs : legendShown plot options s.1 = true
  swap
  · rw [if_neg hs]
    exact Or.inl (Inward.rfl_inward _)
  rw [if_pos hs]
  unfold legendLocals
  dsimp only
  rw [← hpos, ← hspc]
  have hsub := QRectF.subtracted_within s.2.rect hint (layoutLegend options s.2.rect s.1).1.toRect
  generalize QRectF.ofRect (subtractedBoundingRect s.2.rect.toRect
    (layoutLegend options s.2.rect s.1).1.toRect) = r1 at hsub
  cases hp : s.1.legendPos with
  | FloatLegend =>
    simp only [ne_eq, not_true_eq_false, if_false]
    exact Or.inl (Inward.rfl_inward _)
  | HideLegend =>
    simp only [ne_eq, reduceCtorEq, not_false_eq_true, if_true]
    rcases hsub with h0 | hw
    · right
      subst h0
      simp only [marginRect_left, marginRect_right]
      simp only [QRectF.left, QRectF.right, hL, hR]
      linarith
    · left
      simp only [QRectF.within] at hw
      refine ⟨?_, ?_, ?_, ?_⟩ <;>
        simp only [marginRect_left, marginRect_right, marginRect_top, marginRect_bottom] <;>
        linarith [hw.1, hw.2.1, hw.2.2.1, hw.2.2.2]
  | LeftLegend =>
    simp only [ne_eq, reduceCtorEq, not_false_eq_true, if_true]
    rcases hsub with h0 | hw
    · right
      subst h0
      simp only [marginRect_left, marginRect_right]
      simp only [QRectF.left, QRectF.right, QRectF.setLeft, addAt, setAt, if_true, reduceCtorEq,
        if_false, hL, hR]
      linarith
    · left
      simp only [QRectF.within] at hw
      refine ⟨?_, ?_, ?_, ?_⟩ <;>
        simp only [marginRect_left, marginRect_right, marginRect_top, marginRect_bottom] <;>
        simp only [QRectF.left, QRectF.right, QRectF.top, QRectF.bottom, QRectF.setLeft,
          addAt, setAt, if_true, reduceCtorEq, if_false, hL, hR] <;>
        simp only [QRectF.left, QRectF.right, QRectF.top, QRectF.bottom] at hw <;>
        linarith [hw.1, hw.2.1, hw.2.2.1, hw.2.2.2]
  | RightLegend =>
    simp only [ne_eq, reduceCtorEq, not_false_eq_true, if_true]
    rcases hsub with h0 | hw
    · right
      subst h0
      simp only [marginRect_left, marginRect_right]
      simp only [QRectF.left, QRectF.right, QRectF.setRight, addAt, setAt, if_true, reduceCtorEq,
        if_false, hL, hR]
      linarith
    · left
      simp only [QRectF.within] at hw
      refine ⟨?_, ?_, ?_, ?_⟩ <;>
        simp only [marginRect_left, marginRect_right, marginRect_top, marginRect_bottom] <;>
        simp only [QRectF.left, QRectF.right, QRectF.top, QRectF.bottom, QRectF.setRight,
          addAt, setAt, if_true, reduceCtorEq, if_false, hL, hR] <;>
        simp only [QRectF.left, QRectF.right, QRectF.top, QRectF.bottom] at hw <;>
        linarith [hw.1, hw.2.1, hw.2.2.1, hw.2.2.2]
  | BottomLegend =>
    simp only [ne_eq, reduceCtorEq, not_false_eq_true, if_true]
    rcases hsub with h0 | hw
    · right
      subst h0
      simp only [marginRect_left, marginRect_right]
      simp only [QRectF.left, QRectF.right, QRectF.setBottom, addAt, setAt, if_true, reduceCtorEq,
        if_false, hL, hR]
      linarith
    · left
      simp only [QRectF.within] at hw
      refine ⟨?_, ?_, ?_, ?_⟩ <;>
        simp only [marginRect_left, marginRect_right, marginRect_top, marginRect_bottom] <;>
        simp only [QRectF.left, QRectF.right, QRectF.top, QRectF.bottom, QRectF.setBottom,
          addAt, setAt, if_true, reduceCtorEq, if_false, hB] <;>
        simp only [QRectF.left, QRectF.right, QRectF.top, QRectF.bottom] at hw <;>
        linarith [hw.1, hw.2.1, hw.2.2.1, hw.2.2.2]
  | TopLegend =>
    simp only [ne_eq, reduceCtorEq, not_false_eq_true, if_true]
    obtain ⟨n, hn⟩ := layoutLegend_height_top options s.2.rect s.1 hp
    have hv : (layoutLegend options s.2.rect s.1).1.height + ((s.1.spacing : ℕ) : ℚ) =
        ((n + (s.1.spacing : ℤ) : ℤ) : ℚ) := by
      rw [hn]; push_cast; ring
    rw [hv, addAt_intCast, addAt_intCast]
    rcases hsub with h0 | hw
    · right
      subst h0
      simp only [marginRect_left, marginRect_right]
      simp only [QRectF.left, QRectF.right, QRectF.setTop, addAt, setAt, if_true, reduceCtorEq,
        if_false, hL, hR]
      linarith
    · left
      simp only [QRectF.within] at hw
      refine ⟨?_, ?_, ?_, ?_⟩ <;>
        simp only [marginRect_left, marginRect_right, marginRect_top, marginRect_bottom] <;>
        simp only [QRectF.left, QRectF.right, QRectF.top, QRectF.bottom, QRectF.setTop,
          setAt, if_true, reduceCtorEq, if_false] <;>
        simp only [QRectF.left, QRectF.right, QRectF.top, QRectF.bottom] at hw <;>
        push_cast <;>
        linarith [hw.1, hw.2.1, hw.2.2.1, hw.2.2.2]

/-! ## The resolved dimensions -/

theorem hintedDim_congr {a b : PrivateData} (h : SameSettings a b) (f : Axis → ℤ) :
    hintedDim a f = hintedDim b f := by
  funext x
  unfold hintedDim fixedDimOfAxis hintDimOfAxis
  rw [h.fixedDim x, h.hintDim x]

theorem coupledDim_congr {a b : PrivateData} (h : SameSettings a b) (f g : Axis → ℤ) :
    coupledDim a f g = coupledDim b f g := by
  unfold coupledDim
  rw [h.fixedDim Axis.xTop, h.fixedDim Axis.yRight]

theorem activateTitle_layoutData (options : Options) (s : PrivateData × Locals) :
    (activateTitle options s).1.layoutData = s.1.layoutData := by
  unfold activateTitle
  dsimp only
  split_ifs <;> rfl

theorem layoutLegend_layoutData (options : Options) (rect : QRectF) (d : PrivateData) :
    (layoutLegend options rect d).2.layoutData =
      { d.layoutData with legend := (layoutLegend options rect d).2.layoutData.legend } := by
  unfold layoutLegend
  cases h : d.legendPos <;> rfl

theorem activateLegend_layoutData (plot : QwtPlot) (options : Options)
    (s : PrivateData × Locals) :
    (activateLegend plot options s).1.layoutData =
      { s.1.layoutData with legend := (activateLegend plot options s).1.layoutData.legend } := by
  have h := layoutLegend_layoutData options s.2.rect s.1
  unfold activateLegend
  dsimp only
  split_ifs
  · exact h
  · rfl

theorem expandAxisDim_initScale (plot : QwtPlot) (d : PrivateData) (sc : ScaleData) (a : Axis)
    (h : d.layoutData.scale a =
      LayoutData.initScale (plot.axisEnabled a) (plot.axisWidget a) sc) :
    expandAxisDim plot d a =
      if plot.axisEnabled a then
        (if sc.fixedDim ≠ 0 then sc.fixedDim
         else (plot.axisWidget a).dimForLength QWIDGETSIZE_MAX)
      else sc.fixedDim := by
  have hq : qFloor ((QWIDGETSIZE_MAX : ℤ) : ℚ) = QWIDGETSIZE_MAX := Int.floor_intCast _
  unfold expandAxisDim
  rw [h]
  unfold LayoutData.initScale
  dsimp only
  rw [hq]
  split_ifs <;> simp_all

theorem activateFooter_dimAxes (s : PrivateData × Locals) :
    (activateFooter s).2.dimAxes = s.2.dimAxes ∧
      (activateFooter s).2.axisExHeight = s.2.axisExHeight := by
  unfold activateFooter
  dsimp only
  split_ifs <;> exact ⟨rfl, rfl⟩

theorem activateExpand_dimAxes (plot : QwtPlot) (options : Options) (s : PrivateData × Locals) :
    (activateExpand plot options s).2.dimAxes =
        coupledDim s.1 (expandAxisDim plot s.1) (badgeOf plot 0) ∧
      (activateExpand plot options s).2.axisExHeight = badgeOf plot 0 := by
  have hex : (expandLineBreaks plot options s.2.rect s.1).axisExHeight = badgeOf plot 0 :=
    funext (expandLineBreaks_axisExHeight plot options s.2.rect s.1)
  unfold activateExpand
  dsimp only
  rw [expandLineBreaks_dimAxis, hex]
  exact ⟨rfl, rfl⟩

theorem sameSettings_beforeExpand (plot : QwtPlot) (plotRect : QRectF) (options : Options)
    (d : PrivateData) :
    SameSettings d (activateLegend plot options
      (activateTitle options (activateStart plot plotRect d))).1 :=
  ((sameSettings_activateStart plot plotRect d).then_settings
    (sameSettings_activateTitle options (activateStart plot plotRect d))).then_settings
    (sameSettings_activateLegend plot options
      (activateTitle options (activateStart plot plotRect d)))

theorem expandAxisDim_stages (plot : QwtPlot) (plotRect : QRectF) (options : Options)
    (d : PrivateData) :
    expandAxisDim plot (activateLegend plot options
      (activateTitle options (activateStart plot plotRect d))).1 = resolvedDim plot d := by
  funext a
  rw [expandAxisDim_initScale plot _ (d.layoutData.scale a) a]
  · rfl
  · rw [activateLegend_layoutData, activateTitle_layoutData]
    rfl

/-- The axis dimensions and the sizes of the index badges that `activate` lays the
canvas out with. -/
theorem stages_dimAxes (plot : QwtPlot) (plotRect : QRectF) (options : Options)
    (d : PrivateData) :
    (activateStages plot plotRect options d).2.dimAxes = finalDim plot d ∧
      (activateStages plot plotRect options d).2.axisExHeight = badgeOf plot 0 := by
  have hs := sameSettings_beforeExpand plot plotRect options d
  unfold activateStages finalDim
  rw [(activateFooter_dimAxes _).1, (activateFooter_dimAxes _).2, activateDims_locals]
  dsimp only
  rw [(activateExpand_dimAxes _ _ _).1, (activateExpand_dimAxes _ _ _).2, expandAxisDim_stages]
  refine ⟨?_, rfl⟩
  rw [← coupledDim_congr hs]
  exact (hintedDim_congr hs _).symm

theorem coupledDim_nonneg (d : PrivateData) (f g : Axis → ℤ) (hf : ∀ a, 0 ≤ f a) (a : Axis) :
    0 ≤ coupledDim d f g a := by
  unfold coupledDim
  cases a <;> simp only [setAt, if_true, reduceCtorEq, if_false] <;> (try split_ifs) <;>
    first
    | exact hf _
    | exact le_trans (le_trans (hf _) (le_max_left _ _)) (le_max_left _ _)

theorem hintedDim_nonneg (d : PrivateData) (f : Axis → ℤ) (hf : ∀ a, 0 ≤ f a) (a : Axis) :
    0 ≤ hintedDim d f a := by
  unfold hintedDim
  split_ifs
  · exact le_trans (hf a) (le_max_left _ _)
  · exact hf a

theorem resolvedDim_nonneg (plot : QwtPlot) (d : PrivateData)
    (hfix : ∀ a, 0 ≤ fixedDimOfAxis d a)
    (hdim : ∀ a, plot.axisEnabled a = true →
      0 ≤ (plot.axisWidget a).dimForLength QWIDGETSIZE_MAX) (a : Axis) :
    0 ≤ resolvedDim plot d a := by
  unfold resolvedDim
  split_ifs with h1 h2
  · exact hfix a
  · exact hdim a h1
  · exact hfix a

theorem finalDim_nonneg (plot : QwtPlot) (d : PrivateData)
    (hfix : ∀ a, 0 ≤ fixedDimOfAxis d a)
    (hdim : ∀ a, plot.axisEnabled a = true →
      0 ≤ (plot.axisWidget a).dimForLength QWIDGETSIZE_MAX) (a : Axis) :
    0 ≤ finalDim plot d a :=
  hintedDim_nonneg d _ (coupledDim_nonneg d _ _ (resolvedDim_nonneg plot d hfix hdim)) a

/-! ## The working rectangle stays inside of the bounding rectangle -/

theorem activateTitle_pre (options : Options) (plot : QwtPlot) (plotRect : QRectF)
    (d : PrivateData) (hint : plotRect.isIntegral) :
    (activateTitle options (activateStart plot plotRect d)).2.rect.isIntegral ∧
      (activateTitle options (activateStart plot plotRect d)).2.axisMargin Axis.yLeft =
        (activateTitle options (activateStart plot plotRect d)).2.axisSubtracted Axis.yLeft ∧
      (activateTitle options (activateStart plot plotRect d)).2.axisMargin Axis.yRight =
        (activateTitle options (activateStart plot plotRect d)).2.axisSubtracted Axis.yRight ∧
      (activateTitle options (activateStart plot plotRect d)).2.axisMargin Axis.xBottom =
        (activateTitle options (activateStart plot plotRect d)).2.axisSubtracted Axis.xBottom := by
  obtain ⟨a, b, c, e, rfl⟩ := hint
  unfold activateTitle activateStart Locals.start
  dsimp only
  split_ifs
  · refine ⟨⟨a, b + (qCeil ((LayoutData.init plot ⟨a, b, c, e⟩
        (invalidate d).layoutData).title.text.heightForWidth (c : ℚ)) +
        2 * (LayoutData.init plot ⟨a, b, c, e⟩ (invalidate d).layoutData).title.frameWidth +
        ((invalidate d).spacing : ℤ)), c,
        e - (qCeil ((LayoutData.init plot ⟨a, b, c, e⟩
        (invalidate d).layoutData).title.text.heightForWidth (c : ℚ)) +
        2 * (LayoutData.init plot ⟨a, b, c, e⟩ (invalidate d).layoutData).title.frameWidth +
        ((invalidate d).spacing : ℤ)), ?_⟩, rfl, rfl, rfl⟩
    simp only [QRectF.setTop, QRectF.bottom, QRectF.left, QRectF.top, QRectF.width,
      QRectF.mk.injEq]
    push_cast
    refine ⟨trivial, ?_, trivial, ?_⟩ <;> ring
  · refine ⟨⟨a, b + (qCeil ((LayoutData.init plot ⟨a, b, c, e⟩
        (invalidate d).layoutData).title.text.heightForWidth (c : ℚ)) +
        ((invalidate d).spacing : ℤ)), c,
        e - (qCeil ((LayoutData.init plot ⟨a, b, c, e⟩
        (invalidate d).layoutData).title.text.heightForWidth (c : ℚ)) +
        ((invalidate d).spacing : ℤ)), ?_⟩, rfl, rfl, rfl⟩
    simp only [QRectF.setTop, QRectF.bottom, QRectF.left, QRectF.top, QRectF.width,
      QRectF.mk.injEq]
    push_cast
    refine ⟨trivial, ?_, trivial, ?_⟩ <;> ring
  · exact ⟨⟨a, b, c, e, rfl⟩, rfl, rfl, rfl⟩

theorem marginRect_start (plotRect : QRectF) :
    (marginRect (Locals.start plotRect)).left = plotRect.left ∧
      (marginRect (Locals.start plotRect)).right = plotRect.right ∧
      (marginRect (Locals.start plotRect)).top = plotRect.top ∧
      (marginRect (Locals.start plotRect)).bottom = plotRect.bottom := by
  refine ⟨?_, ?_, ?_, ?_⟩ <;>
    simp only [marginRect_left, marginRect_right, marginRect_top, marginRect_bottom] <;>
    simp [Locals.start]

/-- For a bounding rectangle with integer coordinates, the working rectangle from which
the canvas is cut lies within the bounding rectangle, or it has no width. -/
theorem stages_inward (plot : QwtPlot) (plotRect : QRectF) (options : Options)
    (d : PrivateData) (hint : plotRect.isIntegral) :
    (marginRect (activateStages plot plotRect options d).2).within plotRect ∨
      (marginRect (activateStages plot plotRect options d).2).right ≤
        (marginRect (activateStages plot plotRect options d).2).left := by
  obtain ⟨hi, hL, hR, hB⟩ := activateTitle_pre options plot plotRect d hint
  have h1 := inward_activateTitle options (activateStart plot plotRect d)
  have h2 := legend_inward plot options _ hi hL hR hB
  have h3 := inward_activateExpand plot options (activateLegend plot options
    (activateTitle options (activateStart plot plotRect d)))
  have h4 := inward_activateDims plot (activateExpand plot options (activateLegend plot options
    (activateTitle options (activateStart plot plotRect d))))
  have h5 := inward_activateFooter (activateDims plot (activateExpand plot options
    (activateLegend plot options (activateTitle options (activateStart plot plotRect d)))))
  have h345 := (h3.then_inward h4).then_inward h5
  obtain ⟨e1, e2, e3, e4⟩ := marginRect_start plotRect
  unfold activateStages
  rcases h2 with h2 | h2
  · left
    have h := (h1.then_inward h2).then_inward h345
    have hst : (activateStart plot plotRect d).2 = Locals.start plotRect := rfl
    rw [hst] at h
    unfold Inward at h
    rw [e1, e2, e3, e4] at h
    exact ⟨h.1, h.2.1, h.2.2.1, h.2.2.2⟩
  · right
    exact le_trans h345.2.1 (le_trans h2 h345.1)

/-! ## Containment of the canvas and the collapse threshold -/

theorem provisionalCanvas_edges (l : Locals) :
    (provisionalCanvas l).left = (marginRect l).left + (l.dimAxes Axis.yLeft : ℚ) ∧
      (provisionalCanvas l).right = (marginRect l).right - (l.dimAxes Axis.yRight : ℚ) ∧
      (provisionalCanvas l).top = (marginRect l).top + (l.dimAxes Axis.xTop : ℚ) ∧
      (provisionalCanvas l).bottom = (marginRect l).bottom - (l.dimAxes Axis.xBottom : ℚ) := by
  unfold provisionalCanvas
  simp only [QRectF.left, QRectF.right, QRectF.top, QRectF.bottom, QRectF.x, QRectF.y,
    QRectF.width, QRectF.height]
  refine ⟨trivial, ?_, trivial, ?_⟩ <;> ring

/-- The provisional canvas of `activate` for a bounding rectangle with integer
coordinates and axis dimensions that are not negative: it lies within the bounding
rectangle, or it has no width. -/
theorem provisionalCanvas_within (plot : QwtPlot) (plotRect : QRectF) (options : Options)
    (d : PrivateData) (hint : plotRect.isIntegral)
    (hfix : ∀ a, 0 ≤ fixedDimOfAxis d a)
    (hdim : ∀ a, plot.axisEnabled a = true →
      0 ≤ (plot.axisWidget a).dimForLength QWIDGETSIZE_MAX) :
    ((provisionalCanvas (activateStages plot plotRect options d).2).within plotRect ∧
        (provisionalCanvas (activateStages plot plotRect options d).2).width ≤ plotRect.width ∧
        (provisionalCanvas (activateStages plot plotRect options d).2).height
          ≤ plotRect.height) ∨
      (provisionalCanvas (activateStages plot plotRect options d).2).width ≤ 0 := by
  obtain ⟨e1, e2, e3, e4⟩ := provisionalCanvas_edges (activateStages plot plotRect options d).2
  have hd : ∀ a, (0 : ℚ) ≤ ((activateStages plot plotRect options d).2.dimAxes a : ℚ) := by
    intro a
    rw [(stages_dimAxes plot plotRect options d).1]
    exact_mod_cast finalDim_nonneg plot d hfix hdim a
  have hL := hd Axis.yLeft
  have hR := hd Axis.yRight
  have hT := hd Axis.xTop
  have hB := hd Axis.xBottom
  rcases stages_inward plot plotRect options d hint with h | h
  · left
    unfold QRectF.within at h ⊢
    rw [QRectF.width_eq, QRectF.height_eq, QRectF.width_eq plotRect, QRectF.height_eq plotRect,
      e1, e2, e3, e4]
    refine ⟨⟨?_, ?_, ?_, ?_⟩, ?_, ?_⟩ <;> linarith [h.1, h.2.1, h.2.2.1, h.2.2.2]
  · right
    rw [QRectF.width_eq, e1, e2]
    linarith

set_option maxRecDepth 8000 in
/-- C1 fails as stated.  With a legend docked at the bottom the working rectangle is
rounded to integer coordinates, so for the bounding rectangle (0.25, 0, 100, 100) the
canvas starts at x = 0, left of the bounding rectangle.  And with no minimal canvas size
and no spacing, a legend that covers the whole bounding rectangle (100, 100, 50, 10)
leaves the canvas at the origin. -/
theorem canvasRect_within_counterexample :
    ¬ (activate Example.plotNoAxes ⟨1 / 4, 0, 100, 100⟩ Example.options
        QwtPlotLayout.new).canvasRect.within ⟨1 / 4, 0, 100, 100⟩ ∧
    ¬ (activate { Example.plotNoAxes with
          legend := some ⟨0, 0, 16, ⟨20, 8⟩, fun _ => 8, false⟩ }
        ⟨100, 100, 50, 10⟩ Example.options
        (setSpacing 0 (setCanvasMinSize 0 0 QwtPlotLayout.new))).canvasRect.within
        ⟨100, 100, 50, 10⟩ := by
  constructor
  · with_unfolding_all decide
  · with_unfolding_all decide

/-- C1 (amended): for every bounding rectangle with integer coordinates and every
configuration with non-negative axis dimensions and a positive minimal canvas width,
after `activate` the canvas rectangle is contained in the bounding rectangle, in the
normal layout and in the collapsed layout alike. -/
theorem canvasRect_within (plot : QwtPlot) (plotRect : QRectF) (options : Options)
    (d : PrivateData) (hint : plotRect.isIntegral)
    (hfix : ∀ a, 0 ≤ fixedDimOfAxis d a)
    (hdim : ∀ a, plot.axisEnabled a = true →
      0 ≤ (plot.axisWidget a).dimForLength QWIDGETSIZE_MAX)
    (hmin : 0 < d.minCanvasWidth) :
    (activate plot plotRect options d).canvasRect.within plotRect := by
  have hts := activate_tooSmall plot plotRect options d
  unfold activate activateFinish
  dsimp only
  split_ifs with h
  · rw [activateCollapsed_eq]
    exact QRectF.within_refl plotRect
  · rw [activateNormal_eq]
    dsimp only
    rw [hts] at h
    rcases provisionalCanvas_within plot plotRect options d hint hfix hdim with hw | hw
    · exact hw.1
    · exfalso
      apply h
      right
      have : (0 : ℚ) < (d.minCanvasWidth : ℚ) := by exact_mod_cast hmin
      linarith

theorem Example.new_fixedDim (a : Axis) : 0 ≤ fixedDimOfAxis QwtPlotLayout.new a := by
  cases a <;> with_unfolding_all decide

theorem Example.plotAxes_dim (a : Axis) (_ : Example.plotAxes.axisEnabled a = true) :
    0 ≤ (Example.plotAxes.axisWidget a).dimForLength QWIDGETSIZE_MAX := by
  show (0 : ℤ) ≤ 20
  decide

theorem Example.isIntegral_300_500 : (⟨0, 0, 300, 500⟩ : QRectF).isIntegral :=
  ⟨0, 0, 300, 500, by norm_num⟩

theorem Example.isIntegral_30_500 : (⟨0, 0, 30, 500⟩ : QRectF).isIntegral :=
  ⟨0, 0, 30, 500, by norm_num⟩

/-- Witness for `canvasRect_within`: the plot with four axes and a legend in the
bounding rectangle (0, 0, 300, 500). -/
theorem canvasRect_within_witness :
    (activate Example.plotAxes ⟨0, 0, 300, 500⟩ Example.options
      QwtPlotLayout.new).canvasRect.within ⟨0, 0, 300, 500⟩ :=
  canvasRect_within Example.plotAxes ⟨0, 0, 300, 500⟩ Example.options QwtPlotLayout.new
    Example.isIntegral_300_500 Example.new_fixedDim Example.plotAxes_dim
    (by with_unfolding_all decide)

theorem null_isEmpty : QRectF.null.isEmpty = true := by
  with_unfolding_all decide

set_option maxRecDepth 8000 in
/-- C4 fails as stated.  The bounding rectangle (0, 0, 39.5, 500) is narrower than the
minimal canvas width 40, but with a legend docked at the bottom the working rectangle is
rounded to the width 40 and the layout does not collapse. -/
theorem collapse_threshold_counterexample :
    (⟨0, 0, 79 / 2, 500⟩ : QRectF).width < (QwtPlotLayout.new.minCanvasWidth : ℚ) ∧
    scaleVisible (activate Example.plotNoAxes ⟨0, 0, 79 / 2, 500⟩ Example.options
      QwtPlotLayout.new) = true ∧
    (activate Example.plotNoAxes ⟨0, 0, 79 / 2, 500⟩ Example.options
      QwtPlotLayout.new).canvasRect ≠ ⟨0, 0, 79 / 2, 500⟩ := by
  refine ⟨?_, ?_, ?_⟩
  · with_unfolding_all decide
  · with_unfolding_all decide
  · with_unfolding_all decide

/-- C4 (amended): for every bounding rectangle with integer coordinates whose width is
below `minCanvasWidth` or whose height is below `minCanvasHeight`, whatever the legend
position, title, footer and enabled axes (axis dimensions non-negative, minimal canvas
width positive), `activate` ends with the canvas rectangle equal to the bounding
rectangle, an empty legend rectangle and `scaleVisible() == false`. -/
theorem collapse_threshold (plot : QwtPlot) (plotRect : QRectF) (options : Options)
    (d : PrivateData) (hint : plotRect.isIntegral)
    (hfix : ∀ a, 0 ≤ fixedDimOfAxis d a)
    (hdim : ∀ a, plot.axisEnabled a = true →
      0 ≤ (plot.axisWidget a).dimForLength QWIDGETSIZE_MAX)
    (hmin : 0 < d.minCanvasWidth)
    (hsmall : plotRect.width < (d.minCanvasWidth : ℚ) ∨
      plotRect.height < (d.minCanvasHeight : ℚ)) :
    (activate plot plotRect options d).canvasRect = plotRect ∧
      (activate plot plotRect options d).legendRect.isEmpty = true ∧
      scaleVisible (activate plot plotRect options d) = false := by
  have hts := activate_tooSmall plot plotRect options d
  have hsm : canvasTooSmall { (activateStages plot plotRect options d).1 with
        canvasRect := provisionalCanvas (activateStages plot plotRect options d).2 }
      (provisionalCanvas (activateStages plot plotRect options d).2) = true := by
    rw [hts]
    have hm : (0 : ℚ) < (d.minCanvasWidth : ℚ) := by exact_mod_cast hmin
    rcases provisionalCanvas_within plot plotRect options d hint hfix hdim with hw | hw
    · rcases hsmall with h | h
      · right; linarith [hw.2.1]
      · left; linarith [hw.2.2]
    · right; linarith
  unfold activate activateFinish scaleVisible
  dsimp only
  rw [if_pos hsm, activateCollapsed_eq]
  exact ⟨rfl, null_isEmpty, rfl⟩

/-- Witness for `collapse_threshold`: minimal canvas size 40 x 40 and the bounding
rectangle 30 x 500. -/
theorem collapse_threshold_witness :
    (activate Example.plotAxes ⟨0, 0, 30, 500⟩ Example.options
        QwtPlotLayout.new).canvasRect = ⟨0, 0, 30, 500⟩ ∧
      (activate Example.plotAxes ⟨0, 0, 30, 500⟩ Example.options
        QwtPlotLayout.new).legendRect.isEmpty = true ∧
      scaleVisible (activate Example.plotAxes ⟨0, 0, 30, 500⟩ Example.options
        QwtPlotLayout.new) = false :=
  collapse_threshold Example.plotAxes ⟨0, 0, 30, 500⟩ Example.options QwtPlotLayout.new
    Example.isIntegral_30_500 Example.new_fixedDim Example.plotAxes_dim
    (by with_unfolding_all decide) (Or.inl (by with_unfolding_all decide))

/-! ## What every step of `activate` writes -/

theorem activateTitle_state (options : Options) (s : PrivateData × Locals) :
    (activateTitle options s).1 =
      { s.1 with titleRect := (activateTitle options s).1.titleRect } := by
  unfold activateTitle
  dsimp only
  split_ifs <;> rfl

theorem layoutLegend_state (options : Options) (rect : QRectF) (d : PrivateData) :
    (layoutLegend options rect d).2 =
      { d with layoutData :=
          { d.layoutData with legend := (layoutLegend options rect d).2.layoutData.legend } } := by
  unfold layoutLegend
  cases h : d.legendPos <;> simp only [h]

theorem activateLegend_state (plot : QwtPlot) (options : Options) (s : PrivateData × Locals) :
    (activateLegend plot options s).1 =
      { s.1 with
        legendRect := (activateLegend plot options s).1.legendRect
        layoutData := { s.1.layoutData with
          legend := (activateLegend plot options s).1.layoutData.legend } } := by
  have h := layoutLegend_state options s.2.rect s.1
  unfold activateLegend
  dsimp only
  split_ifs with hs
  · dsimp only
    rw [h]
  · rfl

theorem foldl_activateDim_state (plot : QwtPlot) (axes : List Axis) (s : PrivateData × Locals) :
    (axes.foldl (activateDim plot) s).1 =
      { s.1 with
        dimChanged := (axes.foldl (activateDim plot) s).1.dimChanged
        layoutData := { s.1.layoutData with
          scale := (axes.foldl (activateDim plot) s).1.layoutData.scale } } := by
  induction axes generalizing s with
  | nil => rfl
  | cons x t ih =>
    simp only [List.foldl_cons]
    rw [ih]
    have h : (activateDim plot s x).1 = recordDim x (autoScaleDim plot s.2 x)
      (s.2.axisMargin x) s.1 := rfl
    rw [h, recordDim_eq]

theorem activateDims_state (plot : QwtPlot) (s : PrivateData × Locals) :
    (activateDims plot s).1 =
      { s.1 with
        dimChanged := (activateDims plot s).1.dimChanged
        layoutData := { s.1.layoutData with
          scale := (activateDims plot s).1.layoutData.scale } } :=
  foldl_activateDim_state plot Axis.all s

theorem activateFooter_state (s : PrivateData × Locals) :
    (activateFooter s).1 = { s.1 with footerRect := (activateFooter s).1.footerRect } := by
  unfold activateFooter
  dsimp only
  split_ifs <;> rfl

/-- The legend rectangle and the legend data after the legend step stay as they are
until the canvas is laid out. -/
theorem stages_legend (plot : QwtPlot) (plotRect : QRectF) (options : Options)
    (d : PrivateData) :
    (activateStages plot plotRect options d).1.legendRect =
        (activateLegend plot options
          (activateTitle options (activateStart plot plotRect d))).1.legendRect ∧
      (activateStages plot plotRect options d).1.layoutData.legend =
        (activateLegend plot options
          (activateTitle options (activateStart plot plotRect d))).1.layoutData.legend := by
  unfold activateStages
  rw [activateFooter_state, activateDims_state]
  exact ⟨rfl, rfl⟩

/-! ## The share of the legend -/

theorem dockBound_nonneg (options : Options) (pos : LegendLayout) (ratio : ℚ) (rect : QRectF)
    (hint : QSize) (hS vS : ℤ)
    (hr : 0 < ratio) (hw : 0 ≤ rect.width) (hh : 0 ≤ rect.height) :
    0 ≤ dockBound options pos ratio rect hint hS vS := by
  have h1 : 0 ≤ Binary64.mul rect.width ratio :=
    Binary64.round_nonneg _ (mul_nonneg hw (le_of_lt hr))
  have h2 : 0 ≤ Binary64.mul rect.height ratio :=
    Binary64.round_nonneg _ (mul_nonneg hh (le_of_lt hr))
  have h3 : (0 : ℚ) ≤ max 0 (hS : ℚ) := le_max_left _ _
  cases pos <;> simp only [dockBound] <;>
    first
    | (split_ifs <;> linarith)
    | exact le_trans h2 (le_max_left _ _)

/-- The share of a docked legend is at most the binary64 product. -/
theorem ratioShare_le (size r : ℚ) (hr : 0 < r) (hs : 0 ≤ size) :
    ((ratioShare size (Double.num r) : ℤ) : ℚ) ≤ Binary64.mul size r :=
  cInt_le_of_nonneg (Binary64.round_nonneg _ (mul_nonneg hs (le_of_lt hr)))

theorem legendDim_le (options : Options) (rect : QRectF) (d : PrivateData) (hint : QSize)
    (r : ℚ) (hn : d.legendRatio = Double.num r)
    (hr : 0 < r) (hw : 0 ≤ rect.width) (hh : 0 ≤ rect.height) :
    ((legendDim options rect d hint : ℤ) : ℚ) ≤
      dockBound options d.legendPos r rect hint d.layoutData.legend.hScrollExtent
        d.layoutData.legend.vScrollExtent := by
  have h1 := ratioShare_le rect.width r hr hw
  have h2 := ratioShare_le rect.height r hr hh
  have m1 : ((min hint.width (ratioShare rect.width (Double.num r)) : ℤ) : ℚ) ≤
      Binary64.mul rect.width r :=
    le_trans (Int.cast_le.mpr (min_le_right _ _)) h1
  have m2 : ((min hint.height (ratioShare rect.height (Double.num r)) : ℤ) : ℚ) ≤
      Binary64.mul rect.height r :=
    le_trans (Int.cast_le.mpr (min_le_right _ _)) h2
  have h3 : (0 : ℚ) ≤ max 0 (d.layoutData.legend.hScrollExtent : ℚ) := le_max_left _ _
  have h4 : (d.layoutData.legend.hScrollExtent : ℚ) ≤
      max 0 (d.layoutData.legend.hScrollExtent : ℚ) := le_max_right _ _
  push_cast at m1 m2
  have left : d.legendPos = LegendLayout.LeftLegend ∨ d.legendPos = LegendLayout.RightLegend →
      ((legendDim options rect d hint : ℤ) : ℚ) ≤
        Binary64.mul rect.width r +
          (if options.ignoreScrollbars = false ∧ (hint.height : ℚ) > rect.height then
            max 0 (d.layoutData.legend.hScrollExtent : ℚ)
          else 0) := by
    intro hlr
    unfold legendDim
    rw [if_pos hlr, hn]
    dsimp only
    cases ho : options.ignoreScrollbars
    · simp only [Bool.not_false, if_true, true_and]
      split_ifs
      · push_cast
        linarith
      · push_cast
        linarith
    · simp only [Bool.not_true, Bool.false_eq_true, Bool.true_eq_false, if_false, false_and]
      push_cast
      linarith
  have top : ¬ (d.legendPos = LegendLayout.LeftLegend ∨
        d.legendPos = LegendLayout.RightLegend) →
      ((legendDim options rect d hint : ℤ) : ℚ) ≤
        max (Binary64.mul rect.height r) (d.layoutData.legend.vScrollExtent : ℚ) := by
    intro hlr
    unfold legendDim
    rw [if_neg hlr, hn]
    dsimp only
    push_cast
    exact max_le_max m2 (le_refl _)
  cases hp : d.legendPos
  · exact (left (Or.inl hp)).trans_eq rfl
  · exact (left (Or.inr hp)).trans_eq rfl
  · exact (top (by rw [hp]; simp)).trans_eq rfl
  · exact (top (by rw [hp]; simp)).trans_eq rfl
  · exact (top (by rw [hp]; simp)).trans_eq rfl
  · exact (top (by rw [hp]; simp)).trans_eq rfl

theorem layoutLegend_thickness (options : Options) (rect : QRectF) (d : PrivateData)
    (hd : isDocked d.legendPos) :
    dockThickness d.legendPos (layoutLegend options rect d).1 =
      ((legendDim options rect d d.layoutData.legend.hint : ℤ) : ℚ) := by
  unfold layoutLegend
  rcases hd with h | h | h | h <;> simp only [h, reduceCtorEq, if_false] <;> rfl

theorem alignLegend_thickness (canvasRect legendRect : QRectF) (d : PrivateData) :
    dockThickness d.legendPos (alignLegend canvasRect legendRect d) =
      dockThickness d.legendPos legendRect := by
  unfold alignLegend
  cases hp : d.legendPos <;> simp only [reduceCtorEq, or_self, or_true, true_or, if_true,
    if_false] <;> (try split_ifs) <;> rfl

theorem normalFold_frame (l : Locals) (axes : List Axis) (d : PrivateData) :
    (normalFold l axes d).legendRect = d.legendRect ∧
      (normalFold l axes d).canvasRect = d.canvasRect ∧
      (normalFold l axes d).legendPos = d.legendPos ∧
      (normalFold l axes d).layoutData = d.layoutData := by
  rw [normalFold_eq]
  exact ⟨rfl, rfl, rfl, rfl⟩

/-- The legend rectangle after `activate` is as thick as the legend step has made it, or
it has no thickness (the collapsed layout). -/
theorem activate_legend_thickness (plot : QwtPlot) (plotRect : QRectF) (options : Options)
    (d : PrivateData) :
    dockThickness d.legendPos (activate plot plotRect options d).legendRect = 0 ∨
      dockThickness d.legendPos (activate plot plotRect options d).legendRect =
        dockThickness d.legendPos (activateStages plot plotRect options d).1.legendRect := by
  have hs := (sameSettings_activateStages plot plotRect options d).legendPos
  unfold activate activateFinish
  dsimp only
  split_ifs with h
  · left
    rw [activateCollapsed_eq]
    cases d.legendPos <;> rfl
  · right
    unfold activateNormal
    dsimp only
    obtain ⟨f1, _, f3, _⟩ := normalFold_frame (activateStages plot plotRect options d).2
      Axis.all (setAllScaleVisible true { (activateStages plot plotRect options d).1 with
        canvasRect := provisionalCanvas (activateStages plot plotRect options d).2 })
    split_ifs
    · dsimp only
      have hp : d.legendPos = (normalFold (activateStages plot plotRect options d).2 Axis.all
          (setAllScaleVisible true { (activateStages plot plotRect options d).1 with
            canvasRect := provisionalCanvas (activateStages plot plotRect options d).2
            })).legendPos := by
        rw [f3]; exact hs
      rw [hp, alignLegend_thickness, f1]
      rfl
    · rw [f1]
      rfl

theorem activateStart_legendRect (plot : QwtPlot) (plotRect : QRectF) (options : Options)
    (d : PrivateData) :
    (activateTitle options (activateStart plot plotRect d)).1.legendRect = QRectF.null := by
  rw [activateTitle_state]
  show QRectF.ofRect QRect.null = QRectF.null
  with_unfolding_all decide

theorem dockThickness_null (pos : LegendLayout) : dockThickness pos QRectF.null = 0 := by
  cases pos <;> rfl

set_option maxRecDepth 8000 in
/-- C6 fails as stated.  A legend docked at the left with the ratio 0.5 in a working
rectangle 300 wide and 100 high, whose height hint of 150 does not fit, gets the room
for the scroll bar on top of its share: it is 166 wide, more than 0.5 x 300.  And a
legend docked at the left with the ratio 0.7, that is the binary64 number
0.6999999999999999556, in a rectangle 1000 wide is 700 wide: the product is rounded to
700, which is more than the ratio times 1000.  A legend docked at the bottom with the
ratio 0.1 in a rectangle 100 high, with a vertical scroll bar extent of 16, is 16 high.
And in a bounding rectangle of the width -10 the layout collapses and the legend
rectangle is null: its width 0 is more than 0.5 x -10. -/
theorem legend_ratio_bound_counterexample :
    (activate { Example.plotNoAxes with legend := some Example.highLegend }
      ⟨0, 0, 300, 100⟩ Example.options
      (setLegendPosition LegendLayout.LeftLegend (Double.num (1 / 2))
        QwtPlotLayout.new)).legendRect.width = 166 ∧
    ¬ ((166 : ℚ) ≤ (1 / 2) * 300) ∧
    (activate { Example.plotNoAxes with legend := some Example.wideLegend }
      ⟨0, 0, 1000, 100⟩ Example.options
      (setLegendPosition LegendLayout.LeftLegend (Double.num (Binary64.round (7 / 10)))
        QwtPlotLayout.new)).legendRect.width = 700 ∧
    ¬ ((700 : ℚ) ≤ Binary64.round (7 / 10) * 1000) ∧
    (activate { Example.plotNoAxes with legend := some Example.highLegend }
      ⟨0, 0, 300, 100⟩ Example.options
      (setLegendPosition LegendLayout.BottomLegend (Double.num (Binary64.round (1 / 10)))
        QwtPlotLayout.new)).legendRect.height = 16 ∧
    ¬ ((16 : ℚ) ≤ Binary64.round (1 / 10) * 100) ∧
    (activate { Example.plotNoAxes with legend := some Example.highLegend }
      ⟨0, 0, -10, 100⟩ Example.options
      (setLegendPosition LegendLayout.LeftLegend (Double.num (1 / 2))
        QwtPlotLayout.new)).legendRect.width = 0 ∧
    ¬ ((0 : ℚ) ≤ (1 / 2) * (-10)) := by
  refine ⟨?_, ?_, ?_, ?_, ?_, ?_, ?_, ?_⟩
  · with_unfolding_all decide
  · norm_num
  · with_unfolding_all decide
  · with_unfolding_all decide
  · with_unfolding_all decide
  · with_unfolding_all decide
  · with_unfolding_all decide
  · norm_num

/-- C6 (amended): for every edge-docked legend position, every ratio above zero, every
legend size hint and scroll-bar extents and every working rectangle of non-negative
size, the thickness of the legend rectangle in its docking direction after `activate`
is at most the product of the thickness of the working rectangle available to the
legend and the ratio, as the code computes it in binary64, apart from the allowance for
a scroll bar: at the top and the bottom it is at most the greater of that product and
the vertical scroll-bar extent; at the left and the right it is at most that product,
plus the horizontal scroll-bar extent, if that is positive, when scroll bars are not
ignored and the height hint of the legend is above the height of the rectangle. -/
theorem legend_ratio_bound (plot : QwtPlot) (plotRect : QRectF) (options : Options)
    (d : PrivateData) (r : ℚ) (hd : isDocked d.legendPos)
    (hn : d.legendRatio = Double.num r) (hr : 0 < r)
    (hw : 0 ≤ (activateTitle options (activateStart plot plotRect d)).2.rect.width)
    (hh : 0 ≤ (activateTitle options (activateStart plot plotRect d)).2.rect.height) :
    dockThickness d.legendPos (activate plot plotRect options d).legendRect ≤
      dockBound options d.legendPos r
        (activateTitle options (activateStart plot plotRect d)).2.rect
        (activateStart plot plotRect d).1.layoutData.legend.hint
        (activateStart plot plotRect d).1.layoutData.legend.hScrollExtent
        (activateStart plot plotRect d).1.layoutData.legend.vScrollExtent := by
  have hnn := dockBound_nonneg options d.legendPos r
    (activateTitle options (activateStart plot plotRect d)).2.rect
    (activateStart plot plotRect d).1.layoutData.legend.hint
    (activateStart plot plotRect d).1.layoutData.legend.hScrollExtent
    (activateStart plot plotRect d).1.layoutData.legend.vScrollExtent hr hw hh
  have hs := (sameSettings_activateStart plot plotRect d).then_settings
    (sameSettings_activateTitle options (activateStart plot plotRect d))
  rcases activate_legend_thickness plot plotRect options d with h | h
  · rw [h]; exact hnn
  · rw [h, (stages_legend plot plotRect options d).1]
    unfold activateLegend
    dsimp only
    split_ifs
    · dsimp only
      have hle := legendDim_le options (activateTitle options (activateStart plot plotRect d)).2.rect
        (activateTitle options (activateStart plot plotRect d)).1
        (activateTitle options (activateStart plot plotRect d)).1.layoutData.legend.hint r
        (by rw [← hs.ratio]; exact hn) hr hw hh
      have hth := layoutLegend_thickness options
        (activateTitle options (activateStart plot plotRect d)).2.rect
        (activateTitle options (activateStart plot plotRect d)).1 (by rw [← hs.legendPos]; exact hd)
      rw [← hs.legendPos, activateTitle_layoutData] at hle
      rw [← hs.legendPos, activateTitle_layoutData] at hth
      rw [hth]
      exact hle
    · rw [activateStart_legendRect, dockThickness_null]
      exact hnn

set_option maxRecDepth 8000 in
/-- Witness for `legend_ratio_bound`: a legend at the bottom with the ratio 0.33 that
would like to be 200 high, in a rectangle 300 high, is at most 99 high. -/
theorem legend_ratio_bound_witness :
    (activate { Example.plotNoAxes with
        legend := some ⟨0, 0, 0, ⟨50, 200⟩, fun _ => 200, false⟩ }
      ⟨0, 0, 300, 300⟩ Example.options QwtPlotLayout.new).legendRect.height ≤ 99 := by
  have e1 : QwtPlotLayout.new.legendPos = LegendLayout.BottomLegend := by
    with_unfolding_all decide
  have h := legend_ratio_bound
    { Example.plotNoAxes with legend := some ⟨0, 0, 0, ⟨50, 200⟩, fun _ => 200, false⟩ }
    ⟨0, 0, 300, 300⟩ Example.options QwtPlotLayout.new (Binary64.round (33 / 100))
    (Or.inr (Or.inr (Or.inr e1))) rfl (by with_unfolding_all decide)
    (by with_unfolding_all decide) (by with_unfolding_all decide)
  have e2 : dockBound Example.options QwtPlotLayout.new.legendPos (Binary64.round (33 / 100))
      (activateTitle Example.options (activateStart
        { Example.plotNoAxes with legend := some ⟨0, 0, 0, ⟨50, 200⟩, fun _ => 200, false⟩ }
        ⟨0, 0, 300, 300⟩ QwtPlotLayout.new)).2.rect
      (activateStart
        { Example.plotNoAxes with legend := some ⟨0, 0, 0, ⟨50, 200⟩, fun _ => 200, false⟩ }
        ⟨0, 0, 300, 300⟩ QwtPlotLayout.new).1.layoutData.legend.hint
      (activateStart
        { Example.plotNoAxes with legend := some ⟨0, 0, 0, ⟨50, 200⟩, fun _ => 200, false⟩ }
        ⟨0, 0, 300, 300⟩ QwtPlotLayout.new).1.layoutData.legend.hScrollExtent
      (activateStart
        { Example.plotNoAxes with legend := some ⟨0, 0, 0, ⟨50, 200⟩, fun _ => 200, false⟩ }
        ⟨0, 0, 300, 300⟩ QwtPlotLayout.new).1.layoutData.legend.vScrollExtent = 99 := by
    with_unfolding_all decide
  rw [e2, e1] at h
  exact h

/-! ## Two layout passes that differ in the legend only -/

theorem core_activateTitle (options : Options) (s : PrivateData × Locals) :
    activateTitle options (core s.1, s.2) =
      (core (activateTitle options s).1, (activateTitle options s).2) := by
  unfold activateTitle
  dsimp only [core]
  split_ifs <;> rfl

theorem core_activateFooter (s : PrivateData × Locals) :
    activateFooter (core s.1, s.2) = (core (activateFooter s).1, (activateFooter s).2) := by
  unfold activateFooter
  dsimp only [core, staticScale]
  split_ifs <;> rfl

theorem core_activateLegend (plot : QwtPlot) (options : Options) (s : PrivateData × Locals) :
    core (activateLegend plot options s).1 = core s.1 := by
  rw [activateLegend_state]
  rfl

theorem foldl_activateDim_static (plot : QwtPlot) (axes : List Axis)
    (s : PrivateData × Locals) (a : Axis) :
    staticScale ((axes.foldl (activateDim plot) s).1.layoutData.scale a) =
      staticScale (s.1.layoutData.scale a) := by
  induction axes generalizing s with
  | nil => rfl
  | cons x t ih =>
    simp only [List.foldl_cons]
    rw [ih]
    have h : (activateDim plot s x).1 = recordDim x (autoScaleDim plot s.2 x)
      (s.2.axisMargin x) s.1 := rfl
    rw [h, recordDim_eq]
    dsimp only [setAt]
    split_ifs with hx
    · rw [hx]; rfl
    · rfl

theorem core_activateDims (plot : QwtPlot) (s : PrivateData × Locals) :
    core (activateDims plot s).1 = core s.1 := by
  rw [activateDims_state]
  unfold core
  dsimp only
  have h : (fun a => staticScale ((activateDims plot s).1.layoutData.scale a)) =
      fun a => staticScale (s.1.layoutData.scale a) :=
    funext (foldl_activateDim_static plot Axis.all s)
  rw [h]

theorem core_activateDims_locals (plot : QwtPlot) (s : PrivateData × Locals) :
    (activateDims plot (core s.1, s.2)).2 = (activateDims plot s).2 := by
  rw [activateDims_locals, activateDims_locals]
  rfl

/-- `expandLineBreaks` reads the plot, the options and the state only through the axes,
the two footer options, the footer data and the static scale data. -/
theorem expandLineBreaks_congr {plot plot' : QwtPlot} {o o' : Options} {d d' : PrivateData}
    (hp1 : plot.axisEnabled = plot'.axisEnabled) (hp2 : plot.axisWidget = plot'.axisWidget)
    (ho1 : o.ignoreFooter = o'.ignoreFooter) (ho2 : o.ignoreFrames = o'.ignoreFrames)
    (hf : d.layoutData.footer = d'.layoutData.footer)
    (hs : ∀ a, staticScale (d.layoutData.scale a) = staticScale (d'.layoutData.scale a))
    (rect : QRectF) :
    expandLineBreaks plot o rect d = expandLineBreaks plot' o' rect d' := by
  have he : ∀ a, (d.layoutData.scale a).isEnabled = (d'.layoutData.scale a).isEnabled := by
    intro a
    have h := congrArg ScaleData.isEnabled (hs a)
    exact h
  have hw : ∀ a, (d.layoutData.scale a).dimWithoutTitle =
      (d'.layoutData.scale a).dimWithoutTitle := by
    intro a
    have h := congrArg ScaleData.dimWithoutTitle (hs a)
    exact h
  have h1 : ∀ f, footerDim o rect d f = footerDim o' rect d' f := by
    intro f
    unfold footerDim
    rw [he, he, hf, ho2]
  have h2 : expandFooter o rect d = expandFooter o' rect d' := by
    funext s
    unfold expandFooter
    rw [h1, hf, ho1]
  have h3 : expandAxisDim plot d = expandAxisDim plot' d' := by
    funext a
    unfold expandAxisDim
    dsimp only
    rw [he, hw, hp2]
  have h4 : expandAxis plot d = expandAxis plot' d' := by
    funext s a
    unfold expandAxis expandAxisEx
    dsimp only
    rw [h3, he, hp1, hp2]
  have h5 : expandRound plot o rect d = expandRound plot' o' rect d' := by
    funext s
    unfold expandRound
    rw [h2, h4]
  have h6 : ∀ n s, expandLoop plot o rect d n s = expandLoop plot' o' rect d' n s := by
    intro n
    induction n with
    | zero => intro s; rfl
    | succ k ih =>
      intro s
      simp only [expandLoop]
      rw [h5, ih]
  unfold expandLineBreaks
  rw [h6]

theorem core_activateExpand (plot : QwtPlot) (options : Options) (s : PrivateData × Locals) :
    (activateExpand plot options (core s.1, s.2)).2 = (activateExpand plot options s).2 := by
  have h : expandLineBreaks plot options s.2.rect (core s.1) =
      expandLineBreaks plot options s.2.rect s.1 :=
    @expandLineBreaks_congr plot plot options options (core s.1) s.1 rfl rfl rfl rfl rfl
      (fun _ => rfl) s.2.rect
  have hc : coupledDim (core s.1) = coupledDim s.1 := by
    funext f g
    unfold coupledDim
    rfl
  unfold activateExpand
  dsimp only
  rw [h, hc]
  rfl


theorem coreStable_of {step : PrivateData × Locals → PrivateData × Locals}
    (h1 : ∀ s, core (step (core s.1, s.2)).1 = core (step s).1)
    (h2 : ∀ s, (step (core s.1, s.2)).2 = (step s).2) : CoreStable step := by
  intro s t hc hl
  constructor
  · rw [← h1 s, ← h1 t, hc, hl]
  · rw [← h2 s, ← h2 t, hc, hl]

theorem coreStable_activateTitle (options : Options) : CoreStable (activateTitle options) :=
  coreStable_of
    (fun s => by rw [core_activateTitle]; rfl)
    (fun s => by rw [core_activateTitle])

theorem coreStable_activateFooter : CoreStable activateFooter :=
  coreStable_of
    (fun s => by rw [core_activateFooter]; rfl)
    (fun s => by rw [core_activateFooter])

theorem coreStable_activateExpand (plot : QwtPlot) (options : Options) :
    CoreStable (activateExpand plot options) :=
  coreStable_of (fun _ => rfl) (core_activateExpand plot options)

theorem coreStable_activateDims (plot : QwtPlot) : CoreStable (activateDims plot) :=
  coreStable_of
    (fun s => by rw [core_activateDims, core_activateDims]; rfl)
    (core_activateDims_locals plot)

theorem coreStable_afterLegend (plot : QwtPlot) (options : Options) :
    CoreStable (afterLegend plot options) := by
  intro s t hc hl
  obtain ⟨a1, a2⟩ := coreStable_activateExpand plot options s t hc hl
  obtain ⟨b1, b2⟩ := coreStable_activateDims plot _ _ a1 a2
  exact coreStable_activateFooter _ _ b1 b2

theorem core_collapsedFold (plot : QwtPlot) (axes : List Axis) (d : PrivateData) :
    core (collapsedFold plot axes d) = collapsedFold plot axes (core d) := by
  induction axes generalizing d with
  | nil => rfl
  | cons a t ih =>
    unfold collapsedFold at ih ⊢
    simp only [List.foldl_cons]
    split_ifs
    · exact ih d
    · exact ih _

theorem core_normalFold (l : Locals) (axes : List Axis) (d : PrivateData) :
    core (normalFold l axes d) = normalFold l axes (core d) := by
  induction axes generalizing d with
  | nil => rfl
  | cons a t ih =>
    unfold normalFold at ih ⊢
    simp only [List.foldl_cons]
    split_ifs
    · exact ih _
    · exact ih d

/-- The core of the state after the last part of `activate`, from the core of the state
and the local variables before it. -/
theorem core_activateFinish (plot : QwtPlot) (plotRect : QRectF) (s : PrivateData × Locals) :
    core (activateFinish plot plotRect s) =
      if canvasTooSmall (core s.1) (provisionalCanvas s.2) then
        collapsedFold plot Axis.all { core s.1 with canvasRect := plotRect }
      else normalFold s.2 Axis.all { core s.1 with canvasRect := provisionalCanvas s.2 } := by
  have hts : canvasTooSmall (core s.1) (provisionalCanvas s.2) =
      canvasTooSmall { s.1 with canvasRect := provisionalCanvas s.2 }
        (provisionalCanvas s.2) := rfl
  rw [hts]
  unfold activateFinish
  dsimp only
  split_ifs
  · unfold activateCollapsed setAllScaleVisible
    dsimp only
    show core (collapsedFold plot Axis.all _) = _
    rw [core_collapsedFold]
    rfl
  · unfold activateNormal
    dsimp only
    split_ifs
    · show core (normalFold s.2 Axis.all _) = _
      rw [core_normalFold]
      rfl
    · rw [core_normalFold]
      rfl

theorem activateFinish_core (plot : QwtPlot) (plotRect : QRectF) (s t : PrivateData × Locals)
    (hc : core s.1 = core t.1) (hl : s.2 = t.2) :
    core (activateFinish plot plotRect s) = core (activateFinish plot plotRect t) := by
  rw [core_activateFinish, core_activateFinish, hc, hl]


/-! ## The plot and the options, as far as the steps read them -/

theorem afterLegend_congr {plot plot' : QwtPlot} {o o' : Options}
    (he : plot.axisEnabled = plot'.axisEnabled) (hw : plot.axisWidget = plot'.axisWidget)
    (ho1 : o.ignoreFooter = o'.ignoreFooter) (ho2 : o.ignoreFrames = o'.ignoreFrames)
    (s : PrivateData × Locals) : afterLegend plot o s = afterLegend plot' o' s := by
  have h1 : activateExpand plot o s = activateExpand plot' o' s := by
    unfold activateExpand
    dsimp only
    rw [@expandLineBreaks_congr plot plot' o o' s.1 s.1 he hw ho1 ho2 rfl (fun _ => rfl) s.2.rect]
  have h2 : activateDim plot = activateDim plot' := by
    funext t a
    unfold activateDim autoScaleDim
    rw [he, hw]
  unfold afterLegend activateDims
  rw [h1, h2]

theorem activateFinish_congr {plot plot' : QwtPlot}
    (he : plot.axisEnabled = plot'.axisEnabled) (plotRect : QRectF)
    (s : PrivateData × Locals) :
    activateFinish plot plotRect s = activateFinish plot' plotRect s := by
  unfold activateFinish activateCollapsed collapsedFold
  rw [he]

theorem activateTitle_congr {o o' : Options} (h1 : o.ignoreTitle = o'.ignoreTitle)
    (h2 : o.ignoreFrames = o'.ignoreFrames) (s : PrivateData × Locals) :
    activateTitle o s = activateTitle o' s := by
  unfold activateTitle
  rw [h1, h2]

theorem staticScale_initScale (e : Bool) (sw : QwtScaleWidget) {a b : ScaleData}
    (h1 : a.fixedDim = b.fixedDim) (h2 : a.hintDim = b.hintDim)
    (h3 : a.hintMargin = b.hintMargin) (h4 : a.fixedMargin = b.fixedMargin) :
    staticScale (LayoutData.initScale e sw a) = staticScale (LayoutData.initScale e sw b) := by
  unfold LayoutData.initScale staticScale
  cases e
  · simp only [Bool.false_eq_true, if_false, h1, h2, h3, h4]
  · simp only [if_true, h1, h2, h3, h4]

/-- The state `activate` starts with has the same core for two states with the same
settings, and for two plots with the same title, footer, axes and canvas. -/
theorem core_activateStart {plot plot' : QwtPlot} {d d' : PrivateData}
    (ht : plot.titleLabel = plot'.titleLabel) (hf : plot.footerLabel = plot'.footerLabel)
    (he : plot.axisEnabled = plot'.axisEnabled) (hw : plot.axisWidget = plot'.axisWidget)
    (hm : plot.canvasContentsMargins = plot'.canvasContentsMargins)
    (hs : SameSettings d d') (plotRect : QRectF) :
    core (activateStart plot plotRect d).1 = core (activateStart plot' plotRect d').1 := by
  have hsc : (fun a => staticScale (LayoutData.initScale (plot.axisEnabled a)
        (plot.axisWidget a) (d.layoutData.scale a))) =
      fun a => staticScale (LayoutData.initScale (plot'.axisEnabled a)
        (plot'.axisWidget a) (d'.layoutData.scale a)) := by
    funext a
    rw [he, hw]
    exact staticScale_initScale _ _ (hs.fixedDim a) (hs.hintDim a) (hs.hintMargin a)
      (hs.fixedMargin a)
  unfold activateStart invalidate core LayoutData.init
  dsimp only
  rw [hsc, ht, hf, hm, hs.legendPos, hs.legendFloatPos, hs.ratio, hs.spacing, hs.canvasMargin,
    hs.alignCanvasToScales, hs.minCanvasWidth, hs.minCanvasHeight]

theorem alignLegend_congr {d d' : PrivateData} (hp : d.legendPos = d'.legendPos)
    (hh : d.layoutData.legend.hint = d'.layoutData.legend.hint) (c lr : QRectF) :
    alignLegend c lr d = alignLegend c lr d' := by
  unfold alignLegend
  rw [hp, hh]

/-- The legend rectangle after the last part of `activate`. -/
theorem activateFinish_legendRect (plot : QwtPlot) (plotRect : QRectF)
    (s : PrivateData × Locals) :
    (activateFinish plot plotRect s).legendRect =
      if canvasTooSmall s.1 (provisionalCanvas s.2) then QRectF.null
      else if !s.1.legendRect.isEmpty then
        alignLegend (provisionalCanvas s.2) s.1.legendRect s.1
      else s.1.legendRect := by
  have hts : canvasTooSmall s.1 (provisionalCanvas s.2) =
      canvasTooSmall { s.1 with canvasRect := provisionalCanvas s.2 }
        (provisionalCanvas s.2) := rfl
  rw [hts]
  unfold activateFinish
  dsimp only
  split_ifs with h1 h2
  · rw [activateCollapsed_eq]
  · unfold activateNormal
    dsimp only
    obtain ⟨f1, f2, f3, f4⟩ := normalFold_frame s.2 Axis.all
      (setAllScaleVisible true { s.1 with canvasRect := provisionalCanvas s.2 })
    have h3 : (!(normalFold s.2 Axis.all (setAllScaleVisible true
        { s.1 with canvasRect := provisionalCanvas s.2 })).legendRect.isEmpty) = true := by
      rw [f1]; exact h2
    rw [if_pos h3]
    dsimp only
    rw [f1, f2]
    exact alignLegend_congr f3 (by rw [f4]) _ _
  · unfold activateNormal
    dsimp only
    obtain ⟨f1, f2, f3, f4⟩ := normalFold_frame s.2 Axis.all
      (setAllScaleVisible true { s.1 with canvasRect := provisionalCanvas s.2 })
    have h3 : ¬ (!(normalFold s.2 Axis.all (setAllScaleVisible true
        { s.1 with canvasRect := provisionalCanvas s.2 })).legendRect.isEmpty) = true := by
      rw [f1]; exact h2
    rw [if_neg h3, f1]
    rfl

/-- The legend data after `activate` are those the legend step has left. -/
theorem activateFinish_layoutData (plot : QwtPlot) (plotRect : QRectF)
    (s : PrivateData × Locals) :
    (activateFinish plot plotRect s).layoutData = s.1.layoutData := by
  unfold activateFinish
  dsimp only
  split_ifs
  · rw [activateCollapsed_eq]
  · rw [activateNormal_eq]

theorem sameSettings_activateFinish (plot : QwtPlot) (plotRect : QRectF)
    (s : PrivateData × Locals) : SameSettings s.1 (activateFinish plot plotRect s) := by
  unfold activateFinish
  dsimp only
  split_ifs
  · rw [activateCollapsed_eq]
    exact ⟨rfl, rfl, rfl, rfl, rfl, rfl, rfl, rfl, fun _ => rfl, fun _ => rfl, fun _ => rfl,
      fun _ => rfl⟩
  · rw [activateNormal_eq]
    exact ⟨rfl, rfl, rfl, rfl, rfl, rfl, rfl, rfl, fun _ => rfl, fun _ => rfl, fun _ => rfl,
      fun _ => rfl⟩

theorem sameSettings_activate (plot : QwtPlot) (plotRect : QRectF) (options : Options)
    (d : PrivateData) : SameSettings d (activate plot plotRect options d) :=
  (sameSettings_activateStages plot plotRect options d).then_settings
    (sameSettings_activateFinish plot plotRect _)


/-! ## Layout passes that agree but for the legend -/

theorem activate_eq (plot : QwtPlot) (plotRect : QRectF) (options : Options)
    (d : PrivateData) :
    activate plot plotRect options d =
      activateFinish plot plotRect (afterLegend plot options (activateLegend plot options
        (activateTitle options (activateStart plot plotRect d)))) := rfl

/-- Two layout passes whose plots differ in the legend only, whose options differ in
`IgnoreLegend` only and whose states have the same settings come to the canvas with the
same core and the same local variables, when the local variables after the legend step
are the same. -/
theorem afterLegend_activate_congr {plot plot' : QwtPlot} {o o' : Options}
    {d d' : PrivateData} (plotRect : QRectF)
    (ht : plot.titleLabel = plot'.titleLabel) (hf : plot.footerLabel = plot'.footerLabel)
    (he : plot.axisEnabled = plot'.axisEnabled) (hw : plot.axisWidget = plot'.axisWidget)
    (hm : plot.canvasContentsMargins = plot'.canvasContentsMargins)
    (ho1 : o.ignoreTitle = o'.ignoreTitle) (ho2 : o.ignoreFrames = o'.ignoreFrames)
    (ho3 : o.ignoreFooter = o'.ignoreFooter) (hs : SameSettings d d')
    (hl : (activateLegend plot o (activateTitle o (activateStart plot plotRect d))).2 =
      (activateLegend plot' o' (activateTitle o' (activateStart plot' plotRect d'))).2) :
    core (afterLegend plot o (activateLegend plot o
        (activateTitle o (activateStart plot plotRect d)))).1 =
      core (afterLegend plot' o' (activateLegend plot' o'
        (activateTitle o' (activateStart plot' plotRect d')))).1 ∧
    (afterLegend plot o (activateLegend plot o
        (activateTitle o (activateStart plot plotRect d)))).2 =
      (afterLegend plot' o' (activateLegend plot' o'
        (activateTitle o' (activateStart plot' plotRect d')))).2 := by
  have c0 := core_activateStart ht hf he hw hm hs plotRect
  have hT : core (activateTitle o (activateStart plot plotRect d)).1 =
      core (activateTitle o' (activateStart plot' plotRect d')).1 := by
    rw [← activateTitle_congr ho1 ho2]
    exact (coreStable_activateTitle o _ _ c0 rfl).1
  have hL : core (activateLegend plot o (activateTitle o (activateStart plot plotRect d))).1 =
      core (activateLegend plot' o' (activateTitle o' (activateStart plot' plotRect d'))).1 := by
    rw [core_activateLegend, core_activateLegend]
    exact hT
  rw [← afterLegend_congr he hw ho3 ho2]
  exact coreStable_afterLegend plot o _ _ hL hl

/-- Two such layout passes end with the same core. -/
theorem core_activate_congr {plot plot' : QwtPlot} {o o' : Options} {d d' : PrivateData}
    (plotRect : QRectF)
    (ht : plot.titleLabel = plot'.titleLabel) (hf : plot.footerLabel = plot'.footerLabel)
    (he : plot.axisEnabled = plot'.axisEnabled) (hw : plot.axisWidget = plot'.axisWidget)
    (hm : plot.canvasContentsMargins = plot'.canvasContentsMargins)
    (ho1 : o.ignoreTitle = o'.ignoreTitle) (ho2 : o.ignoreFrames = o'.ignoreFrames)
    (ho3 : o.ignoreFooter = o'.ignoreFooter) (hs : SameSettings d d')
    (hl : (activateLegend plot o (activateTitle o (activateStart plot plotRect d))).2 =
      (activateLegend plot' o' (activateTitle o' (activateStart plot' plotRect d'))).2) :
    core (activate plot plotRect o d) = core (activate plot' plotRect o' d') := by
  obtain ⟨a1, a2⟩ := afterLegend_activate_congr plotRect ht hf he hw hm ho1 ho2 ho3 hs hl
  rw [activate_eq, activate_eq, ← activateFinish_congr he]
  exact activateFinish_core plot plotRect _ _ a1 a2

theorem activateLegend_notShown (plot : QwtPlot) (options : Options)
    (s : PrivateData × Locals) (h : legendShown plot options s.1 = false) :
    activateLegend plot options s = s := by
  unfold activateLegend
  rw [h]
  rfl

theorem legendShown_stage (plot plot' : QwtPlot) (plotRect : QRectF) (o o' : Options)
    (d : PrivateData) :
    legendShown plot o (activateTitle o' (activateStart plot' plotRect d)).1 =
      legendShown plot o d := by
  have hs := (sameSettings_activateStart plot' plotRect d).then_settings
    (sameSettings_activateTitle o' (activateStart plot' plotRect d))
  unfold legendShown legendPosition
  rw [← hs.legendPos]

/-- The legend block of `activate` is skipped when the legend is hidden, ignored, absent
or empty. -/
theorem legendShown_eq_false (plot : QwtPlot) (options : Options) (d : PrivateData)
    (h : d.legendPos = LegendLayout.HideLegend ∨ options.ignoreLegend = true ∨
      plot.legend = none ∨ ∃ lg, plot.legend = some lg ∧ lg.isEmpty = true) :
    legendShown plot options d = false := by
  unfold legendShown legendPosition
  rcases h with h | h | h | ⟨lg, h, he⟩
  · cases plot.legend <;> simp [h]
  · cases plot.legend <;> simp [h]
  · rw [h]
  · rw [h]
    simp [he]

theorem activate_legendRect_notShown (plot : QwtPlot) (plotRect : QRectF) (options : Options)
    (d : PrivateData) (h : legendShown plot options d = false) :
    (activate plot plotRect options d).legendRect = QRectF.null := by
  have h1 : (activateStages plot plotRect options d).1.legendRect = QRectF.null := by
    rw [(stages_legend plot plotRect options d).1, activateLegend_notShown,
      activateStart_legendRect]
    rw [legendShown_stage]
    exact h
  unfold activate
  rw [activateFinish_legendRect, h1, null_isEmpty]
  split_ifs with h2 h3
  · rfl
  · exact absurd h3 (by decide)
  · rfl

/-- The legend data after `activate` are those the legend step has left. -/
theorem activate_legendData (plot : QwtPlot) (plotRect : QRectF) (options : Options)
    (d : PrivateData) :
    (activate plot plotRect options d).layoutData.legend =
      (activateLegend plot options
        (activateTitle options (activateStart plot plotRect d))).1.layoutData.legend := by
  unfold activate
  rw [activateFinish_layoutData, (stages_legend plot plotRect options d).2]

/-- A layout pass that skips the legend block ends with the same core as the pass for
the plot without legend. -/
theorem core_activate_notShown (plot : QwtPlot) (plotRect : QRectF) (options : Options)
    (d : PrivateData) (h : legendShown plot options d = false) :
    core (activate plot plotRect options d) =
      core (activate (withoutLegend plot) plotRect options d) := by
  have c0 : core (activateStart plot plotRect d).1 =
      core (activateStart (withoutLegend plot) plotRect d).1 :=
    core_activateStart rfl rfl rfl rfl rfl (SameSettings.rfl_settings d) plotRect
  refine @core_activate_congr plot (withoutLegend plot) options options d d plotRect
    rfl rfl rfl rfl rfl rfl rfl rfl (SameSettings.rfl_settings d) ?_
  rw [activateLegend_notShown _ _ _ (by rw [legendShown_stage]; exact h),
    activateLegend_notShown _ _ _ (by rw [legendShown_stage]; rfl)]
  exact (coreStable_activateTitle options _ _ c0 rfl).2


theorem activateLegend_float_locals (plot : QwtPlot) (options : Options)
    (s : PrivateData × Locals) (h : s.1.legendPos = LegendLayout.FloatLegend) :
    (activateLegend plot options s).2 = s.2 := by
  have hp := (sameSettings_layoutLegend options s.2.rect s.1).legendPos
  unfold activateLegend
  dsimp only
  split_ifs
  · unfold legendLocals
    dsimp only
    rw [← hp, h]
    simp only [ne_eq, not_true_eq_false, if_false]
  · rfl

theorem layoutLegend_float_isEmpty (options : Options) (rect : QRectF) (d : PrivateData)
    (hp : d.legendPos = LegendLayout.FloatLegend)
    (hm : d.layoutData.legend.maxHint = ⟨0, 0⟩) :
    (layoutLegend options rect d).1.isEmpty = true := by
  unfold layoutLegend
  simp only [hp, hm, if_true]
  simp [QRectF.isEmpty, QRectF.setWidth, QRectF.setHeight, QSize.width, QSize.height]

theorem activateFinish_legendRect_isEmpty (plot : QwtPlot) (plotRect : QRectF)
    (s : PrivateData × Locals) (h : s.1.legendRect.isEmpty = true) :
    (activateFinish plot plotRect s).legendRect.isEmpty = true := by
  rw [activateFinish_legendRect, h]
  split_ifs with h2 h3
  · exact null_isEmpty
  · exact absurd h3 (by decide)
  · exact h

/-- States with the same core have the same canvas, title, footer and scale rectangles. -/
theorem core_rects {a b : PrivateData} (h : core a = core b) :
    a.canvasRect = b.canvasRect ∧ a.titleRect = b.titleRect ∧
      a.footerRect = b.footerRect ∧ a.scaleRect = b.scaleRect := by
  have h1 := congrArg PrivateData.canvasRect h
  have h2 := congrArg PrivateData.titleRect h
  have h3 := congrArg PrivateData.footerRect h
  have h4 := congrArg PrivateData.scaleRect h
  exact ⟨h1, h2, h3, h4⟩

/-- C8: when the legend is hidden (`HideLegend`), disabled by `IgnoreLegend`, absent or
empty, `activate` leaves `legendRect` empty, reserves no space and no spacing for it (the
canvas, the title, the footer and the scales get the rectangles they get for the plot
without legend), and leaves the persisted legend offsets and the recorded total size as
they are. -/
theorem legend_not_shown (plot : QwtPlot) (plotRect : QRectF) (options : Options)
    (d : PrivateData)
    (h : d.legendPos = LegendLayout.HideLegend ∨ options.ignoreLegend = true ∨
      plot.legend = none ∨ ∃ lg, plot.legend = some lg ∧ lg.isEmpty = true) :
    (activate plot plotRect options d).legendRect = QRectF.null ∧
      (activate plot plotRect options d).legendRect.isEmpty = true ∧
      (activate plot plotRect options d).canvasRect =
        (activate (withoutLegend plot) plotRect options d).canvasRect ∧
      (activate plot plotRect options d).titleRect =
        (activate (withoutLegend plot) plotRect options d).titleRect ∧
      (activate plot plotRect options d).footerRect =
        (activate (withoutLegend plot) plotRect options d).footerRect ∧
      (activate plot plotRect options d).scaleRect =
        (activate (withoutLegend plot) plotRect options d).scaleRect ∧
      legendXOffsetRatio (activate plot plotRect options d) = legendXOffsetRatio d ∧
      legendYOffsetRataio (activate plot plotRect options d) = legendYOffsetRataio d ∧
      (activate plot plotRect options d).layoutData.legend.xTotalSize =
        d.layoutData.legend.xTotalSize ∧
      (activate plot plotRect options d).layoutData.legend.yTotalSize =
        d.layoutData.legend.yTotalSize := by
  have hs := legendShown_eq_false plot options d h
  have hc := core_activate_notShown plot plotRect options d hs
  have hr := activate_legendRect_notShown plot plotRect options d hs
  have hl : (activate plot plotRect options d).layoutData.legend =
      (activateStart plot plotRect d).1.layoutData.legend := by
    rw [activate_legendData, activateLegend_notShown _ _ _ (by rw [legendShown_stage]; exact hs),
      activateTitle_layoutData]
  have hi : (activateStart plot plotRect d).1.layoutData.legend.xOffset =
        d.layoutData.legend.xOffset ∧
      (activateStart plot plotRect d).1.layoutData.legend.yOffset =
        d.layoutData.legend.yOffset ∧
      (activateStart plot plotRect d).1.layoutData.legend.xTotalSize =
        d.layoutData.legend.xTotalSize ∧
      (activateStart plot plotRect d).1.layoutData.legend.yTotalSize =
        d.layoutData.legend.yTotalSize := by
    unfold activateStart LayoutData.init
    dsimp only
    cases plot.legend <;> exact ⟨rfl, rfl, rfl, rfl⟩
  unfold legendXOffsetRatio legendYOffsetRataio
  rw [hl]
  refine ⟨hr, ?_, (core_rects hc).1, (core_rects hc).2.1, (core_rects hc).2.2.1,
    (core_rects hc).2.2.2, hi⟩
  rw [hr]
  exact null_isEmpty

/-- Witness for `legend_not_shown`: a plot with legend and axes, laid out in 300 x 500
with the legend position `HideLegend`. -/
theorem legend_not_shown_witness :
    (activate Example.plotAxes ⟨0, 0, 300, 500⟩ Example.options Example.hidden).legendRect =
        QRectF.null ∧
      (activate Example.plotAxes ⟨0, 0, 300, 500⟩ Example.options
        Example.hidden).canvasRect =
        (activate (withoutLegend Example.plotAxes) ⟨0, 0, 300, 500⟩ Example.options
          Example.hidden).canvasRect :=
  have h := legend_not_shown Example.plotAxes ⟨0, 0, 300, 500⟩ Example.options Example.hidden
    (Or.inl (by with_unfolding_all decide))
  ⟨h.1, h.2.2.1⟩

/-! ## The empty legend and the legend of size zero -/

/-- C9: for every bounding rectangle, every legend position and every other input,
`activate` on a plot whose legend is attached but empty (`isEmpty()`) gives an empty
`legendRect` and the same `canvasRect`, `titleRect`, `footerRect` and scale rectangles
as `activate` on the same plot with no legend attached. -/
theorem empty_legend_noop (plot : QwtPlot) (plotRect : QRectF) (options : Options)
    (d : PrivateData) (lg : QwtAbstractLegend) (hlg : plot.legend = some lg)
    (he : lg.isEmpty = true) :
    (activate plot plotRect options d).legendRect.isEmpty = true ∧
      (activate plot plotRect options d).canvasRect =
        (activate (withoutLegend plot) plotRect options d).canvasRect ∧
      (activate plot plotRect options d).titleRect =
        (activate (withoutLegend plot) plotRect options d).titleRect ∧
      (activate plot plotRect options d).footerRect =
        (activate (withoutLegend plot) plotRect options d).footerRect ∧
      ∀ a, (activate plot plotRect options d).scaleRect a =
        (activate (withoutLegend plot) plotRect options d).scaleRect a := by
  have hs : legendShown plot options d = false :=
    legendShown_eq_false plot options d (Or.inr (Or.inr (Or.inr ⟨lg, hlg, he⟩)))
  have hc := core_rects (core_activate_notShown plot plotRect options d hs)
  refine ⟨?_, hc.1, hc.2.1, hc.2.2.1, fun a => congrFun hc.2.2.2 a⟩
  rw [activate_legendRect_notShown plot plotRect options d hs]
  exact null_isEmpty

/-- Witness for `empty_legend_noop`: a plot with four axes and an empty legend, docked
at the bottom, in 300 x 500. -/
theorem empty_legend_noop_witness :
    (activate { Example.plotAxes with legend := some Example.emptyLegend }
        ⟨0, 0, 300, 500⟩ Example.options QwtPlotLayout.new).legendRect.isEmpty = true ∧
      (activate { Example.plotAxes with legend := some Example.emptyLegend }
        ⟨0, 0, 300, 500⟩ Example.options QwtPlotLayout.new).canvasRect =
        (activate (withoutLegend { Example.plotAxes with legend := some Example.emptyLegend })
          ⟨0, 0, 300, 500⟩ Example.options QwtPlotLayout.new).canvasRect :=
  have h := empty_legend_noop { Example.plotAxes with legend := some Example.emptyLegend }
    ⟨0, 0, 300, 500⟩ Example.options QwtPlotLayout.new Example.emptyLegend rfl rfl
  ⟨h.1, h.2.1⟩

set_option maxRecDepth 8000 in
/-- C10 fails as stated.  A legend that is not `isEmpty()` and has the size hint 0 x 0,
docked at the bottom of a plot without axes in 100 x 100: the legend rectangle is empty,
but the spacing of 5 is still taken from the canvas, which is 95 high and not 100 as
with the legend ignored. -/
theorem zero_size_legend_counterexample :
    Example.zeroLegend.sizeHint = ⟨0, 0⟩ ∧
    (activate { Example.plotNoAxes with legend := some Example.zeroLegend }
      ⟨0, 0, 100, 100⟩ Example.options QwtPlotLayout.new).canvasRect = ⟨0, 0, 100, 95⟩ ∧
    (activate { Example.plotNoAxes with legend := some Example.zeroLegend }
      ⟨0, 0, 100, 100⟩ (ignoringLegend Example.options) QwtPlotLayout.new).canvasRect =
        ⟨0, 0, 100, 100⟩ ∧
    (activate { Example.plotNoAxes with legend := some Example.zeroLegend }
      ⟨0, 0, 100, 100⟩ Example.options QwtPlotLayout.new).canvasRect ≠
    (activate { Example.plotNoAxes with legend := some Example.zeroLegend }
      ⟨0, 0, 100, 100⟩ (ignoringLegend Example.options) QwtPlotLayout.new).canvasRect := by
  refine ⟨rfl, ?_, ?_, ?_⟩
  · with_unfolding_all decide
  · with_unfolding_all decide
  · with_unfolding_all decide


/-- The local variables after the legend step are those before it when the legend is
not shown or floats. -/
theorem activateLegend_locals_of (plot : QwtPlot) (options : Options)
    (s : PrivateData × Locals)
    (h : legendShown plot options s.1 = false ∨ s.1.legendPos = LegendLayout.FloatLegend) :
    (activateLegend plot options s).2 = s.2 := by
  rcases h with h | h
  · rw [activateLegend_notShown plot options s h]
  · exact activateLegend_float_locals plot options s h

/-- C10 (amended): a legend with the size hint 0 x 0 that is empty (`isEmpty()`), or
whose position is `FloatLegend` or `HideLegend`, is treated as disabled: `legendRect` is
empty and `activate` reserves no space and no spacing for it, so `canvasRect` is the
same as with the legend ignored (`IgnoreLegend`). -/
theorem zero_size_legend (plot : QwtPlot) (plotRect : QRectF) (options : Options)
    (d : PrivateData) (lg : QwtAbstractLegend) (hlg : plot.legend = some lg)
    (hz : lg.sizeHint = ⟨0, 0⟩)
    (h : lg.isEmpty = true ∨ d.legendPos = LegendLayout.FloatLegend ∨
      d.legendPos = LegendLayout.HideLegend) :
    (activate plot plotRect options d).legendRect.isEmpty = true ∧
      (activate plot plotRect options d).canvasRect =
        (activate plot plotRect (ignoringLegend options) d).canvasRect := by
  have hs := (sameSettings_activateStart plot plotRect d).then_settings
    (sameSettings_activateTitle options (activateStart plot plotRect d))
  have hcase : legendShown plot options d = false ∨
      d.legendPos = LegendLayout.FloatLegend := by
    rcases h with h | h | h
    · exact Or.inl (legendShown_eq_false plot options d
        (Or.inr (Or.inr (Or.inr ⟨lg, hlg, h⟩))))
    · exact Or.inr h
    · exact Or.inl (legendShown_eq_false plot options d (Or.inl h))
  constructor
  · rcases hcase with hn | hf
    · rw [activate_legendRect_notShown plot plotRect options d hn]
      exact null_isEmpty
    · unfold activate
      apply activateFinish_legendRect_isEmpty
      rw [(stages_legend plot plotRect options d).1]
      unfold activateLegend
      dsimp only
      split_ifs
      · apply layoutLegend_float_isEmpty
        · rw [← hs.legendPos]; exact hf
        · rw [activateTitle_layoutData]
          unfold activateStart LayoutData.init
          dsimp only
          rw [hlg]
          exact hz
      · rw [activateStart_legendRect]
        exact null_isEmpty
  · have hc : core (activate plot plotRect options d) =
        core (activate plot plotRect (ignoringLegend options) d) := by
      refine @core_activate_congr plot plot options (ignoringLegend options) d d plotRect
        rfl rfl rfl rfl rfl rfl rfl rfl (SameSettings.rfl_settings d) ?_
      have ht : activateTitle (ignoringLegend options) (activateStart plot plotRect d) =
          activateTitle options (activateStart plot plotRect d) :=
        activateTitle_congr rfl rfl _
      rw [ht, activateLegend_notShown plot (ignoringLegend options) _ (by
        unfold legendShown ignoringLegend
        cases plot.legend <;> rfl)]
      apply activateLegend_locals_of
      rcases hcase with hn | hf
      · left
        rw [legendShown_stage]
        exact hn
      · right
        rw [← hs.legendPos]
        exact hf
    exact (core_rects hc).1

/-- Witness for `zero_size_legend`: a floating legend that is not `isEmpty()` and has
the size hint 0 x 0, in 300 x 500. -/
theorem zero_size_legend_witness :
    (activate { Example.plotAxes with legend := some Example.zeroLegend }
        ⟨0, 0, 300, 500⟩ Example.options Example.floating).legendRect.isEmpty = true ∧
      (activate { Example.plotAxes with legend := some Example.zeroLegend }
        ⟨0, 0, 300, 500⟩ Example.options Example.floating).canvasRect =
        (activate { Example.plotAxes with legend := some Example.zeroLegend }
          ⟨0, 0, 300, 500⟩ (ignoringLegend Example.options) Example.floating).canvasRect :=
  zero_size_legend { Example.plotAxes with legend := some Example.zeroLegend }
    ⟨0, 0, 300, 500⟩ Example.options Example.floating Example.zeroLegend rfl rfl
    (Or.inr (Or.inl (by with_unfolding_all decide)))

/-! ## A second layout pass -/

/-- With an anchor other than `FreePosition` the offset is not renormalised. -/
theorem renormOffset_preset (x W : ℚ) (h : ℤ) (size : ℚ) :
    renormOffset false x W h size = x := by
  unfold renormOffset
  simp

theorem floatClamp_idem (hintSize : ℤ) (far v : ℚ) :
    floatClamp hintSize far (floatClamp hintSize far v) = floatClamp hintSize far v := by
  unfold floatClamp
  dsimp only
  split_ifs <;> first | rfl | linarith

theorem floatRect_x (rect : QRectF) (hint : QSize) (xOff yOff : ℚ) :
    (floatRect rect hint xOff yOff).xp = floatClamp hint.width rect.right (xOff + rect.left) := by
  unfold floatRect floatClamp
  simp only [QRectF.setX, QRectF.setY, QRectF.setLeft, QRectF.setTop, QRectF.x, QRectF.y,
    add_sub_cancel]

theorem floatRect_y (rect : QRectF) (hint : QSize) (xOff yOff : ℚ) :
    (floatRect rect hint xOff yOff).yp =
      floatClamp hint.height rect.bottom (yOff + rect.top) := by
  unfold floatRect floatClamp
  simp only [QRectF.setX, QRectF.setY, QRectF.setLeft, QRectF.setTop, QRectF.x, QRectF.y,
    add_sub_cancel]

theorem presetOffset_idem (pos : FloatPosition) (rect : QRectF) (hint : QSize) (x y : ℚ) :
    presetOffset pos rect hint (presetOffset pos rect hint x y).1
      (presetOffset pos rect hint x y).2 = presetOffset pos rect hint x y := by
  cases pos <;> rfl

/-- The rectangle of a floating legend, by its coordinates. -/
theorem floatRect_sized (rect : QRectF) (hint : QSize) (xOff yOff w h : ℚ) :
    ((floatRect rect hint xOff yOff).setWidth w).setHeight h =
      ⟨floatClamp hint.width rect.right (xOff + rect.left),
       floatClamp hint.height rect.bottom (yOff + rect.top), w, h⟩ := by
  rw [← floatRect_x rect hint xOff yOff, ← floatRect_y rect hint xOff yOff]
  rfl

/-- The offsets that a layout pass with a floating legend stores give, in the next pass
over the same rectangle, the same offsets again. -/
theorem floatOffsets_again (pos : FloatPosition) (rect : QRectF) (hint : QSize) (x y : ℚ) :
    floatClamp hint.width rect.right
        ((presetOffset pos rect hint
          ((floatRect rect hint (presetOffset pos rect hint x y).1
            (presetOffset pos rect hint x y).2).x - rect.left)
          ((floatRect rect hint (presetOffset pos rect hint x y).1
            (presetOffset pos rect hint x y).2).y - rect.top)).1 + rect.left) =
      floatClamp hint.width rect.right ((presetOffset pos rect hint x y).1 + rect.left) ∧
    floatClamp hint.height rect.bottom
        ((presetOffset pos rect hint
          ((floatRect rect hint (presetOffset pos rect hint x y).1
            (presetOffset pos rect hint x y).2).x - rect.left)
          ((floatRect rect hint (presetOffset pos rect hint x y).1
            (presetOffset pos rect hint x y).2).y - rect.top)).2 + rect.top) =
      floatClamp hint.height rect.bottom ((presetOffset pos rect hint x y).2 + rect.top) := by
  have hx := floatRect_x rect hint (presetOffset pos rect hint x y).1
    (presetOffset pos rect hint x y).2
  have hy := floatRect_y rect hint (presetOffset pos rect hint x y).1
    (presetOffset pos rect hint x y).2
  unfold QRectF.x QRectF.y
  rw [hx, hy]
  cases pos <;> simp only [presetOffset, sub_add_cancel, floatClamp_idem, and_self]

/-- The offsets `layoutLegend` stores for a floating legend. -/
theorem layoutLegend_floatOffsets (options : Options) (rect : QRectF) (d : PrivateData)
    (hp : d.legendPos = LegendLayout.FloatLegend) :
    (layoutLegend options rect d).2.layoutData.legend.xOffset =
        (floatRect rect d.layoutData.legend.maxHint
          (presetOffset d.legendFloatPos rect d.layoutData.legend.maxHint
            (renormOffset (decide (d.legendFloatPos = FloatPosition.FreePosition))
              d.layoutData.legend.xOffset d.layoutData.legend.xTotalSize
              d.layoutData.legend.maxHint.width rect.width)
            (renormOffset (decide (d.legendFloatPos = FloatPosition.FreePosition))
              d.layoutData.legend.yOffset d.layoutData.legend.yTotalSize
              d.layoutData.legend.maxHint.height rect.height)).1
          (presetOffset d.legendFloatPos rect d.layoutData.legend.maxHint
            (renormOffset (decide (d.legendFloatPos = FloatPosition.FreePosition))
              d.layoutData.legend.xOffset d.layoutData.legend.xTotalSize
              d.layoutData.legend.maxHint.width rect.width)
            (renormOffset (decide (d.legendFloatPos = FloatPosition.FreePosition))
              d.layoutData.legend.yOffset d.layoutData.legend.yTotalSize
              d.layoutData.legend.maxHint.height rect.height)).2).x - rect.left ∧
      (layoutLegend options rect d).2.layoutData.legend.yOffset =
        (floatRect rect d.layoutData.legend.maxHint
          (presetOffset d.legendFloatPos rect d.layoutData.legend.maxHint
            (renormOffset (decide (d.legendFloatPos = FloatPosition.FreePosition))
              d.layoutData.legend.xOffset d.layoutData.legend.xTotalSize
              d.layoutData.legend.maxHint.width rect.width)
            (renormOffset (decide (d.legendFloatPos = FloatPosition.FreePosition))
              d.layoutData.legend.yOffset d.layoutData.legend.yTotalSize
              d.layoutData.legend.maxHint.height rect.height)).1
          (presetOffset d.legendFloatPos rect d.layoutData.legend.maxHint
            (renormOffset (decide (d.legendFloatPos = FloatPosition.FreePosition))
              d.layoutData.legend.xOffset d.layoutData.legend.xTotalSize
              d.layoutData.legend.maxHint.width rect.width)
            (renormOffset (decide (d.legendFloatPos = FloatPosition.FreePosition))
              d.layoutData.legend.yOffset d.layoutData.legend.yTotalSize
              d.layoutData.legend.maxHint.height rect.height)).2).y - rect.top := by
  unfold layoutLegend
  rw [hp]
  exact ⟨rfl, rfl⟩

/-- A second call of `layoutLegend` for the same rectangle, with the legend data the
first call has left, gives the same legend rectangle, if the renormalisation of the
second call returns the offsets the first call has stored; only for a floating legend
with the anchor `FreePosition` there is something to renormalise. -/
theorem layoutLegend_again (options : Options) (rect : QRectF) (d d' : PrivateData)
    (hp : d'.legendPos = d.legendPos) (hf : d'.legendFloatPos = d.legendFloatPos)
    (hr : d'.legendRatio = d.legendRatio)
    (hl : d'.layoutData.legend = (layoutLegend options rect d).2.layoutData.legend)
    (hfix : d.legendPos = LegendLayout.FloatLegend →
      d.legendFloatPos = FloatPosition.FreePosition →
      renormOffset true (layoutLegend options rect d).2.layoutData.legend.xOffset rect.width
          d.layoutData.legend.maxHint.width rect.width =
        (layoutLegend options rect d).2.layoutData.legend.xOffset ∧
      renormOffset true (layoutLegend options rect d).2.layoutData.legend.yOffset rect.height
          d.layoutData.legend.maxHint.height rect.height =
        (layoutLegend options rect d).2.layoutData.legend.yOffset) :
    (layoutLegend options rect d').1 = (layoutLegend options rect d).1 := by
  by_cases hfl : d.legendPos = LegendLayout.FloatLegend
  · obtain ⟨ox, oy⟩ := layoutLegend_floatOffsets options rect d hfl
    have hfix1 := hfix hfl
    rw [ox, oy] at hfix1
    unfold layoutLegend at hl ⊢
    unfold legendDim
    rw [hp, hf, hr]
    simp only [hfl, reduceCtorEq, if_false, if_true] at hl ⊢
    rw [hl]
    dsimp only
    have hren : ∀ (X T : ℚ) (w : ℤ),
        (d.legendFloatPos = FloatPosition.FreePosition → renormOffset true X T w T = X) →
        renormOffset (decide (d.legendFloatPos = FloatPosition.FreePosition)) X T w T = X := by
      intro X T w hX
      by_cases hF : d.legendFloatPos = FloatPosition.FreePosition
      · rw [decide_eq_true hF]
        exact hX hF
      · rw [decide_eq_false hF]
        exact renormOffset_preset X T w T
    rw [hren _ _ _ (fun hF => (hfix1 hF).1), hren _ _ _ (fun hF => (hfix1 hF).2),
      floatRect_sized, floatRect_sized]
    obtain ⟨h1, h2⟩ := floatOffsets_again d.legendFloatPos rect d.layoutData.legend.maxHint
      (renormOffset (decide (d.legendFloatPos = FloatPosition.FreePosition))
        d.layoutData.legend.xOffset d.layoutData.legend.xTotalSize
        d.layoutData.legend.maxHint.width rect.width)
      (renormOffset (decide (d.legendFloatPos = FloatPosition.FreePosition))
        d.layoutData.legend.yOffset d.layoutData.legend.yTotalSize
        d.layoutData.legend.maxHint.height rect.height)
    rw [h1, h2]
  · unfold layoutLegend at hl ⊢
    unfold legendDim
    rw [hp, hf, hr]
    cases hpos : d.legendPos <;> simp only [hpos, reduceCtorEq, if_false, if_true] at hl ⊢ <;>
      first
      | exact absurd hpos hfl
      | rw [hl]


theorem layoutLegend_legendInfo (options : Options) (rect : QRectF) (d : PrivateData) :
    SameLegendInfo (layoutLegend options rect d).2.layoutData.legend d.layoutData.legend := by
  unfold layoutLegend
  cases hpos : d.legendPos <;> exact ⟨rfl, rfl, rfl, rfl, rfl⟩

theorem activateLegend_shown (plot : QwtPlot) (options : Options) (s : PrivateData × Locals)
    (h : legendShown plot options s.1 = true) :
    activateLegend plot options s =
      ({ (layoutLegend options s.2.rect s.1).2 with
          legendRect := (layoutLegend options s.2.rect s.1).1 },
        legendLocals { (layoutLegend options s.2.rect s.1).2 with
          legendRect := (layoutLegend options s.2.rect s.1).1 } s.2) := by
  unfold activateLegend
  rw [if_pos h]

theorem activateLegend_legendInfo (plot : QwtPlot) (options : Options)
    (s : PrivateData × Locals) :
    SameLegendInfo (activateLegend plot options s).1.layoutData.legend
      s.1.layoutData.legend := by
  cases h : legendShown plot options s.1
  · rw [activateLegend_notShown plot options s h]
    exact ⟨rfl, rfl, rfl, rfl, rfl⟩
  · rw [activateLegend_shown plot options s h]
    exact layoutLegend_legendInfo options s.2.rect s.1

/-- `LayoutData::init` leaves legend data as they are when they hold what it reads from
the legend already. -/
theorem initLegend_fixed (lg : QwtAbstractLegend) (rect : QRectF) (l0 l : LegendData)
    (h : SameLegendInfo l (LayoutData.initLegend lg rect l0)) :
    LayoutData.initLegend lg rect l = l := by
  obtain ⟨h1, h2, h3, h4, h5⟩ := h
  cases l
  unfold LayoutData.initLegend at h1 h2 h3 h4 h5 ⊢
  dsimp only at h1 h2 h3 h4 h5 ⊢
  subst h1 h2 h3 h4 h5
  rfl

/-- The legend data the next layout pass of the same plot starts with are those the
pass before has left. -/
theorem nextStart_legend (plot : QwtPlot) (plotRect : QRectF) (options : Options)
    (d : PrivateData) :
    (activateStart plot plotRect (activate plot plotRect options d)).1.layoutData.legend =
      (activate plot plotRect options d).layoutData.legend := by
  have hi := activateLegend_legendInfo plot options
    (activateTitle options (activateStart plot plotRect d))
  rw [← activate_legendData, activateTitle_layoutData] at hi
  unfold activateStart LayoutData.init at hi ⊢
  dsimp only at hi ⊢
  cases hl : plot.legend with
  | none => rfl
  | some lg =>
    rw [hl] at hi
    exact initLegend_fixed lg plotRect _ _ hi

theorem legendLocals_congr {d d' : PrivateData} (hp : d.legendPos = d'.legendPos)
    (hr : d.legendRect = d'.legendRect) (hsp : d.spacing = d'.spacing) (l : Locals) :
    legendLocals d l = legendLocals d' l := by
  unfold legendLocals
  rw [hp, hr, hsp]

theorem legendLocals_float {d d' : PrivateData} (hp : d.legendPos = LegendLayout.FloatLegend)
    (hp' : d'.legendPos = LegendLayout.FloatLegend) (l : Locals) :
    legendLocals d l = legendLocals d' l := by
  unfold legendLocals
  rw [hp, hp']
  simp only [ne_eq, not_true_eq_false, if_false]

/-- The legend step of a second layout pass with the same plot, rectangle and options
gives the local variables and the legend hint of the first. -/
theorem legendStage_again (plot : QwtPlot) (plotRect : QRectF) (options : Options)
    (d : PrivateData) :
    (activateLegend plot options (activateTitle options
        (activateStart plot plotRect (activate plot plotRect options d)))).2 =
      (activateLegend plot options (activateTitle options
        (activateStart plot plotRect d))).2 ∧
    (activateLegend plot options (activateTitle options
        (activateStart plot plotRect
          (activate plot plotRect options d)))).1.layoutData.legend.hint =
      (activateLegend plot options (activateTitle options
        (activateStart plot plotRect d))).1.layoutData.legend.hint := by
  have hs := sameSettings_activate plot plotRect options d
  have hs0 := (sameSettings_activateStart plot plotRect d).then_settings
    (sameSettings_activateTitle options (activateStart plot plotRect d))
  have hs1 := hs.then_settings ((sameSettings_activateStart plot plotRect
    (activate plot plotRect options d)).then_settings
    (sameSettings_activateTitle options
      (activateStart plot plotRect (activate plot plotRect options d))))
  have c0 : core (activateStart plot plotRect (activate plot plotRect options d)).1 =
      core (activateStart plot plotRect d).1 :=
    (core_activateStart rfl rfl rfl rfl rfl hs plotRect).symm
  obtain ⟨-, hl⟩ := coreStable_activateTitle options _ _ c0 rfl
  have hlg : (activateTitle options (activateStart plot plotRect
      (activate plot plotRect options d))).1.layoutData.legend =
      (activateLegend plot options (activateTitle options
        (activateStart plot plotRect d))).1.layoutData.legend := by
    rw [activateTitle_layoutData, nextStart_legend, activate_legendData]
  have hi := activateLegend_legendInfo plot options (activateTitle options
    (activateStart plot plotRect (activate plot plotRect options d)))
  have h3 : (activateLegend plot options (activateTitle options (activateStart plot plotRect
      (activate plot plotRect options d)))).1.layoutData.legend.hint =
      (activateLegend plot options (activateTitle options
        (activateStart plot plotRect d))).1.layoutData.legend.hint := by
    rw [hi.2.2.2.1, hlg]
  cases hsh : legendShown plot options d
  · have h0 : legendShown plot options
        (activateTitle options (activateStart plot plotRect d)).1 = false := by
      rw [legendShown_stage]; exact hsh
    have h1 : legendShown plot options (activateTitle options (activateStart plot plotRect
        (activate plot plotRect options d))).1 = false := by
      rw [legendShown_stage]
      unfold legendShown legendPosition at hsh ⊢
      rw [← hs.legendPos]
      exact hsh
    refine ⟨?_, h3⟩
    rw [activateLegend_notShown _ _ _ h0, activateLegend_notShown _ _ _ h1]
    exact hl
  · have h0 : legendShown plot options
        (activateTitle options (activateStart plot plotRect d)).1 = true := by
      rw [legendShown_stage]; exact hsh
    have h1 : legendShown plot options (activateTitle options (activateStart plot plotRect
        (activate plot plotRect options d))).1 = true := by
      rw [legendShown_stage]
      unfold legendShown legendPosition at hsh ⊢
      rw [← hs.legendPos]
      exact hsh
    refine ⟨?_, h3⟩
    rw [activateLegend_shown _ _ _ h0] at hlg ⊢
    rw [activateLegend_shown _ _ _ h1]
    dsimp only
    rw [hl]
    have hpp : (layoutLegend options (activateTitle options (activateStart plot plotRect d)).2.rect
        (activateTitle options (activateStart plot plotRect
          (activate plot plotRect options d))).1).2.legendPos =
        (layoutLegend options (activateTitle options (activateStart plot plotRect d)).2.rect
          (activateTitle options (activateStart plot plotRect d)).1).2.legendPos :=
      ((sameSettings_layoutLegend options _ _).legendPos.symm.trans
        (hs1.legendPos.symm.trans hs0.legendPos)).trans
        (sameSettings_layoutLegend options _ _).legendPos
    by_cases hfl : d.legendPos = LegendLayout.FloatLegend
    · have e0 : (layoutLegend options
          (activateTitle options (activateStart plot plotRect d)).2.rect
          (activateTitle options (activateStart plot plotRect d)).1).2.legendPos =
          LegendLayout.FloatLegend :=
        ((sameSettings_layoutLegend options _ _).legendPos.symm.trans
          hs0.legendPos.symm).trans hfl
      exact @legendLocals_float
        { (layoutLegend options (activateTitle options (activateStart plot plotRect d)).2.rect
            (activateTitle options (activateStart plot plotRect
              (activate plot plotRect options d))).1).2 with
          legendRect := (layoutLegend options
            (activateTitle options (activateStart plot plotRect d)).2.rect
            (activateTitle options (activateStart plot plotRect
              (activate plot plotRect options d))).1).1 }
        { (layoutLegend options (activateTitle options (activateStart plot plotRect d)).2.rect
            (activateTitle options (activateStart plot plotRect d)).1).2 with
          legendRect := (layoutLegend options
            (activateTitle options (activateStart plot plotRect d)).2.rect
            (activateTitle options (activateStart plot plotRect d)).1).1 }
        (hpp.trans e0) e0 _
    · have hag := layoutLegend_again options
        (activateTitle options (activateStart plot plotRect d)).2.rect
        (activateTitle options (activateStart plot plotRect d)).1
        (activateTitle options (activateStart plot plotRect
          (activate plot plotRect options d))).1
        (hs1.legendPos.symm.trans hs0.legendPos)
        (hs1.legendFloatPos.symm.trans hs0.legendFloatPos)
        (hs1.ratio.symm.trans hs0.ratio) hlg
        (fun hF => absurd (hs0.legendPos.trans hF) hfl)
      exact @legendLocals_congr
        { (layoutLegend options (activateTitle options (activateStart plot plotRect d)).2.rect
            (activateTitle options (activateStart plot plotRect
              (activate plot plotRect options d))).1).2 with
          legendRect := (layoutLegend options
            (activateTitle options (activateStart plot plotRect d)).2.rect
            (activateTitle options (activateStart plot plotRect
              (activate plot plotRect options d))).1).1 }
        { (layoutLegend options (activateTitle options (activateStart plot plotRect d)).2.rect
            (activateTitle options (activateStart plot plotRect d)).1).2 with
          legendRect := (layoutLegend options
            (activateTitle options (activateStart plot plotRect d)).2.rect
            (activateTitle options (activateStart plot plotRect d)).1).1 }
        hpp hag
        (((sameSettings_layoutLegend options _ _).spacing.symm.trans
          (hs1.spacing.symm.trans hs0.spacing)).trans
          (sameSettings_layoutLegend options _ _).spacing) _

theorem normalFold_scaleRect (l : Locals) (d : PrivateData) (a : Axis) :
    (normalFold l Axis.all d).scaleRect a =
      if l.dimAxes a ≠ 0 then
        normalScaleRect d.canvasRect a (l.dimAxes a) (l.axisExHeight a)
      else d.scaleRect a := by
  unfold normalFold Axis.all
  simp only [List.foldl_cons, List.foldl_nil]
  cases a <;> split_ifs <;> simp [setAt]

theorem collapsedFold_scaleRect (plot : QwtPlot) (d : PrivateData) (a : Axis) :
    (collapsedFold plot Axis.all d).scaleRect a =
      if plot.axisEnabled a then collapsedScaleRect d.canvasRect a else d.scaleRect a := by
  unfold collapsedFold Axis.all
  simp only [List.foldl_cons, List.foldl_nil]
  cases a <;> split_ifs <;> simp_all [setAt]

theorem stages_scaleRect (plot : QwtPlot) (plotRect : QRectF) (options : Options)
    (d : PrivateData) (a : Axis) :
    (activateStages plot plotRect options d).1.scaleRect a = QRectF.null := by
  unfold activateStages
  rw [activateFooter_state, activateDims_state]
  show (activateLegend plot options
    (activateTitle options (activateStart plot plotRect d))).1.scaleRect a = QRectF.null
  rw [activateLegend_state, activateTitle_state]
  show QRectF.ofRect QRect.null = QRectF.null
  with_unfolding_all decide


/-- In the normal layout the rectangle of an axis lies within `b` when the canvas does and
the dimension and the index badge of the axis have room between the canvas and `b`. -/
theorem normalScaleRect_within (c b : QRectF) (a : Axis) (dim ex : ℤ)
    (hc : c.within b) (hw : 0 ≤ c.width) (hh : 0 ≤ c.height) (hdim : 0 ≤ dim) (hex : 0 ≤ ex)
    (hL : a = Axis.yLeft → b.left ≤ c.left - (dim : ℚ) ∧ b.top ≤ c.top - (ex : ℚ))
    (hR : a = Axis.yRight → c.right + (dim : ℚ) ≤ b.right ∧ b.top ≤ c.top - (ex : ℚ))
    (hB : a = Axis.xBottom → c.bottom + (dim : ℚ) ≤ b.bottom ∧ c.right + (ex : ℚ) ≤ b.right)
    (hT : a = Axis.xTop → b.top ≤ c.top - (dim : ℚ)) :
    (normalScaleRect c a dim ex).within b := by
  have hd : (0 : ℚ) ≤ (dim : ℚ) := by exact_mod_cast hdim
  have he : (0 : ℚ) ≤ (ex : ℚ) := by exact_mod_cast hex
  obtain ⟨c1, c2, c3, c4⟩ := hc
  unfold QRectF.within normalScaleRect QRectF.normalized
  simp only [QRectF.left, QRectF.right, QRectF.top, QRectF.bottom, QRectF.width, QRectF.height,
    QRectF.setX, QRectF.setY, QRectF.setLeft, QRectF.setTop, QRectF.setWidth, QRectF.setHeight,
    QRectF.x, QRectF.y] at *
  cases a
  · obtain ⟨h1, h2⟩ := hL rfl
    dsimp only
    split_ifs <;> dsimp only <;> refine ⟨?_, ?_, ?_, ?_⟩ <;> linarith
  · obtain ⟨h1, h2⟩ := hR rfl
    dsimp only
    split_ifs <;> dsimp only <;> refine ⟨?_, ?_, ?_, ?_⟩ <;> linarith
  · obtain ⟨h1, h2⟩ := hB rfl
    dsimp only
    split_ifs <;> dsimp only <;> refine ⟨?_, ?_, ?_, ?_⟩ <;> linarith
  · have h1 := hT rfl
    dsimp only
    split_ifs <;> dsimp only <;> refine ⟨?_, ?_, ?_, ?_⟩ <;> linarith

theorem le_hintedDim (d : PrivateData) (f : Axis → ℤ) (a : Axis) : f a ≤ hintedDim d f a := by
  unfold hintedDim
  split_ifs
  · exact le_max_left _ _
  · exact le_refl _

/-- The top axis is as high as the index badges of the two y axes. -/
theorem badge_le_top (plot : QwtPlot) (d : PrivateData)
    (h : fixedDimOfAxis d Axis.xTop = 0 ∨
      (badgeOf plot 0 Axis.yLeft ≤ fixedDimOfAxis d Axis.xTop ∧
        badgeOf plot 0 Axis.yRight ≤ fixedDimOfAxis d Axis.xTop)) :
    badgeOf plot 0 Axis.yLeft ≤ finalDim plot d Axis.xTop ∧
      badgeOf plot 0 Axis.yRight ≤ finalDim plot d Axis.xTop := by
  have h0 := le_hintedDim d (coupledDim d (resolvedDim plot d) (badgeOf plot 0)) Axis.xTop
  have h1 : badgeOf plot 0 Axis.yLeft ≤
        coupledDim d (resolvedDim plot d) (badgeOf plot 0) Axis.xTop ∧
      badgeOf plot 0 Axis.yRight ≤
        coupledDim d (resolvedDim plot d) (badgeOf plot 0) Axis.xTop := by
    unfold coupledDim resolvedDim
    unfold fixedDimOfAxis at h ⊢
    simp only [setAt, reduceCtorEq, if_false, if_true]
    rcases h with h | ⟨h1, h2⟩
    · rw [h]
      simp only [ne_eq, not_true_eq_false, if_false, le_max_iff, le_refl, or_true, true_or,
        and_self]
    · split_ifs <;> simp_all
  unfold finalDim
  exact ⟨le_trans h1.1 h0, le_trans h1.2 h0⟩

/-- The right axis is as wide as the index badge of the bottom axis. -/
theorem badge_le_right (plot : QwtPlot) (d : PrivateData)
    (h : fixedDimOfAxis d Axis.yRight = 0 ∨
      badgeOf plot 0 Axis.xBottom ≤ fixedDimOfAxis d Axis.yRight) :
    badgeOf plot 0 Axis.xBottom ≤ finalDim plot d Axis.yRight := by
  have h0 := le_hintedDim d (coupledDim d (resolvedDim plot d) (badgeOf plot 0)) Axis.yRight
  have h1 : badgeOf plot 0 Axis.xBottom ≤
      coupledDim d (resolvedDim plot d) (badgeOf plot 0) Axis.yRight := by
    unfold coupledDim resolvedDim
    unfold fixedDimOfAxis at h ⊢
    simp only [setAt, reduceCtorEq, if_false, if_true]
    rcases h with h | h1
    · rw [h]
      simp only [ne_eq, not_true_eq_false, if_false, le_max_iff, le_refl, or_true, true_or]
    · split_ifs <;> simp_all
  unfold finalDim
  exact le_trans h1 h0


/-- The rectangle of an axis and the flag `scaleVisible()` after `activate`, by the test of
the minimal canvas size. -/
theorem activate_scaleRect (plot : QwtPlot) (plotRect : QRectF) (options : Options)
    (d : PrivateData) (a : Axis) :
    (activate plot plotRect options d).scaleRect a =
        (if canvasTooSmall (activateStages plot plotRect options d).1
            (provisionalCanvas (activateStages plot plotRect options d).2) then
          (if plot.axisEnabled a then collapsedScaleRect plotRect a else QRectF.null)
        else
          (if (activateStages plot plotRect options d).2.dimAxes a ≠ 0 then
            normalScaleRect (provisionalCanvas (activateStages plot plotRect options d).2) a
              ((activateStages plot plotRect options d).2.dimAxes a)
              ((activateStages plot plotRect options d).2.axisExHeight a)
          else QRectF.null)) ∧
      scaleVisible (activate plot plotRect options d) =
        !canvasTooSmall (activateStages plot plotRect options d).1
          (provisionalCanvas (activateStages plot plotRect options d).2) := by
  have hts : canvasTooSmall (activateStages plot plotRect options d).1
      (provisionalCanvas (activateStages plot plotRect options d).2) =
      canvasTooSmall { (activateStages plot plotRect options d).1 with
          canvasRect := provisionalCanvas (activateStages plot plotRect options d).2 }
        (provisionalCanvas (activateStages plot plotRect options d).2) := rfl
  have hnull := stages_scaleRect plot plotRect options d a
  rw [hts]
  unfold activate activateFinish scaleVisible
  dsimp only
  by_cases h : canvasTooSmall { (activateStages plot plotRect options d).1 with
          canvasRect := provisionalCanvas (activateStages plot plotRect options d).2 }
        (provisionalCanvas (activateStages plot plotRect options d).2) = true
  · rw [if_pos h, if_pos h, h]
    unfold activateCollapsed setAllScaleVisible
    dsimp only
    rw [collapsedFold_scaleRect]
    dsimp only
    rw [hnull]
    exact ⟨rfl, rfl⟩
  · rw [if_neg h, if_neg h, Bool.eq_false_iff.mpr h]
    have hv : ∀ x : PrivateData, (normalFold (activateStages plot plotRect options d).2
        Axis.all x).allScaleVisible = x.allScaleVisible := by
      intro x
      rw [normalFold_eq]
    have hn := normalFold_scaleRect (activateStages plot plotRect options d).2
      (setAllScaleVisible true { (activateStages plot plotRect options d).1 with
          canvasRect := provisionalCanvas (activateStages plot plotRect options d).2 }) a
    unfold setAllScaleVisible at hn
    dsimp only at hn
    rw [hnull] at hn
    unfold activateNormal
    dsimp only
    by_cases h2 : (!(normalFold (activateStages plot plotRect options d).2 Axis.all
        (setAllScaleVisible true { (activateStages plot plotRect options d).1 with
          canvasRect := provisionalCanvas (activateStages plot plotRect options d).2
          })).legendRect.isEmpty) = true
    · rw [if_pos h2]
      dsimp only
      rw [hv]
      exact ⟨hn, rfl⟩
    · rw [if_neg h2, hv]
      exact ⟨hn, rfl⟩


/-- The 1 pixel rectangle of an axis in the collapsed layout is not within the canvas it
is laid along. -/
theorem collapsedScaleRect_outside (c : QRectF) (a : Axis) :
    ¬ (collapsedScaleRect c a).within c := by
  unfold QRectF.within collapsedScaleRect
  simp only [QRectF.left, QRectF.right, QRectF.top, QRectF.bottom, QRectF.setX, QRectF.setY,
    QRectF.setLeft, QRectF.setTop, QRectF.setWidth, QRectF.setHeight]
  cases a <;> dsimp only <;> intro h <;> linarith [h.1, h.2.1, h.2.2.1, h.2.2.2]

set_option maxRecDepth 8000 in
/-- C2 fails as stated.  With the four axes enabled and the bounding rectangle 30 x 500,
narrower than the minimal canvas, the layout collapses: the canvas is the bounding
rectangle and the 1 pixel rectangles of the axes lie along its edges on the outside, the
left one at x = -1, the right one at x = 30, the bottom one at y = 500 and the top one
at y = -1. -/
theorem scaleRect_within_counterexample :
    (activate Example.plotAxes ⟨0, 0, 30, 500⟩ Example.options QwtPlotLayout.new).scaleRect
        Axis.yLeft = ⟨-1, 0, 1, 500⟩ ∧
    (activate Example.plotAxes ⟨0, 0, 30, 500⟩ Example.options QwtPlotLayout.new).scaleRect
        Axis.yRight = ⟨30, 0, 1, 500⟩ ∧
    (activate Example.plotAxes ⟨0, 0, 30, 500⟩ Example.options QwtPlotLayout.new).scaleRect
        Axis.xBottom = ⟨0, 500, 30, 1⟩ ∧
    (activate Example.plotAxes ⟨0, 0, 30, 500⟩ Example.options QwtPlotLayout.new).scaleRect
        Axis.xTop = ⟨0, -1, 30, 1⟩ ∧
    ∀ a, ((activate Example.plotAxes ⟨0, 0, 30, 500⟩ Example.options
        QwtPlotLayout.new).scaleRect a).isEmpty = false ∧
      ¬ ((activate Example.plotAxes ⟨0, 0, 30, 500⟩ Example.options
        QwtPlotLayout.new).scaleRect a).within ⟨0, 0, 30, 500⟩ := by
  refine ⟨?_, ?_, ?_, ?_, ?_⟩
  · with_unfolding_all decide
  · with_unfolding_all decide
  · with_unfolding_all decide
  · with_unfolding_all decide
  · intro a
    cases a <;> with_unfolding_all decide

/-- C2 (amended): for a bounding rectangle with integer coordinates, axis dimensions that
are not negative, a positive `minCanvasWidth`, a `minCanvasHeight` that is not negative,
index badges of sizes that are not negative, and a fixed dimension of the top (right)
axis, if there is one, that is not less than the index badges of the y axes (of the
bottom axis): in the normal layout (`scaleVisible()` is true) the rectangle of every
axis is empty or lies within the bounding rectangle; in the collapsed layout
(`scaleVisible()` is false) the rectangle of a disabled axis is empty and the rectangle
of an enabled axis is the 1 pixel sliver along the edge of the bounding rectangle, on
its outside. -/
theorem scaleRect_within (plot : QwtPlot) (plotRect : QRectF) (options : Options)
    (d : PrivateData) (hint : plotRect.isIntegral)
    (hfix : ∀ a, 0 ≤ fixedDimOfAxis d a)
    (hdim : ∀ a, plot.axisEnabled a = true →
      0 ≤ (plot.axisWidget a).dimForLength QWIDGETSIZE_MAX)
    (hminW : 0 < d.minCanvasWidth) (hminH : 0 ≤ d.minCanvasHeight)
    (hbadge : ∀ a, 0 ≤ badgeOf plot 0 a)
    (htop : fixedDimOfAxis d Axis.xTop = 0 ∨
      (badgeOf plot 0 Axis.yLeft ≤ fixedDimOfAxis d Axis.xTop ∧
        badgeOf plot 0 Axis.yRight ≤ fixedDimOfAxis d Axis.xTop))
    (hright : fixedDimOfAxis d Axis.yRight = 0 ∨
      badgeOf plot 0 Axis.xBottom ≤ fixedDimOfAxis d Axis.yRight)
    (a : Axis) :
    (scaleVisible (activate plot plotRect options d) = true →
      ((activate plot plotRect options d).scaleRect a).isEmpty = true ∨
        ((activate plot plotRect options d).scaleRect a).within plotRect) ∧
    (scaleVisible (activate plot plotRect options d) = false →
      (activate plot plotRect options d).scaleRect a =
          (if plot.axisEnabled a then collapsedScaleRect plotRect a else QRectF.null) ∧
        (plot.axisEnabled a = true →
          ¬ ((activate plot plotRect options d).scaleRect a).within plotRect)) := by
  obtain ⟨hsr, hvis⟩ := activate_scaleRect plot plotRect options d a
  have hts := activate_tooSmall plot plotRect options d
  have hts2 : canvasTooSmall (activateStages plot plotRect options d).1
      (provisionalCanvas (activateStages plot plotRect options d).2) =
      canvasTooSmall { (activateStages plot plotRect options d).1 with
          canvasRect := provisionalCanvas (activateStages plot plotRect options d).2 }
        (provisionalCanvas (activateStages plot plotRect options d).2) := rfl
  rw [hvis]
  constructor
  · intro hv
    have hno : ¬ canvasTooSmall (activateStages plot plotRect options d).1
        (provisionalCanvas (activateStages plot plotRect options d).2) = true := by
      intro hc
      rw [hc] at hv
      exact absurd hv (by decide)
    rw [hsr, if_neg hno]
    rw [hts2, hts, not_or, not_lt, not_lt] at hno
    obtain ⟨hh, hw⟩ := hno
    have hmw : (0 : ℚ) < (d.minCanvasWidth : ℚ) := by exact_mod_cast hminW
    have hmh : (0 : ℚ) ≤ (d.minCanvasHeight : ℚ) := by exact_mod_cast hminH
    obtain ⟨e1, e2, e3, e4⟩ :=
      provisionalCanvas_edges (activateStages plot plotRect options d).2
    obtain ⟨hda, hex⟩ := stages_dimAxes plot plotRect options d
    have hd : ∀ x, (0 : ℚ) ≤ ((activateStages plot plotRect options d).2.dimAxes x : ℚ) := by
      intro x
      rw [hda]
      exact_mod_cast finalDim_nonneg plot d hfix hdim x
    have hL := hd Axis.yLeft
    have hR := hd Axis.yRight
    have hT := hd Axis.xTop
    have hB := hd Axis.xBottom
    rw [QRectF.width_eq, e1, e2] at hw
    rw [QRectF.height_eq, e3, e4] at hh
    obtain ⟨m1, m2, m3, m4⟩ : (marginRect (activateStages plot plotRect options d).2).within
        plotRect := by
      rcases stages_inward plot plotRect options d hint with h | h
      · exact h
      · exfalso
        linarith
    obtain ⟨b1, b2⟩ := badge_le_top plot d htop
    have b3 := badge_le_right plot d hright
    have c1 : ((badgeOf plot 0 Axis.yLeft : ℤ) : ℚ) ≤
        ((activateStages plot plotRect options d).2.dimAxes Axis.xTop : ℚ) := by
      rw [hda]; exact_mod_cast b1
    have c2 : ((badgeOf plot 0 Axis.yRight : ℤ) : ℚ) ≤
        ((activateStages plot plotRect options d).2.dimAxes Axis.xTop : ℚ) := by
      rw [hda]; exact_mod_cast b2
    have c3 : ((badgeOf plot 0 Axis.xBottom : ℤ) : ℚ) ≤
        ((activateStages plot plotRect options d).2.dimAxes Axis.yRight : ℚ) := by
      rw [hda]; exact_mod_cast b3
    split_ifs with hz
    · right
      apply normalScaleRect_within
      · exact ⟨by rw [e1]; linarith, by rw [e2]; linarith, by rw [e3]; linarith,
          by rw [e4]; linarith⟩
      · rw [QRectF.width_eq, e1, e2]; linarith
      · rw [QRectF.height_eq, e3, e4]; linarith
      · rw [hda]; exact finalDim_nonneg plot d hfix hdim a
      · rw [hex]; exact hbadge a
      · intro ha
        subst ha
        rw [hex, e1, e3]
        constructor <;> linarith
      · intro ha
        subst ha
        rw [hex, e2, e3]
        constructor <;> linarith
      · intro ha
        subst ha
        rw [hex, e2, e4]
        constructor <;> linarith
      · intro ha
        subst ha
        rw [e3]
        linarith
    · left
      exact null_isEmpty
  · intro hv
    have hyes : canvasTooSmall (activateStages plot plotRect options d).1
        (provisionalCanvas (activateStages plot plotRect options d).2) = true := by
      cases hc : canvasTooSmall (activateStages plot plotRect options d).1
        (provisionalCanvas (activateStages plot plotRect options d).2)
      · rw [hc] at hv
        exact absurd hv (by decide)
      · rfl
    rw [hsr, if_pos hyes]
    refine ⟨rfl, ?_⟩
    intro he
    rw [if_pos he]
    exact collapsedScaleRect_outside plotRect a


theorem Example.plotAxes_badge (a : Axis) : 0 ≤ badgeOf Example.plotAxes 0 a := by
  cases a <;> with_unfolding_all decide

set_option maxRecDepth 8000 in
/-- Witness for `scaleRect_within`: the plot with four axes in 300 x 500 is laid out
normally and the rectangles of its four axes lie within the bounding rectangle. -/
theorem scaleRect_within_witness :
    scaleVisible (activate Example.plotAxes ⟨0, 0, 300, 500⟩ Example.options
        QwtPlotLayout.new) = true ∧
      ∀ a, ((activate Example.plotAxes ⟨0, 0, 300, 500⟩ Example.options
          QwtPlotLayout.new).scaleRect a).isEmpty = true ∨
        ((activate Example.plotAxes ⟨0, 0, 300, 500⟩ Example.options
          QwtPlotLayout.new).scaleRect a).within ⟨0, 0, 300, 500⟩ :=
  have hv : scaleVisible (activate Example.plotAxes ⟨0, 0, 300, 500⟩ Example.options
      QwtPlotLayout.new) = true := by with_unfolding_all decide
  ⟨hv, fun a => (scaleRect_within Example.plotAxes ⟨0, 0, 300, 500⟩ Example.options
    QwtPlotLayout.new Example.isIntegral_300_500 Example.new_fixedDim Example.plotAxes_dim
    (by with_unfolding_all decide) (by with_unfolding_all decide) Example.plotAxes_badge
    (Or.inl (by with_unfolding_all decide)) (Or.inl (by with_unfolding_all decide)) a).1 hv⟩

/-! ## `invalidate` and the canvas margins -/

theorem ofRect_null_isEmpty : (QRectF.ofRect QRect.null).isEmpty = true := by
  with_unfolding_all decide

/-- C18: `invalidate()` sets `titleRect`, `footerRect`, `legendRect`, `canvasRect` and the
four `scaleRect` to empty rectangles and clears `isDimChanged()`; it leaves the canvas
margins, the align-to-scale flags, the spacing, the legend position, ratio and floating
anchor, the legend drag offsets, the minimal canvas size, `fixedDim`, `hintDim`,
`hintMargin`, `dim` and `margin` of every axis and `scaleVisible()` as they are. -/
theorem invalidate_frame (d : PrivateData) :
    ((invalidate d).titleRect.isEmpty = true ∧ (invalidate d).footerRect.isEmpty = true ∧
      (invalidate d).legendRect.isEmpty = true ∧ (invalidate d).canvasRect.isEmpty = true ∧
      (∀ a, ((invalidate d).scaleRect a).isEmpty = true) ∧
      isDimChanged (invalidate d) = false) ∧
    ((∀ i, canvasMargin (invalidate d) i = canvasMargin d i) ∧
      (invalidate d).alignCanvasToScales = d.alignCanvasToScales ∧
      (invalidate d).spacing = d.spacing ∧
      legendPosition (invalidate d) = legendPosition d ∧
      legendRatio (invalidate d) = legendRatio d ∧
      legendFloatPosition (invalidate d) = legendFloatPosition d ∧
      legendXOffsetRatio (invalidate d) = legendXOffsetRatio d ∧
      legendYOffsetRataio (invalidate d) = legendYOffsetRataio d ∧
      (invalidate d).minCanvasWidth = d.minCanvasWidth ∧
      (invalidate d).minCanvasHeight = d.minCanvasHeight ∧
      (∀ a, fixedDimOfAxis (invalidate d) a = fixedDimOfAxis d a ∧
        hintDimOfAxis (invalidate d) a = hintDimOfAxis d a ∧
        hintMarginOfAxis (invalidate d) a = hintMarginOfAxis d a ∧
        dimOfAxis (invalidate d) a = dimOfAxis d a ∧
        marginOfAxis (invalidate d) a = marginOfAxis d a) ∧
      scaleVisible (invalidate d) = scaleVisible d) :=
  ⟨⟨ofRect_null_isEmpty, ofRect_null_isEmpty, ofRect_null_isEmpty, ofRect_null_isEmpty,
      fun _ => ofRect_null_isEmpty, rfl⟩,
    ⟨fun _ => rfl, rfl, rfl, rfl, rfl, rfl, rfl, rfl, rfl, rfl,
      fun _ => ⟨rfl, rfl, rfl, rfl, rfl⟩, rfl⟩⟩

/-- An `int` stored in an `unsigned int` and read back as `int` is the same `int`. -/
theorem toSigned_toUnsigned (i : ℤ) (h : isInt32 i) : toSigned (toUnsigned i) = i := by
  obtain ⟨h1, h2⟩ := h
  unfold toSigned toUnsigned
  split_ifs with hlt <;> omega

theorem canvasMargin_ofInt (d : PrivateData) (a : Axis) :
    canvasMargin d a.toInt = toSigned (d.canvasMargin a) := by
  cases a <;> rfl

theorem ofInt_toInt (i : ℤ) (h0 : 0 ≤ i) (h3 : i ≤ 3) :
    ∃ a : Axis, a.toInt = i ∧ Axis.ofInt i = some a := by
  interval_cases i
  · exact ⟨Axis.yLeft, rfl, rfl⟩
  · exact ⟨Axis.yRight, rfl, rfl⟩
  · exact ⟨Axis.xBottom, rfl, rfl⟩
  · exact ⟨Axis.xTop, rfl, rfl⟩

theorem ofInt_none (i : ℤ) (h : i < 0 ∨ 3 < i) : Axis.ofInt i = none := by
  unfold Axis.ofInt
  split_ifs <;> first | rfl | omega

theorem toInt_injective (a b : Axis) (h : a.toInt = b.toInt) : a = b := by
  cases a <;> cases b <;> first | rfl | (exfalso; revert h; decide)

/-- C19: for every `int` `m` and every axis index `i` in `0 .. 3`, after
`setCanvasMargin(m, i)` the margin `canvasMargin(i)` is `max(m, -1)` (a negative margin
is stored as `-1`, although the field is an `unsigned int`) and the margins of the other
axes are as before; `setCanvasMargin(m, -1)` sets the margins of all four axes to
`max(m, -1)`; with any other axis index `setCanvasMargin` changes nothing; and
`canvasMargin` of an index outside of `0 .. 3` is `0`. -/
theorem setCanvasMargin_spec (m : ℤ) (d : PrivateData) (hm : isInt32 m) :
    (∀ i, 0 ≤ i → i ≤ 3 →
      canvasMargin (setCanvasMargin m i d) i = max m (-1) ∧
      ∀ j, 0 ≤ j → j ≤ 3 → j ≠ i →
        canvasMargin (setCanvasMargin m i d) j = canvasMargin d j) ∧
    (∀ j, 0 ≤ j → j ≤ 3 → canvasMargin (setCanvasMargin m (-1) d) j = max m (-1)) ∧
    (∀ i, i < -1 ∨ 3 < i → setCanvasMargin m i d = d) ∧
    (∀ i, i < 0 ∨ 3 < i → canvasMargin d i = 0) := by
  have hmax : (if m < -1 then -1 else m) = max m (-1) := by
    split_ifs with h
    · exact (max_eq_right (by omega)).symm
    · exact (max_eq_left (by omega)).symm
  have hr : isInt32 (max m (-1)) := by
    obtain ⟨h1, h2⟩ := hm
    unfold isInt32
    constructor
    · exact le_trans (by norm_num) (le_max_right m (-1))
    · exact max_le h2 (by norm_num)
  refine ⟨?_, ?_, ?_, ?_⟩
  · intro i h0 h3
    obtain ⟨a, rfl, ha⟩ := ofInt_toInt i h0 h3
    have hne : a.toInt ≠ -1 := by omega
    have hset : setCanvasMargin m a.toInt d =
        { d with canvasMargin := setAt d.canvasMargin a (toUnsigned (max m (-1))) } := by
      unfold setCanvasMargin
      dsimp only
      rw [if_neg hne, ha, hmax]
    rw [hset]
    constructor
    · rw [canvasMargin_ofInt]
      dsimp only
      rw [setAt_same, toSigned_toUnsigned _ hr]
    · intro j hj0 hj3 hji
      obtain ⟨b, rfl, -⟩ := ofInt_toInt j hj0 hj3
      have hba : b ≠ a := fun h => hji (by rw [h])
      rw [canvasMargin_ofInt, canvasMargin_ofInt]
      dsimp only
      rw [setAt_other _ _ hba]
  · intro j hj0 hj3
    obtain ⟨b, rfl, -⟩ := ofInt_toInt j hj0 hj3
    have hset : setCanvasMargin m (-1) d =
        { d with canvasMargin := fun _ => toUnsigned (max m (-1)) } := by
      unfold setCanvasMargin
      dsimp only
      rw [if_pos rfl, hmax]
    rw [hset, canvasMargin_ofInt]
    exact toSigned_toUnsigned _ hr
  · intro i hi
    have hne : i ≠ -1 := by omega
    unfold setCanvasMargin
    dsimp only
    rw [if_neg hne, ofInt_none i (by omega)]
  · intro i hi
    unfold canvasMargin
    rw [ofInt_none i hi]

/-- Witness for `setCanvasMargin_spec`: the margin `-7` for the bottom axis is stored
as `-1`. -/
theorem setCanvasMargin_spec_witness :
    canvasMargin (setCanvasMargin (-7) 2 QwtPlotLayout.new) 2 = -1 ∧
      canvasMargin (setCanvasMargin (-7) 2 QwtPlotLayout.new) 0 = 4 :=
  have h := (setCanvasMargin_spec (-7) QwtPlotLayout.new
    ⟨by norm_num, by norm_num⟩).1 2 (by norm_num) (by norm_num)
  ⟨h.1, (h.2 0 (by norm_num) (by norm_num) (by norm_num)).trans (by with_unfolding_all decide)⟩

/-! ## What the loop over the axes records -/

theorem autoScaleDim_congr (plot : QwtPlot) {l l' : Locals}
    (h : l.axisExHeight = l'.axisExHeight) (a : Axis) :
    autoScaleDim plot l a = autoScaleDim plot l' a := by
  unfold autoScaleDim
  rw [h]

theorem activateDim_state (plot : QwtPlot) (s : PrivateData × Locals) (x : Axis) :
    (activateDim plot s x).1 =
      { s.1 with
        dimChanged := (recordDim x (autoScaleDim plot s.2 x) (s.2.axisMargin x) s.1).dimChanged
        layoutData := { s.1.layoutData with
          scale := setAt s.1.layoutData.scale x
            (recordedScale (autoScaleDim plot s.2 x) (s.2.axisMargin x)
              (s.1.layoutData.scale x)) } } := by
  have h : (activateDim plot s x).1 = recordDim x (autoScaleDim plot s.2 x)
    (s.2.axisMargin x) s.1 := rfl
  rw [h, recordDim_eq]

/-- The scale data after the loop over distinct axes: every axis of the loop has its new
`dim` and `margin`, computed from the local variables the loop started with. -/
theorem foldl_activateDim_scale (plot : QwtPlot) (axes : List Axis) (hnd : axes.Nodup)
    (s : PrivateData × Locals) (a : Axis) :
    (axes.foldl (activateDim plot) s).1.layoutData.scale a =
      if a ∈ axes then
        recordedScale (autoScaleDim plot s.2 a) (s.2.axisMargin a) (s.1.layoutData.scale a)
      else s.1.layoutData.scale a := by
  induction axes generalizing s with
  | nil => rfl
  | cons x t ih =>
    obtain ⟨hx, ht⟩ := List.nodup_cons.mp hnd
    simp only [List.foldl_cons]
    rw [ih ht, activateDim_locals, activateDim_state]
    dsimp only
    by_cases hat : a ∈ t
    · have hax : a ≠ x := fun h => hx (h ▸ hat)
      rw [if_pos hat, if_pos (List.mem_cons_of_mem x hat), if_neg hax, setAt_other _ _ hax]
      rfl
    · rw [if_neg hat]
      by_cases hax : a = x
      · subst hax
        rw [if_pos (List.mem_cons_self _ _), setAt_same]
      · rw [setAt_other _ _ hax, if_neg]
        intro hm
        rcases List.mem_cons.mp hm with h | h
        · exact hax h
        · exact hat h

/-- The flag `dimChanged` after the loop over distinct axes. -/
theorem foldl_activateDim_dimChanged (plot : QwtPlot) (axes : List Axis) (hnd : axes.Nodup)
    (s : PrivateData × Locals) :
    (axes.foldl (activateDim plot) s).1.dimChanged = true ↔
      s.1.dimChanged = true ∨ ∃ a ∈ axes,
        (s.1.layoutData.scale a).dimBefore ≠ autoScaleDim plot s.2 a ∨
          (s.1.layoutData.scale a).marginBefore ≠ s.2.axisMargin a := by
  induction axes generalizing s with
  | nil => simp
  | cons x t ih =>
    obtain ⟨hx, ht⟩ := List.nodup_cons.mp hnd
    simp only [List.foldl_cons]
    rw [ih ht]
    have h1 : (activateDim plot s x).1.dimChanged = true ↔
        s.1.dimChanged = true ∨
          ((s.1.layoutData.scale x).dimBefore ≠ autoScaleDim plot s.2 x ∨
            (s.1.layoutData.scale x).marginBefore ≠ s.2.axisMargin x) := by
      rw [activateDim_state]
      dsimp only
      rw [recordDim_dimChanged]
      simp only [Bool.or_eq_true, decide_eq_true_eq]
      tauto
    have h2 : ∀ a ∈ t,
        (((activateDim plot s x).1.layoutData.scale a).dimBefore ≠
            autoScaleDim plot (activateDim plot s x).2 a ∨
          ((activateDim plot s x).1.layoutData.scale a).marginBefore ≠
            (activateDim plot s x).2.axisMargin a) ↔
        ((s.1.layoutData.scale a).dimBefore ≠ autoScaleDim plot s.2 a ∨
          (s.1.layoutData.scale a).marginBefore ≠ s.2.axisMargin a) := by
      intro a hat
      have hax : a ≠ x := fun h => hx (h ▸ hat)
      have e1 : (activateDim plot s x).1.layoutData.scale a = s.1.layoutData.scale a := by
        rw [activateDim_state]
        dsimp only
        rw [setAt_other _ _ hax]
      have e2 : autoScaleDim plot (activateDim plot s x).2 a = autoScaleDim plot s.2 a := by
        apply autoScaleDim_congr
        rw [activateDim_locals]
      have e3 : (activateDim plot s x).2.axisMargin a = s.2.axisMargin a := by
        rw [activateDim_locals]
        dsimp only
        rw [if_neg hax]
      rw [e1, e2, e3]
    rw [h1]
    constructor
    · rintro (h | ⟨a, hat, h⟩)
      · rcases h with h | h
        · exact Or.inl h
        · exact Or.inr ⟨x, List.mem_cons_self _ _, h⟩
      · exact Or.inr ⟨a, List.mem_cons_of_mem x hat, (h2 a hat).mp h⟩
    · rintro (h | ⟨a, ham, h⟩)
      · exact Or.inl (Or.inl h)
      · rcases List.mem_cons.mp ham with hax | hat
        · subst hax
          exact Or.inl (Or.inr h)
        · exact Or.inr ⟨a, hat, (h2 a hat).mpr h⟩

theorem nodup_all : Axis.all.Nodup := by
  decide

theorem mem_all (a : Axis) : a ∈ Axis.all := by
  cases a <;> decide

/-! ## Change detection -/

theorem initScale_recorded (e : Bool) (sw : QwtScaleWidget) (sc : ScaleData) :
    (LayoutData.initScale e sw sc).dim = sc.dim ∧
      (LayoutData.initScale e sw sc).dimBefore = sc.dimBefore ∧
      (LayoutData.initScale e sw sc).margin = sc.margin ∧
      (LayoutData.initScale e sw sc).marginBefore = sc.marginBefore := by
  unfold LayoutData.initScale
  split_ifs <;> exact ⟨rfl, rfl, rfl, rfl⟩

theorem beforeDims_state (plot : QwtPlot) (plotRect : QRectF) (options : Options)
    (d : PrivateData) :
    (beforeDims plot plotRect options d).1.dimChanged = false ∧
      ∀ a, (beforeDims plot plotRect options d).1.layoutData.scale a =
        LayoutData.initScale (plot.axisEnabled a) (plot.axisWidget a)
          (d.layoutData.scale a) := by
  have h : (beforeDims plot plotRect options d).1 =
      (activateLegend plot options (activateTitle options
        (activateStart plot plotRect d))).1 := rfl
  rw [h, activateLegend_state, activateTitle_state]
  exact ⟨rfl, fun _ => rfl⟩

theorem activateFinish_dimChanged (plot : QwtPlot) (plotRect : QRectF)
    (s : PrivateData × Locals) :
    (activateFinish plot plotRect s).dimChanged = s.1.dimChanged := by
  unfold activateFinish
  dsimp only
  split_ifs
  · rw [activateCollapsed_eq]
  · rw [activateNormal_eq]

theorem activate_eq_dims (plot : QwtPlot) (plotRect : QRectF) (options : Options)
    (d : PrivateData) :
    activate plot plotRect options d =
      activateFinish plot plotRect (activateFooter
        (activateDims plot (beforeDims plot plotRect options d))) := rfl

/-- The scale data of an axis after `activate`: the new `dim` and `margin`, recorded from
the local variables the loop over the axes started with. -/
theorem activate_scale (plot : QwtPlot) (plotRect : QRectF) (options : Options)
    (d : PrivateData) (a : Axis) :
    (activate plot plotRect options d).layoutData.scale a =
      recordedScale (autoScaleDim plot (beforeDims plot plotRect options d).2 a)
        ((beforeDims plot plotRect options d).2.axisMargin a)
        (LayoutData.initScale (plot.axisEnabled a) (plot.axisWidget a)
          (d.layoutData.scale a)) := by
  rw [activate_eq_dims, activateFinish_layoutData, activateFooter_state]
  unfold activateDims
  dsimp only
  rw [foldl_activateDim_scale plot Axis.all nodup_all, if_pos (mem_all a),
    (beforeDims_state plot plotRect options d).2 a]

/-- The flag `isDimChanged()` after `activate`. -/
theorem activate_dimChanged (plot : QwtPlot) (plotRect : QRectF) (options : Options)
    (d : PrivateData) :
    isDimChanged (activate plot plotRect options d) = true ↔
      ∃ a, (d.layoutData.scale a).dimBefore ≠
            autoScaleDim plot (beforeDims plot plotRect options d).2 a ∨
          (d.layoutData.scale a).marginBefore ≠
            (beforeDims plot plotRect options d).2.axisMargin a := by
  obtain ⟨h0, hsc⟩ := beforeDims_state plot plotRect options d
  unfold isDimChanged
  rw [activate_eq_dims, activateFinish_dimChanged, activateFooter_state]
  unfold activateDims
  dsimp only
  rw [foldl_activateDim_dimChanged plot Axis.all nodup_all, h0]
  constructor
  · rintro (h | ⟨a, -, h⟩)
    · exact absurd h (by decide)
    · rw [hsc a, (initScale_recorded _ _ _).2.1, (initScale_recorded _ _ _).2.2.2] at h
      exact ⟨a, h⟩
  · rintro ⟨a, h⟩
    refine Or.inr ⟨a, mem_all a, ?_⟩
    rw [hsc a, (initScale_recorded _ _ _).2.1, (initScale_recorded _ _ _).2.2.2]
    exact h

/-- The local variables at the loop over the axes are the same in a second layout pass
with the same plot, rectangle and options. -/
theorem beforeDims_again (plot : QwtPlot) (plotRect : QRectF) (options : Options)
    (d : PrivateData) :
    (beforeDims plot plotRect options (activate plot plotRect options d)).2 =
      (beforeDims plot plotRect options d).2 := by
  have hs := sameSettings_activate plot plotRect options d
  obtain ⟨hL, -⟩ := legendStage_again plot plotRect options d
  have c0 : core (activateStart plot plotRect (activate plot plotRect options d)).1 =
      core (activateStart plot plotRect d).1 :=
    (core_activateStart rfl rfl rfl rfl rfl hs plotRect).symm
  obtain ⟨hT, -⟩ := coreStable_activateTitle options _ _ c0 rfl
  have hc : core (activateLegend plot options (activateTitle options
        (activateStart plot plotRect (activate plot plotRect options d)))).1 =
      core (activateLegend plot options (activateTitle options
        (activateStart plot plotRect d))).1 := by
    rw [core_activateLegend, core_activateLegend]
    exact hT
  exact (coreStable_activateExpand plot options _ _ hc hL).2

/-- C17: after every `activate` (normal or collapsed layout alike), for each axis the
recorded `dimBefore` is `dim` and `marginBefore` is `margin`; `isDimChanged()` is true
after the call exactly when for some axis the newly computed `dim` or `margin` differs
from the `dimBefore` or `marginBefore` recorded before the call; and an `activate`
repeated at once with the same plot, rectangle and options reports
`isDimChanged() == false`. -/
theorem change_detection (plot : QwtPlot) (plotRect : QRectF) (options : Options)
    (d : PrivateData) :
    (∀ a, ((activate plot plotRect options d).layoutData.scale a).dimBefore =
          dimOfAxis (activate plot plotRect options d) a ∧
        ((activate plot plotRect options d).layoutData.scale a).marginBefore =
          marginOfAxis (activate plot plotRect options d) a) ∧
    (isDimChanged (activate plot plotRect options d) = true ↔
      ∃ a, dimOfAxis (activate plot plotRect options d) a ≠
            (d.layoutData.scale a).dimBefore ∨
          marginOfAxis (activate plot plotRect options d) a ≠
            (d.layoutData.scale a).marginBefore) ∧
    isDimChanged (activate plot plotRect options (activate plot plotRect options d)) =
      false := by
  have hdim : ∀ a, dimOfAxis (activate plot plotRect options d) a =
      autoScaleDim plot (beforeDims plot plotRect options d).2 a := by
    intro a
    unfold dimOfAxis
    rw [activate_scale]
    rfl
  have hmar : ∀ a, marginOfAxis (activate plot plotRect options d) a =
      (beforeDims plot plotRect options d).2.axisMargin a := by
    intro a
    unfold marginOfAxis
    rw [activate_scale]
    rfl
  have hdb : ∀ a, ((activate plot plotRect options d).layoutData.scale a).dimBefore =
      autoScaleDim plot (beforeDims plot plotRect options d).2 a := by
    intro a
    rw [activate_scale]
    rfl
  have hmb : ∀ a, ((activate plot plotRect options d).layoutData.scale a).marginBefore =
      (beforeDims plot plotRect options d).2.axisMargin a := by
    intro a
    rw [activate_scale]
    rfl
  refine ⟨fun a => ⟨by rw [hdb, hdim], by rw [hmb, hmar]⟩, ?_, ?_⟩
  · rw [activate_dimChanged]
    constructor
    · rintro ⟨a, h⟩
      refine ⟨a, ?_⟩
      rw [hdim, hmar]
      rcases h with h | h
      · exact Or.inl (Ne.symm h)
      · exact Or.inr (Ne.symm h)
    · rintro ⟨a, h⟩
      refine ⟨a, ?_⟩
      rw [hdim, hmar] at h
      rcases h with h | h
      · exact Or.inl (Ne.symm h)
      · exact Or.inr (Ne.symm h)
  · rw [← Bool.not_eq_true, activate_dimChanged]
    rintro ⟨a, h⟩
    rw [beforeDims_again, hdb, hmb] at h
    rcases h with h | h <;> exact h rfl

/-! ## Thickness and position of the scale rectangles -/

theorem collapsedScaleRect_eq (c : QRectF) (a : Axis) :
    collapsedScaleRect c a = flushBand c a 1 0 := by
  cases a <;>
    simp [collapsedScaleRect, flushBand, QRectF.setX, QRectF.setY, QRectF.setLeft,
      QRectF.setTop, QRectF.setWidth, QRectF.setHeight, QRectF.right, QRectF.left, QRectF.top,
      QRectF.bottom, QRectF.width, QRectF.height] <;>
    ring

/-- The thickness of the rectangle of an axis in the normal layout is the absolute value
of the dimension of the axis (`normalized()` turns a negative width or height round). -/
theorem normalScaleRect_thickness (c : QRectF) (a : Axis) (dim ex : ℤ) :
    scaleThickness a (normalScaleRect c a dim ex) = |(dim : ℚ)| := by
  unfold scaleThickness normalScaleRect QRectF.normalized
  cases a <;>
    simp only [QRectF.setX, QRectF.setY, QRectF.setLeft, QRectF.setTop, QRectF.setWidth,
      QRectF.setHeight, QRectF.width, QRectF.height] <;>
    split_ifs <;>
    first
      | rw [abs_of_neg (by assumption)]
      | rw [abs_of_nonneg (le_of_not_lt (by assumption))]

/-- In the normal layout the rectangle of an axis is the band flush against the canvas,
when no size is negative. -/
theorem normalScaleRect_eq (c : QRectF) (a : Axis) (dim ex : ℤ)
    (hw : 0 ≤ c.width) (hh : 0 ≤ c.height) (hdim : 0 ≤ dim) (hex : 0 ≤ ex) :
    normalScaleRect c a dim ex = flushBand c a (dim : ℚ) (ex : ℚ) := by
  have hd : (0 : ℚ) ≤ (dim : ℚ) := by exact_mod_cast hdim
  have he : (0 : ℚ) ≤ (ex : ℚ) := by exact_mod_cast hex
  unfold normalScaleRect QRectF.normalized flushBand
  simp only [QRectF.left, QRectF.right, QRectF.top, QRectF.bottom, QRectF.width, QRectF.height,
    QRectF.setX, QRectF.setY, QRectF.setLeft, QRectF.setTop, QRectF.setWidth, QRectF.setHeight,
    QRectF.x, QRectF.y] at *
  cases a <;> dsimp only <;> split_ifs <;>
    first
      | (exfalso; dsimp only at *; linarith)
      | (simp only [QRectF.mk.injEq]; refine ⟨?_, ?_, ?_, ?_⟩ <;> first | trivial | ring)

/-- The canvas rectangle after `activate`. -/
theorem activate_canvasRect (plot : QwtPlot) (plotRect : QRectF) (options : Options)
    (d : PrivateData) :
    (activate plot plotRect options d).canvasRect =
      if canvasTooSmall (activateStages plot plotRect options d).1
          (provisionalCanvas (activateStages plot plotRect options d).2) then plotRect
      else provisionalCanvas (activateStages plot plotRect options d).2 := by
  have hts : canvasTooSmall (activateStages plot plotRect options d).1
      (provisionalCanvas (activateStages plot plotRect options d).2) =
      canvasTooSmall { (activateStages plot plotRect options d).1 with
          canvasRect := provisionalCanvas (activateStages plot plotRect options d).2 }
        (provisionalCanvas (activateStages plot plotRect options d).2) := rfl
  rw [hts]
  unfold activate activateFinish
  dsimp only
  split_ifs with h
  · rw [activateCollapsed_eq]
  · rw [activateNormal_eq]

/-- An axis with a fixed dimension is laid out with that dimension. -/
theorem finalDim_fixed (plot : QwtPlot) (d : PrivateData) (a : Axis)
    (hf : fixedDimOfAxis d a ≠ 0) : finalDim plot d a = fixedDimOfAxis d a := by
  have hr : resolvedDim plot d a = fixedDimOfAxis d a := by
    unfold resolvedDim
    split_ifs <;> rfl
  unfold finalDim hintedDim
  rw [if_neg hf]
  unfold coupledDim
  unfold fixedDimOfAxis at hf hr ⊢
  cases a <;> simp only [setAt, reduceCtorEq, if_false, if_true, hf, ne_eq, not_false_eq_true,
    hr]

/-- An axis without fixed dimension whose own need is within its hint is laid out with
the hint, if it is not the top or the right axis, which the index badges widen. -/
theorem finalDim_hinted (plot : QwtPlot) (d : PrivateData)
    (hf : fixedDimOfAxis d Axis.yLeft = 0)
    (hle : resolvedDim plot d Axis.yLeft ≤ hintDimOfAxis d Axis.yLeft) :
    finalDim plot d Axis.yLeft = hintDimOfAxis d Axis.yLeft := by
  unfold finalDim hintedDim
  rw [if_pos hf]
  have hc : coupledDim d (resolvedDim plot d) (badgeOf plot 0) Axis.yLeft =
      resolvedDim plot d Axis.yLeft := by
    unfold coupledDim
    simp only [setAt, reduceCtorEq, if_false]
  rw [hc]
  exact max_eq_right hle


set_option maxRecDepth 8000 in
/-- C16 fails as stated.  With the fixed dimension -35 for the left axis, which has a
title, the plot with four axes is laid out in 300 x 500 without a collapse; the dimension
resolved for the left axis is -35, but its rectangle, which is normalised, is 35 wide:
the thickness of the rectangle is not `fixedDim`. -/
theorem fixedDim_exact_counterexample :
    fixedDimOfAxis Example.fixedLeftNegative Axis.yLeft = -35 ∧
    scaleVisible (activate Example.plotTitledLeft ⟨0, 0, 300, 500⟩ Example.options
        Example.fixedLeftNegative) = true ∧
    (activateStages Example.plotTitledLeft ⟨0, 0, 300, 500⟩ Example.options
        Example.fixedLeftNegative).2.dimAxes Axis.yLeft = -35 ∧
    scaleThickness Axis.yLeft ((activate Example.plotTitledLeft ⟨0, 0, 300, 500⟩
        Example.options Example.fixedLeftNegative).scaleRect Axis.yLeft) = 35 ∧
    scaleThickness Axis.yLeft ((activate Example.plotTitledLeft ⟨0, 0, 300, 500⟩
        Example.options Example.fixedLeftNegative).scaleRect Axis.yLeft) ≠
      (fixedDimOfAxis Example.fixedLeftNegative Axis.yLeft : ℚ) := by
  refine ⟨by with_unfolding_all decide, by with_unfolding_all decide,
    by with_unfolding_all decide, by with_unfolding_all decide,
    by with_unfolding_all decide⟩

/-- C16 (amended): for every axis with `fixedDim != 0`, the dimension that
`LayoutData::init` and `expandLineBreaks` resolve for it (`dimWithoutTitle` plus the
strip of its title) is `fixedDim`, and so is the dimension `activate` lays it out with,
whatever the title of the axis, its `hintDim` and the index badges of the other axes; in
a layout that is not collapsed the rectangle of the axis has the thickness `|fixedDim|`,
that is `fixedDim` when it is positive and `-fixedDim` when it is negative: the rectangle
is normalised. -/
theorem fixedDim_exact (plot : QwtPlot) (plotRect : QRectF) (options : Options)
    (d : PrivateData) (a : Axis) (hf : fixedDimOfAxis d a ≠ 0) :
    (expandLineBreaks plot options (beforeExpand plot plotRect options d).2.rect
        (beforeExpand plot plotRect options d).1).dimAxis a = fixedDimOfAxis d a ∧
      (activateStages plot plotRect options d).2.dimAxes a = fixedDimOfAxis d a ∧
      (scaleVisible (activate plot plotRect options d) = true →
        scaleThickness a ((activate plot plotRect options d).scaleRect a) =
          |(fixedDimOfAxis d a : ℚ)|) := by
  have hfin := finalDim_fixed plot d a hf
  have hda := (stages_dimAxes plot plotRect options d).1
  refine ⟨?_, ?_, ?_⟩
  · rw [expandLineBreaks_dimAxis]
    unfold beforeExpand
    rw [expandAxisDim_stages]
    unfold resolvedDim
    split_ifs <;> rfl
  · rw [hda, hfin]
  · intro hv
    obtain ⟨hsr, hvis⟩ := activate_scaleRect plot plotRect options d a
    rw [hvis] at hv
    have hno : ¬ canvasTooSmall (activateStages plot plotRect options d).1
        (provisionalCanvas (activateStages plot plotRect options d).2) = true := by
      intro hc
      rw [hc] at hv
      exact absurd hv (by decide)
    rw [hsr, if_neg hno, hda, hfin, if_pos hf, normalScaleRect_thickness]

set_option maxRecDepth 8000 in
/-- Witness for `fixedDim_exact`: the left axis with a title and the fixed dimension 35
is 35 wide. -/
theorem fixedDim_exact_witness :
    (activateStages Example.plotTitledLeft ⟨0, 0, 300, 500⟩ Example.options
        Example.fixedLeft).2.dimAxes Axis.yLeft = 35 ∧
      scaleThickness Axis.yLeft ((activate Example.plotTitledLeft ⟨0, 0, 300, 500⟩
        Example.options Example.fixedLeft).scaleRect Axis.yLeft) = 35 :=
  have h := fixedDim_exact Example.plotTitledLeft ⟨0, 0, 300, 500⟩ Example.options
    Example.fixedLeft Axis.yLeft (by with_unfolding_all decide)
  ⟨h.2.1, (h.2.2 (by with_unfolding_all decide)).trans (by with_unfolding_all decide)⟩

set_option maxRecDepth 8000 in
/-- C15 fails as stated.  Two layouts with the same hinted dimension 50 for the left
axis, no fixed dimension, and the same plot, whose left axis needs 20: in the bounding
rectangle 300 x 500 the rectangle of the left axis is 50 wide, in the bounding rectangle
30 x 500 the layout collapses and it is 1 wide. -/
theorem hinted_width_counterexample :
    hintDimOfAxis Example.hintedLeft Axis.yLeft = 50 ∧
    fixedDimOfAxis Example.hintedLeft Axis.yLeft = 0 ∧
    resolvedDim Example.plotAxes Example.hintedLeft Axis.yLeft = 20 ∧
    ((activate Example.plotAxes ⟨0, 0, 300, 500⟩ Example.options
      Example.hintedLeft).scaleRect Axis.yLeft).width = 50 ∧
    ((activate Example.plotAxes ⟨0, 0, 30, 500⟩ Example.options
      Example.hintedLeft).scaleRect Axis.yLeft).width = 1 := by
  refine ⟨?_, ?_, ?_, ?_, ?_⟩ <;> with_unfolding_all decide

/-- C15 (amended): for any two layouts with the same hinted dimension `H` for the left
axis, no fixed dimension on it, and each with a left axis whose own need (the thickness
of the scale plus the strip of its title, whatever the title) is at most `H`, `activate`
gives both, when neither layout is collapsed, the same width of the rectangle of the
left axis, namely `H`; the title of the axis does not influence that width. -/
theorem hinted_width (plot1 plot2 : QwtPlot) (rect1 rect2 : QRectF) (o1 o2 : Options)
    (d1 d2 : PrivateData) (H : ℤ) (hH : 0 ≤ H)
    (h1 : hintDimOfAxis d1 Axis.yLeft = H) (h2 : hintDimOfAxis d2 Axis.yLeft = H)
    (f1 : fixedDimOfAxis d1 Axis.yLeft = 0) (f2 : fixedDimOfAxis d2 Axis.yLeft = 0)
    (n1 : resolvedDim plot1 d1 Axis.yLeft ≤ H) (n2 : resolvedDim plot2 d2 Axis.yLeft ≤ H)
    (v1 : scaleVisible (activate plot1 rect1 o1 d1) = true)
    (v2 : scaleVisible (activate plot2 rect2 o2 d2) = true) :
    ((activate plot1 rect1 o1 d1).scaleRect Axis.yLeft).width = H ∧
      ((activate plot2 rect2 o2 d2).scaleRect Axis.yLeft).width = H ∧
      ((activate plot1 rect1 o1 d1).scaleRect Axis.yLeft).width =
        ((activate plot2 rect2 o2 d2).scaleRect Axis.yLeft).width := by
  have key : ∀ (plot : QwtPlot) (r : QRectF) (o : Options) (d : PrivateData),
      hintDimOfAxis d Axis.yLeft = H → fixedDimOfAxis d Axis.yLeft = 0 →
      resolvedDim plot d Axis.yLeft ≤ H → scaleVisible (activate plot r o d) = true →
      ((activate plot r o d).scaleRect Axis.yLeft).width = H := by
    intro plot r o d hh hf hn hv
    obtain ⟨hsr, hvis⟩ := activate_scaleRect plot r o d Axis.yLeft
    rw [hvis] at hv
    have hno : ¬ canvasTooSmall (activateStages plot r o d).1
        (provisionalCanvas (activateStages plot r o d).2) = true := by
      intro hc
      rw [hc] at hv
      exact absurd hv (by decide)
    have hfin : finalDim plot d Axis.yLeft = H := by
      rw [finalDim_hinted plot d hf (by rw [hh]; exact hn), hh]
    rw [hsr, if_neg hno, (stages_dimAxes plot r o d).1, hfin]
    have hq : (0 : ℚ) ≤ (H : ℚ) := by exact_mod_cast hH
    split_ifs with hz
    · have ht := normalScaleRect_thickness
        (provisionalCanvas (activateStages plot r o d).2) Axis.yLeft H
        ((activateStages plot r o d).2.axisExHeight Axis.yLeft)
      rw [abs_of_nonneg hq] at ht
      exact ht
    · have h0 : H = 0 := not_not.mp hz
      rw [h0]
      rfl
  have e1 := key plot1 rect1 o1 d1 h1 f1 n1 v1
  have e2 := key plot2 rect2 o2 d2 h2 f2 n2 v2
  exact ⟨e1, e2, e1.trans e2.symm⟩

set_option maxRecDepth 8000 in
/-- Witness for `hinted_width`: the plot whose left axis has no title and needs 20, and
the plot whose left axis has a title and needs 32, both with the hinted dimension 50, in
300 x 500: the rectangle of the left axis is 50 wide in both. -/
theorem hinted_width_witness :
    ((activate Example.plotAxes ⟨0, 0, 300, 500⟩ Example.options
        Example.hintedLeft).scaleRect Axis.yLeft).width = 50 ∧
      ((activate Example.plotTitledLeft ⟨0, 0, 300, 500⟩ Example.options
        Example.hintedLeft).scaleRect Axis.yLeft).width = 50 :=
  have h := hinted_width Example.plotAxes Example.plotTitledLeft ⟨0, 0, 300, 500⟩
    ⟨0, 0, 300, 500⟩ Example.options Example.options Example.hintedLeft Example.hintedLeft
    50 (by decide) (by with_unfolding_all decide) (by with_unfolding_all decide)
    (by with_unfolding_all decide) (by with_unfolding_all decide)
    (by with_unfolding_all decide) (by with_unfolding_all decide)
    (by with_unfolding_all decide) (by with_unfolding_all decide)
  ⟨h.1, h.2.1⟩

/-! ## The offsets of the legend -/

theorem activateFinish_titleRect (plot : QwtPlot) (plotRect : QRectF)
    (s : PrivateData × Locals) :
    (activateFinish plot plotRect s).titleRect = s.1.titleRect ∧
      (activateFinish plot plotRect s).footerRect = s.1.footerRect := by
  unfold activateFinish
  dsimp only
  split_ifs
  · rw [activateCollapsed_eq]
    exact ⟨rfl, rfl⟩
  · rw [activateNormal_eq]
    exact ⟨rfl, rfl⟩

/-- The title rectangle after `activate` is the one the title step has set. -/
theorem activate_titleRect (plot : QwtPlot) (plotRect : QRectF) (options : Options)
    (d : PrivateData) :
    (activate plot plotRect options d).titleRect =
      (activateTitle options (activateStart plot plotRect d)).1.titleRect := by
  unfold activate
  rw [(activateFinish_titleRect plot plotRect _).1]
  unfold activateStages
  rw [activateFooter_state, activateDims_state]
  show (activateLegend plot options
    (activateTitle options (activateStart plot plotRect d))).1.titleRect = _
  rw [activateLegend_state]

/-- The title rectangle is as wide as the bounding rectangle. -/
theorem titleRect_isEmpty (plot : QwtPlot) (plotRect : QRectF) (options : Options)
    (d : PrivateData) (hw : plotRect.width ≤ 0) :
    (activateTitle options (activateStart plot plotRect d)).1.titleRect.isEmpty = true := by
  unfold activateTitle
  dsimp only
  have h : (activateStart plot plotRect d).2.rect.width ≤ 0 := hw
  split_ifs
  all_goals first
    | exact ofRect_null_isEmpty
    | (unfold QRectF.isEmpty
       simp only [Bool.or_eq_true, decide_eq_true_eq]
       left
       exact h)

/-- The legend step of `activate` leaves a working rectangle without width without
width. -/
theorem legend_width (plot : QwtPlot) (options : Options) (s : PrivateData × Locals)
    (hint : s.2.rect.isIntegral) (hw : s.2.rect.width ≤ 0) :
    (activateLegend plot options s).2.rect.width ≤ 0 := by
  have hsp : (0 : ℚ) ≤ ((s.1.spacing : ℕ) : ℚ) := Nat.cast_nonneg _
  have hspc := (sameSettings_layoutLegend options s.2.rect s.1).spacing
  have hpos := (sameSettings_layoutLegend options s.2.rect s.1).legendPos
  unfold activateLegend
  by_cases hs : legendShown plot options s.1 = true
  swap
  · rw [if_neg hs]
    exact hw
  rw [if_pos hs]
  unfold legendLocals
  dsimp only
  rw [← hpos, ← hspc]
  have hsub : subtractedBoundingRect s.2.rect.toRect
      (layoutLegend options s.2.rect s.1).1.toRect = QRect.null := by
    obtain ⟨a, b, c, e, hr⟩ := hint
    rw [hr] at hw ⊢
    rw [QRectF.toRect_intCast]
    have hc : c ≤ 0 := by
      have h1 : (c : ℚ) ≤ 0 := hw
      exact_mod_cast h1
    unfold subtractedBoundingRect
    rw [if_pos]
    unfold QRect.isEmpty
    simp only [Bool.or_eq_true, decide_eq_true_eq]
    left
    omega
  rw [hsub, QRectF.ofRect_null]
  cases hp : s.1.legendPos <;>
    simp only [ne_eq, reduceCtorEq, not_false_eq_true, not_true_eq_false, if_true, if_false,
      QRectF.width, QRectF.setLeft, QRectF.setRight, QRectF.setTop, QRectF.setBottom,
      QRectF.left, QRectF.right, QRectF.top, QRectF.bottom] <;>
    first
    | exact hw
    | linarith

/-- The footer rectangle after `activate` is the one the footer step has set. -/
theorem activate_footerRect (plot : QwtPlot) (plotRect : QRectF) (options : Options)
    (d : PrivateData) :
    (activate plot plotRect options d).footerRect =
      (activateFooter (activateDims plot (beforeDims plot plotRect options d))).1.footerRect := by
  unfold activate
  rw [(activateFinish_titleRect plot plotRect _).2]
  rfl

/-- The footer rectangle is not wider than the working rectangle after the legend. -/
theorem footerRect_isEmpty (plot : QwtPlot) (plotRect : QRectF) (options : Options)
    (d : PrivateData) (hint : plotRect.isIntegral)
    (hfix : ∀ a, 0 ≤ fixedDimOfAxis d a)
    (hdim : ∀ a, plot.axisEnabled a = true →
      0 ≤ (plot.axisWidget a).dimForLength QWIDGETSIZE_MAX)
    (hw : plotRect.width ≤ 0) :
    (activate plot plotRect options d).footerRect.isEmpty = true := by
  rw [activate_footerRect]
  have hda : (activateDims plot (beforeDims plot plotRect options d)).2.dimAxes =
      finalDim plot d := by
    rw [← (stages_dimAxes plot plotRect options d).1]
    exact (activateFooter_dimAxes _).1.symm
  have hL : (0 : ℚ) ≤ ((activateDims plot (beforeDims plot plotRect options d)).2.dimAxes
      Axis.yLeft : ℚ) := by
    rw [hda]
    exact_mod_cast finalDim_nonneg plot d hfix hdim Axis.yLeft
  have hR : (0 : ℚ) ≤ ((activateDims plot (beforeDims plot plotRect options d)).2.dimAxes
      Axis.yRight : ℚ) := by
    rw [hda]
    exact_mod_cast finalDim_nonneg plot d hfix hdim Axis.yRight
  have hrect : (activateDims plot (beforeDims plot plotRect options d)).2.rect.width ≤ 0 := by
    rw [activateDims_locals]
    show (activateLegend plot options
      (activateTitle options (activateStart plot plotRect d))).2.rect.width ≤ 0
    apply legend_width
    · exact (activateTitle_pre options plot plotRect d hint).1
    · unfold activateTitle
      dsimp only
      split_ifs <;> exact hw
  have hold : (activateDims plot (beforeDims plot plotRect options d)).1.footerRect.isEmpty =
      true := by
    rw [activateDims_state]
    show (activateLegend plot options
      (activateTitle options (activateStart plot plotRect d))).1.footerRect.isEmpty = true
    rw [activateLegend_state, activateTitle_state]
    exact ofRect_null_isEmpty
  generalize activateDims plot (beforeDims plot plotRect options d) = X at hL hR hrect hold ⊢
  unfold activateFooter
  dsimp only
  split_ifs with h1 h2
  · unfold QRectF.isEmpty
    simp only [Bool.or_eq_true, decide_eq_true_eq, QRectF.setWidth, QRectF.setX,
      QRectF.setLeft, QRectF.setBottom, QRectF.width] at hrect ⊢
    left
    linarith
  · unfold QRectF.isEmpty
    simp only [Bool.or_eq_true, decide_eq_true_eq, QRectF.width] at hrect ⊢
    left
    exact hrect
  · exact hold


/-- A bounding rectangle without width or without height leads to the collapsed
layout. -/
theorem degenerate_tooSmall (plot : QwtPlot) (plotRect : QRectF) (options : Options)
    (d : PrivateData) (hint : plotRect.isIntegral)
    (hfix : ∀ a, 0 ≤ fixedDimOfAxis d a)
    (hdim : ∀ a, plot.axisEnabled a = true →
      0 ≤ (plot.axisWidget a).dimForLength QWIDGETSIZE_MAX)
    (hminW : 0 < d.minCanvasWidth) (hminH : 0 < d.minCanvasHeight)
    (hdeg : plotRect.width ≤ 0 ∨ plotRect.height ≤ 0) :
    canvasTooSmall (activateStages plot plotRect options d).1
      (provisionalCanvas (activateStages plot plotRect options d).2) = true := by
  have hts : canvasTooSmall (activateStages plot plotRect options d).1
      (provisionalCanvas (activateStages plot plotRect options d).2) =
      canvasTooSmall { (activateStages plot plotRect options d).1 with
          canvasRect := provisionalCanvas (activateStages plot plotRect options d).2 }
        (provisionalCanvas (activateStages plot plotRect options d).2) := rfl
  rw [hts, activate_tooSmall]
  have hmw : (0 : ℚ) < (d.minCanvasWidth : ℚ) := by exact_mod_cast hminW
  have hmh : (0 : ℚ) < (d.minCanvasHeight : ℚ) := by exact_mod_cast hminH
  rcases provisionalCanvas_within plot plotRect options d hint hfix hdim with hw | hw
  · rcases hdeg with h | h
    · right; linarith [hw.2.1]
    · left; linarith [hw.2.2]
  · right; linarith

set_option maxRecDepth 8000 in
/-- C14 fails as stated.  The bounding rectangle (0, 0, 100, 0) has no height.  For the
plot with a title 25 high, `activate` sets the title rectangle (0, 0, 100, 25); for the
plot with the four axes the layout collapses and the rectangle of the bottom axis is
(0, 0, 100, 1).  Neither is empty. -/
theorem degenerate_rect_counterexample :
    (⟨0, 0, 100, 0⟩ : QRectF).height ≤ 0 ∧
    (activate Example.plotTitled ⟨0, 0, 100, 0⟩ Example.options
        QwtPlotLayout.new).titleRect = ⟨0, 0, 100, 25⟩ ∧
    (activate Example.plotTitled ⟨0, 0, 100, 0⟩ Example.options
        QwtPlotLayout.new).titleRect.isEmpty = false ∧
    (activate Example.plotAxes ⟨0, 0, 100, 0⟩ Example.options
        QwtPlotLayout.new).scaleRect Axis.xBottom = ⟨0, 0, 100, 1⟩ ∧
    ((activate Example.plotAxes ⟨0, 0, 100, 0⟩ Example.options
        QwtPlotLayout.new).scaleRect Axis.xBottom).isEmpty = false := by
  refine ⟨?_, ?_, ?_, ?_, ?_⟩ <;> with_unfolding_all decide

/-- C14 (amended): for a bounding rectangle with integer coordinates, axis dimensions
that are not negative and a minimal canvas size above zero: when the bounding rectangle
has width <= 0 and height <= 0 (null, zero-size or negative), then for every combination
of title, footer, legend and enabled axes `activate` leaves `titleRect`, `footerRect`,
`legendRect`, all four `scaleRect` and `canvasRect` empty.  When only one of the two
holds, `canvasRect`, `legendRect` and the rectangles of the disabled axes are empty; with
width <= 0 so are `titleRect`, `footerRect` and the rectangles of the x axes; with
height <= 0 so are the rectangles of the y axes. -/
theorem degenerate_rect (plot : QwtPlot) (plotRect : QRectF) (options : Options)
    (d : PrivateData) (hint : plotRect.isIntegral)
    (hfix : ∀ a, 0 ≤ fixedDimOfAxis d a)
    (hdim : ∀ a, plot.axisEnabled a = true →
      0 ≤ (plot.axisWidget a).dimForLength QWIDGETSIZE_MAX)
    (hminW : 0 < d.minCanvasWidth) (hminH : 0 < d.minCanvasHeight)
    (hdeg : plotRect.width ≤ 0 ∨ plotRect.height ≤ 0) :
    (plotRect.width ≤ 0 → plotRect.height ≤ 0 →
      (activate plot plotRect options d).titleRect.isEmpty = true ∧
        (activate plot plotRect options d).footerRect.isEmpty = true ∧
        (activate plot plotRect options d).legendRect.isEmpty = true ∧
        (∀ a, ((activate plot plotRect options d).scaleRect a).isEmpty = true) ∧
        (activate plot plotRect options d).canvasRect.isEmpty = true) ∧
    (activate plot plotRect options d).canvasRect.isEmpty = true ∧
    (activate plot plotRect options d).legendRect.isEmpty = true ∧
    (∀ a, plot.axisEnabled a = false →
      ((activate plot plotRect options d).scaleRect a).isEmpty = true) ∧
    (plotRect.width ≤ 0 →
      (activate plot plotRect options d).titleRect.isEmpty = true ∧
        (activate plot plotRect options d).footerRect.isEmpty = true ∧
        ((activate plot plotRect options d).scaleRect Axis.xBottom).isEmpty = true ∧
        ((activate plot plotRect options d).scaleRect Axis.xTop).isEmpty = true) ∧
    (plotRect.height ≤ 0 →
      ((activate plot plotRect options d).scaleRect Axis.yLeft).isEmpty = true ∧
        ((activate plot plotRect options d).scaleRect Axis.yRight).isEmpty = true) := by
  have hsm := degenerate_tooSmall plot plotRect options d hint hfix hdim hminW hminH hdeg
  have hcanvas : (activate plot plotRect options d).canvasRect.isEmpty = true := by
    rw [activate_canvasRect, if_pos hsm]
    unfold QRectF.isEmpty
    simp only [Bool.or_eq_true, decide_eq_true_eq]
    exact hdeg
  have hlegend : (activate plot plotRect options d).legendRect.isEmpty = true := by
    unfold activate
    rw [activateFinish_legendRect, if_pos hsm]
    exact null_isEmpty
  have hscale : ∀ a, (activate plot plotRect options d).scaleRect a =
      if plot.axisEnabled a then collapsedScaleRect plotRect a else QRectF.null := by
    intro a
    rw [(activate_scaleRect plot plotRect options d a).1, if_pos hsm]
  have hx : plotRect.width ≤ 0 → ∀ a, a = Axis.xBottom ∨ a = Axis.xTop →
      ((activate plot plotRect options d).scaleRect a).isEmpty = true := by
    intro hw a ha
    rw [hscale a]
    split_ifs
    · rw [collapsedScaleRect_eq]
      unfold QRectF.isEmpty
      simp only [Bool.or_eq_true, decide_eq_true_eq]
      left
      rcases ha with h | h <;> rw [h] <;> simp only [flushBand, QRectF.width] at hw ⊢ <;>
        linarith [hw]
    · exact null_isEmpty
  have hy : plotRect.height ≤ 0 → ∀ a, a = Axis.yLeft ∨ a = Axis.yRight →
      ((activate plot plotRect options d).scaleRect a).isEmpty = true := by
    intro hh a ha
    rw [hscale a]
    split_ifs
    · rw [collapsedScaleRect_eq]
      unfold QRectF.isEmpty
      simp only [Bool.or_eq_true, decide_eq_true_eq]
      right
      rcases ha with h | h <;> rw [h] <;> simp only [flushBand, QRectF.height] at hh ⊢ <;>
        linarith [hh]
    · exact null_isEmpty
  have htitle : plotRect.width ≤ 0 →
      (activate plot plotRect options d).titleRect.isEmpty = true := by
    intro hw
    rw [activate_titleRect]
    exact titleRect_isEmpty plot plotRect options d hw
  have hfooter : plotRect.width ≤ 0 →
      (activate plot plotRect options d).footerRect.isEmpty = true :=
    footerRect_isEmpty plot plotRect options d hint hfix hdim
  refine ⟨?_, hcanvas, hlegend, ?_, ?_, ?_⟩
  · intro hw hh
    refine ⟨htitle hw, hfooter hw, hlegend, ?_, hcanvas⟩
    intro a
    cases a
    · exact hy hh _ (Or.inl rfl)
    · exact hy hh _ (Or.inr rfl)
    · exact hx hw _ (Or.inl rfl)
    · exact hx hw _ (Or.inr rfl)
  · intro a ha
    rw [hscale a, ha]
    exact null_isEmpty
  · intro hw
    exact ⟨htitle hw, hfooter hw, hx hw _ (Or.inl rfl), hx hw _ (Or.inr rfl)⟩
  · intro hh
    exact ⟨hy hh _ (Or.inl rfl), hy hh _ (Or.inr rfl)⟩

/-- Witness for `degenerate_rect`: the plot with a title and the plot with the four
axes in the null rectangle (0, 0, 0, 0). -/
theorem degenerate_rect_witness :
    (activate Example.plotTitled ⟨0, 0, 0, 0⟩ Example.options
        QwtPlotLayout.new).titleRect.isEmpty = true ∧
      ∀ a, ((activate Example.plotTitled ⟨0, 0, 0, 0⟩ Example.options
        QwtPlotLayout.new).scaleRect a).isEmpty = true :=
  have h := (degenerate_rect Example.plotTitled ⟨0, 0, 0, 0⟩ Example.options
    QwtPlotLayout.new ⟨0, 0, 0, 0, by norm_num⟩ Example.new_fixedDim
    (fun _ he => absurd (show false = true from he) (by decide))
    (by with_unfolding_all decide)
    (by with_unfolding_all decide) (Or.inl (le_refl _))).1 (le_refl _) (le_refl _)
  ⟨h.1, h.2.2.2.1⟩

/-! ## The coupling of the axes by the index badges -/

theorem coupledDim_apply (d : PrivateData) (f g : Axis → ℤ) :
    coupledDim d f g Axis.yLeft = f Axis.yLeft ∧
      coupledDim d f g Axis.xBottom = f Axis.xBottom ∧
      (fixedDimOfAxis d Axis.xTop = 0 →
        coupledDim d f g Axis.xTop = max (max (f Axis.xTop) (g Axis.yLeft)) (g Axis.yRight)) ∧
      (fixedDimOfAxis d Axis.yRight = 0 →
        coupledDim d f g Axis.yRight =
          max (max (f Axis.yRight) (g Axis.xTop)) (g Axis.xBottom)) := by
  unfold coupledDim fixedDimOfAxis
  refine ⟨?_, ?_, ?_, ?_⟩
  · simp only [setAt, reduceCtorEq, if_false]
  · simp only [setAt, reduceCtorEq, if_false]
  · intro h
    simp only [setAt, reduceCtorEq, if_false, if_true, h, ne_eq, not_true_eq_false]
  · intro h
    simp only [setAt, reduceCtorEq, if_false, if_true, h, ne_eq, not_true_eq_false]

/-- C25: the coupling of the axes by the index badges is one-directional and guarded.
The dimensions `dimAxes` that `activate` lays the axes out with are: for the top axis
without fixed dimension the maximum of its own dimension, the badge heights of the left
and the right axis and its hint; for the right axis without fixed dimension the maximum
of its own dimension, the badge widths of the top and the bottom axis and its hint; for
the left and the bottom axis a value in which no badge occurs, the same for every plot
with the same left (bottom) axis, whatever the other axes and their badges; and for
every axis with `fixedDim != 0` the fixed dimension itself. -/
theorem badge_coupling (plot : QwtPlot) (plotRect : QRectF) (options : Options)
    (d : PrivateData) :
    (fixedDimOfAxis d Axis.xTop = 0 →
      (activateStages plot plotRect options d).2.dimAxes Axis.xTop =
          max (max (max (resolvedDim plot d Axis.xTop) (badgeOf plot 0 Axis.yLeft))
            (badgeOf plot 0 Axis.yRight)) (hintDimOfAxis d Axis.xTop) ∧
        badgeOf plot 0 Axis.yLeft ≤ (activateStages plot plotRect options d).2.dimAxes Axis.xTop ∧
        badgeOf plot 0 Axis.yRight ≤
          (activateStages plot plotRect options d).2.dimAxes Axis.xTop) ∧
    (fixedDimOfAxis d Axis.yRight = 0 →
      (activateStages plot plotRect options d).2.dimAxes Axis.yRight =
          max (max (max (resolvedDim plot d Axis.yRight) (badgeOf plot 0 Axis.xTop))
            (badgeOf plot 0 Axis.xBottom)) (hintDimOfAxis d Axis.yRight) ∧
        badgeOf plot 0 Axis.xTop ≤
          (activateStages plot plotRect options d).2.dimAxes Axis.yRight ∧
        badgeOf plot 0 Axis.xBottom ≤
          (activateStages plot plotRect options d).2.dimAxes Axis.yRight) ∧
    (activateStages plot plotRect options d).2.dimAxes Axis.yLeft =
      hintedDim d (resolvedDim plot d) Axis.yLeft ∧
    (activateStages plot plotRect options d).2.dimAxes Axis.xBottom =
      hintedDim d (resolvedDim plot d) Axis.xBottom ∧
    (∀ (plot2 : QwtPlot) (rect2 : QRectF) (options2 : Options) (a : Axis),
      a = Axis.yLeft ∨ a = Axis.xBottom →
      plot2.axisEnabled a = plot.axisEnabled a →
      (plot2.axisWidget a).dimForLength QWIDGETSIZE_MAX =
        (plot.axisWidget a).dimForLength QWIDGETSIZE_MAX →
      (activateStages plot2 rect2 options2 d).2.dimAxes a =
        (activateStages plot plotRect options d).2.dimAxes a) ∧
    (∀ a, fixedDimOfAxis d a ≠ 0 →
      (activateStages plot plotRect options d).2.dimAxes a = fixedDimOfAxis d a) := by
  have key : ∀ (p : QwtPlot) (r : QRectF) (o : Options),
      (activateStages p r o d).2.dimAxes = finalDim p d :=
    fun p r o => (stages_dimAxes p r o d).1
  obtain ⟨c1, c2, c3, c4⟩ := coupledDim_apply d (resolvedDim plot d) (badgeOf plot 0)
  rw [key]
  refine ⟨?_, ?_, ?_, ?_, ?_, ?_⟩
  · intro h
    have e : finalDim plot d Axis.xTop =
        max (max (max (resolvedDim plot d Axis.xTop) (badgeOf plot 0 Axis.yLeft))
          (badgeOf plot 0 Axis.yRight)) (hintDimOfAxis d Axis.xTop) := by
      unfold finalDim hintedDim
      rw [if_pos h, c3 h]
    rw [e]
    refine ⟨rfl, ?_, ?_⟩
    · exact le_trans (le_trans (le_max_right _ _) (le_max_left _ _)) (le_max_left _ _)
    · exact le_trans (le_max_right _ _) (le_max_left _ _)
  · intro h
    have e : finalDim plot d Axis.yRight =
        max (max (max (resolvedDim plot d Axis.yRight) (badgeOf plot 0 Axis.xTop))
          (badgeOf plot 0 Axis.xBottom)) (hintDimOfAxis d Axis.yRight) := by
      unfold finalDim hintedDim
      rw [if_pos h, c4 h]
    rw [e]
    refine ⟨rfl, ?_, ?_⟩
    · exact le_trans (le_trans (le_max_right _ _) (le_max_left _ _)) (le_max_left _ _)
    · exact le_trans (le_max_right _ _) (le_max_left _ _)
  · unfold finalDim hintedDim
    rw [c1]
  · unfold finalDim hintedDim
    rw [c2]
  · intro plot2 rect2 options2 a ha he hw
    rw [key]
    obtain ⟨e1, e2, -, -⟩ := coupledDim_apply d (resolvedDim plot2 d) (badgeOf plot2 0)
    have hr : resolvedDim plot2 d a = resolvedDim plot d a := by
      unfold resolvedDim
      rw [he, hw]
    unfold finalDim hintedDim
    rcases ha with h | h <;> subst h
    · rw [e1, c1, hr]
    · rw [e2, c2, hr]
  · intro a hf
    exact finalDim_fixed plot d a hf

set_option maxRecDepth 8000 in
/-- Witness for `badge_coupling`: in the plot whose four axes need 20 and show a badge
30 x 14, the top axis is raised to the badge height 14 (it stays at 20), the right axis
to the badge width 30, and the left and the bottom axis stay at 20. -/
theorem badge_coupling_witness :
    (activateStages Example.plotBadges ⟨0, 0, 300, 500⟩ Example.options
        QwtPlotLayout.new).2.dimAxes Axis.yRight = 30 ∧
      (activateStages Example.plotBadges ⟨0, 0, 300, 500⟩ Example.options
        QwtPlotLayout.new).2.dimAxes Axis.yLeft = 20 :=
  have h := badge_coupling Example.plotBadges ⟨0, 0, 300, 500⟩ Example.options
    QwtPlotLayout.new
  ⟨(h.2.1 (by with_unfolding_all decide)).1.trans (by with_unfolding_all decide),
    h.2.2.1.trans (by with_unfolding_all decide)⟩

/-! ## Termination of `expandLineBreaks` -/

/-- More fuel does not change the result of the loop. -/
theorem expandLoop_mono (plot : QwtPlot) (options : Options) (rect : QRectF)
    (d : PrivateData) (fuel : ℕ) (s e : ExpandState)
    (h : expandLoop plot options rect d fuel s = some e) (k : ℕ) :
    expandLoop plot options rect d (fuel + k) s = some e := by
  induction fuel generalizing s with
  | zero => simp [expandLoop] at h
  | succ n ih =>
    have hk : n + 1 + k = (n + k) + 1 := by omega
    rw [hk]
    simp only [expandLoop] at h ⊢
    split_ifs with hd
    · rw [if_pos hd] at h
      exact h
    · rw [if_neg hd] at h
      exact ih _ h

/-- The footer height after the first round of the loop. -/
theorem expandRound_init_dimFooter (plot : QwtPlot) (options : Options) (rect : QRectF)
    (d : PrivateData) :
    (expandRound plot options rect d expandInit).1.dimFooter =
      if !(options.ignoreFooter || d.layoutData.footer.text.isEmpty) then
        max 0 (footerDim options rect d (fun _ => 0))
      else 0 := by
  rw [expandRound_dimFooter]
  unfold expandFooter expandInit
  dsimp only
  split_ifs with h1 h2
  · exact (max_eq_right (le_of_lt h2)).symm
  · exact (max_eq_left (not_lt.mp h2)).symm
  · rfl

/-- The footer height after a later round of the loop. -/
theorem expandRound_next_dimFooter (plot : QwtPlot) (options : Options) (rect : QRectF)
    (d : PrivateData) (s : ExpandState) (hs : s.dimAxis = expandAxisDim plot d) :
    (expandRound plot options rect d s).1.dimFooter =
      if !(options.ignoreFooter || d.layoutData.footer.text.isEmpty) then
        max s.dimFooter (footerDim options rect d (expandAxisDim plot d))
      else s.dimFooter := by
  rw [expandRound_dimFooter]
  unfold expandFooter
  dsimp only
  rw [hs]
  split_ifs with h1 h2
  · exact (max_eq_right (le_of_lt h2)).symm
  · exact (max_eq_left (not_lt.mp h2)).symm
  · rfl

/-- The value of `expandLineBreaks`, by the number of rounds. -/
theorem expandLineBreaks_value (plot : QwtPlot) (options : Options) (rect : QRectF)
    (d : PrivateData) :
    expandLoop plot options rect d 3 expandInit = some (expandLineBreaks plot options rect d) ∧
      (expandLineBreaks plot options rect d).dimFooter =
        if !(options.ignoreFooter || d.layoutData.footer.text.isEmpty) then
          (if (expandRound plot options rect d expandInit).2 then
            max 0 (footerDim options rect d (fun _ => 0))
          else
            max (max 0 (footerDim options rect d (fun _ => 0)))
              (footerDim options rect d (expandAxisDim plot d)))
        else 0 := by
  obtain ⟨e, he, -, -⟩ := expandLoop_three plot options rect d expandInit
  have hv : expandLineBreaks plot options rect d = e := by
    unfold expandLineBreaks
    rw [he]
    rfl
  rw [hv]
  refine ⟨he, ?_⟩
  have h1 := expandRound_init_dimFooter plot options rect d
  have h2 := expandRound_next_dimFooter plot options rect d
    (expandRound plot options rect d expandInit).1 (expandRound_dimAxis_eq _ _ _ _ _)
  have h3 := expandRound_next_dimFooter plot options rect d
    (expandRound plot options rect d (expandRound plot options rect d expandInit).1).1
    (expandRound_dimAxis_eq _ _ _ _ _)
  simp only [expandLoop] at he
  by_cases r1 : (expandRound plot options rect d expandInit).2 = true
  · rw [if_pos r1] at he
    rw [if_pos r1]
    have := Option.some.inj he
    rw [← this, h1]
  · rw [if_neg r1] at he
    rw [if_neg r1]
    by_cases r2 : (expandRound plot options rect d
        (expandRound plot options rect d expandInit).1).2 = true
    · rw [if_pos r2] at he
      have := Option.some.inj he
      rw [← this, h2, h1]
      split_ifs <;> rfl
    · rw [if_neg r2] at he
      split_ifs at he with r3
      · have := Option.some.inj he
        rw [← this, h3, h2, h1]
        split_ifs
        · rw [max_assoc, max_self]
        · rfl

/-- C27: the loop of `expandLineBreaks` terminates: for every plot, options, working
rectangle and state of the layout (with any text height functions) three rounds are
enough, more rounds give the same values; `dimAxis[axis]` is `dimWithoutTitle` plus the
height of the title if the axis is enabled and has a title, and `dimFooter` is the
largest footer height seen in the rounds done (0 without footer): the height for the
full width in the first round, and, unless the first round ends the loop, the height for
the width beside the axes. -/
theorem expandLineBreaks_terminates (plot : QwtPlot) (options : Options) (rect : QRectF)
    (d : PrivateData) :
    (∀ fuel, 3 ≤ fuel →
      expandLoop plot options rect d fuel expandInit =
        some (expandLineBreaks plot options rect d)) ∧
    (∀ a, (expandLineBreaks plot options rect d).dimAxis a =
      (d.layoutData.scale a).dimWithoutTitle +
        (if (d.layoutData.scale a).isEnabled = true ∧
            (plot.axisWidget a).titleIsEmpty = false then
          (plot.axisWidget a).titleHeightForWidth QWIDGETSIZE_MAX
        else 0)) ∧
    (expandLineBreaks plot options rect d).dimFooter =
      (if !(options.ignoreFooter || d.layoutData.footer.text.isEmpty) then
        (if (expandRound plot options rect d expandInit).2 then
          max 0 (footerDim options rect d (fun _ => 0))
        else
          max (max 0 (footerDim options rect d (fun _ => 0)))
            (footerDim options rect d (expandAxisDim plot d)))
      else 0) := by
  obtain ⟨h3, hf⟩ := expandLineBreaks_value plot options rect d
  refine ⟨?_, ?_, hf⟩
  · intro fuel hfuel
    obtain ⟨k, rfl⟩ := Nat.exists_eq_add_of_le hfuel
    exact expandLoop_mono plot options rect d 3 _ _ h3 k
  · intro a
    rw [expandLineBreaks_dimAxis]
    have hq : qFloor ((QWIDGETSIZE_MAX : ℤ) : ℚ) = QWIDGETSIZE_MAX := Int.floor_intCast _
    unfold expandAxisDim
    dsimp only
    rw [hq]
    cases (d.layoutData.scale a).isEnabled <;> cases (plot.axisWidget a).titleIsEmpty <;>
      simp

/-! ## The ratio of a docked legend -/

theorem isDocked_iff (pos : LegendLayout) :
    isDocked pos ↔ pos ≠ LegendLayout.FloatLegend ∧ pos ≠ LegendLayout.HideLegend := by
  unfold isDocked
  cases pos <;> simp

/-- The legend step of `activate` adds the same amount to the margin of the left (right)
axis and to what has been taken from the rectangle there. -/
theorem legend_sideMargins (plot : QwtPlot) (options : Options) (s : PrivateData × Locals)
    (hL : s.2.axisMargin Axis.yLeft = s.2.axisSubtracted Axis.yLeft)
    (hR : s.2.axisMargin Axis.yRight = s.2.axisSubtracted Axis.yRight) :
    (activateLegend plot options s).2.axisMargin Axis.yLeft =
        (activateLegend plot options s).2.axisSubtracted Axis.yLeft ∧
      (activateLegend plot options s).2.axisMargin Axis.yRight =
        (activateLegend plot options s).2.axisSubtracted Axis.yRight := by
  have hpos := (sameSettings_layoutLegend options s.2.rect s.1).legendPos
  unfold activateLegend
  by_cases hs : legendShown plot options s.1 = true
  swap
  · rw [if_neg hs]
    exact ⟨hL, hR⟩
  rw [if_pos hs]
  unfold legendLocals
  dsimp only
  rw [← hpos]
  cases hp : s.1.legendPos <;>
    simp only [addAt, setAt, hL, hR, reduceCtorEq, if_true, if_false, and_self]

/-- When the loop over the axes begins, the margins of the left and the right axis are
what the legend has taken from the rectangle at that side. -/
theorem beforeDims_sideMargins (plot : QwtPlot) (plotRect : QRectF) (options : Options)
    (d : PrivateData) :
    (beforeDims plot plotRect options d).2.axisMargin Axis.yLeft =
        (beforeDims plot plotRect options d).2.axisSubtracted Axis.yLeft ∧
      (beforeDims plot plotRect options d).2.axisMargin Axis.yRight =
        (beforeDims plot plotRect options d).2.axisSubtracted Axis.yRight := by
  have h0 : (activateTitle options (activateStart plot plotRect d)).2.axisMargin Axis.yLeft =
        (activateTitle options (activateStart plot plotRect d)).2.axisSubtracted Axis.yLeft ∧
      (activateTitle options (activateStart plot plotRect d)).2.axisMargin Axis.yRight =
        (activateTitle options (activateStart plot plotRect d)).2.axisSubtracted
          Axis.yRight := by
    unfold activateTitle
    dsimp only
    split_ifs <;> exact ⟨rfl, rfl⟩
  obtain ⟨h1, h2⟩ := legend_sideMargins plot options _ h0.1 h0.2
  unfold beforeDims activateExpand
  dsimp only
  simp only [setAt, reduceCtorEq, if_false]
  exact ⟨h1, h2⟩

/-- The footer step of `activate` for a footer with a height. -/
theorem activateFooter_shown (s : PrivateData × Locals) (h : 0 < s.2.dimFooter) :
    (activateFooter s).1.footerRect =
        (if (s.1.layoutData.scale Axis.yLeft).isEnabled ≠
            (s.1.layoutData.scale Axis.yRight).isEnabled then
          ⟨s.2.rect.left + (s.2.dimAxes Axis.yLeft : ℚ), s.2.rect.bottom - (s.2.dimFooter : ℚ),
            s.2.rect.width - (s.2.dimAxes Axis.yLeft : ℚ) - (s.2.dimAxes Axis.yRight : ℚ),
            (s.2.dimFooter : ℚ)⟩
        else
          ⟨s.2.rect.left, s.2.rect.bottom - (s.2.dimFooter : ℚ), s.2.rect.width,
            (s.2.dimFooter : ℚ)⟩) ∧
      (activateFooter s).2.rect.left = s.2.rect.left ∧
      (activateFooter s).2.rect.right = s.2.rect.right ∧
      (activateFooter s).2.axisMargin = s.2.axisMargin ∧
      (activateFooter s).2.axisSubtracted Axis.yLeft = s.2.axisSubtracted Axis.yLeft ∧
      (activateFooter s).2.axisSubtracted Axis.yRight = s.2.axisSubtracted Axis.yRight ∧
      (activateFooter s).2.dimAxes = s.2.dimAxes := by
  unfold activateFooter
  dsimp only
  rw [if_pos (by exact h)]
  dsimp only
  refine ⟨?_, rfl, rfl, rfl, ?_, ?_, rfl⟩
  · split_ifs
    · simp only [QRectF.setX, QRectF.setLeft, QRectF.setWidth, QRectF.setBottom, QRectF.left,
        QRectF.width, QRectF.mk.injEq, and_true, true_and]
      ring
    · rfl
  · simp only [setAt, reduceCtorEq, if_false]
  · simp only [setAt, reduceCtorEq, if_false]

/-- After the loop over the axes the scale data still say which axes are enabled. -/
theorem activateDims_isEnabled (plot : QwtPlot) (plotRect : QRectF) (options : Options)
    (d : PrivateData) (a : Axis) :
    ((activateDims plot (beforeDims plot plotRect options d)).1.layoutData.scale a).isEnabled =
      plot.axisEnabled a := by
  unfold activateDims
  rw [foldl_activateDim_scale plot Axis.all nodup_all, if_pos (mem_all a),
    (beforeDims_state plot plotRect options d).2 a]
  unfold recordedScale LayoutData.initScale
  dsimp only
  cases plot.axisEnabled a <;> rfl

set_option maxRecDepth 8000 in
/-- A plot with a footer 15 high, the left and the bottom axis (each 20) and no right
axis in (0, 0, 300, 500), with the hinted margin 30 for the left axis: the layout is not
collapsed, the footer is (20, 485, 280, 15) and the canvas is (50, 0, 250, 460). -/
theorem footer_margin_example :
    scaleVisible (activate Example.plotFooter ⟨0, 0, 300, 500⟩ Example.options
        Example.marginLeft) = true ∧
    (activate Example.plotFooter ⟨0, 0, 300, 500⟩ Example.options
        Example.marginLeft).footerRect = ⟨20, 485, 280, 15⟩ ∧
    (activate Example.plotFooter ⟨0, 0, 300, 500⟩ Example.options
        Example.marginLeft).canvasRect = ⟨50, 0, 250, 460⟩ := by
  refine ⟨?_, ?_, ?_⟩ <;> with_unfolding_all decide

/-- C28: `activate` does not centre the footer on the canvas for every hinted margin,
as its comment says it does ("if only one of the y axes is missing we align the footer
centered to the canvas").  In a layout that is not collapsed, with a footer of a height
above zero: when exactly one of the left and the right axis is enabled, the canvas
starts right of the footer by the amount by which the hinted margin of the left axis
exceeds the margin the legend has taken at the left, and is narrower than the footer by
these amounts for the left and the right axis; `footerRect.left() == canvasRect.left()`
and `footerRect.width() == canvasRect.width()` hold for every legend position when
neither hinted margin exceeds the margin taken by the legend (as with the hinted margin
0 and no legend at that side).  When both or neither are enabled the footer spans the
full width of the working rectangle. -/
theorem footer_centred (plot : QwtPlot) (plotRect : QRectF) (options : Options)
    (d : PrivateData)
    (hv : scaleVisible (activate plot plotRect options d) = true)
    (hfoot : 0 < (beforeDims plot plotRect options d).2.dimFooter) :
    (plot.axisEnabled Axis.yLeft ≠ plot.axisEnabled Axis.yRight →
      (activate plot plotRect options d).canvasRect.left =
          (activate plot plotRect options d).footerRect.left +
            ((max ((beforeDims plot plotRect options d).2.axisMargin Axis.yLeft)
                (hintMarginOfAxis d Axis.yLeft) : ℤ) : ℚ) -
            (((beforeDims plot plotRect options d).2.axisMargin Axis.yLeft : ℤ) : ℚ) ∧
        (activate plot plotRect options d).canvasRect.width =
          (activate plot plotRect options d).footerRect.width -
            (((max ((beforeDims plot plotRect options d).2.axisMargin Axis.yLeft)
                (hintMarginOfAxis d Axis.yLeft) : ℤ) : ℚ) -
              (((beforeDims plot plotRect options d).2.axisMargin Axis.yLeft : ℤ) : ℚ)) -
            (((max ((beforeDims plot plotRect options d).2.axisMargin Axis.yRight)
                (hintMarginOfAxis d Axis.yRight) : ℤ) : ℚ) -
              (((beforeDims plot plotRect options d).2.axisMargin Axis.yRight : ℤ) : ℚ)) ∧
        (hintMarginOfAxis d Axis.yLeft ≤
            (beforeDims plot plotRect options d).2.axisMargin Axis.yLeft →
          hintMarginOfAxis d Axis.yRight ≤
            (beforeDims plot plotRect options d).2.axisMargin Axis.yRight →
          (activate plot plotRect options d).footerRect.left =
              (activate plot plotRect options d).canvasRect.left ∧
            (activate plot plotRect options d).footerRect.width =
              (activate plot plotRect options d).canvasRect.width)) ∧
    (plot.axisEnabled Axis.yLeft = plot.axisEnabled Axis.yRight →
      (activate plot plotRect options d).footerRect.left =
          (beforeDims plot plotRect options d).2.rect.left ∧
        (activate plot plotRect options d).footerRect.width =
          (beforeDims plot plotRect options d).2.rect.width) := by
  have hvis := (activate_scaleRect plot plotRect options d Axis.yLeft).2
  rw [hvis] at hv
  have hno : ¬ canvasTooSmall (activateStages plot plotRect options d).1
      (provisionalCanvas (activateStages plot plotRect options d).2) = true := by
    intro hc
    rw [hc] at hv
    exact absurd hv (by decide)
  have hcanvas := activate_canvasRect plot plotRect options d
  rw [if_neg hno] at hcanvas
  have hst : activateStages plot plotRect options d =
      activateFooter (activateDims plot (beforeDims plot plotRect options d)) := rfl
  rw [hst] at hcanvas
  have hloc := activateDims_locals plot (beforeDims plot plotRect options d)
  have hfoot2 : 0 < (activateDims plot (beforeDims plot plotRect options d)).2.dimFooter := by
    rw [hloc]
    exact hfoot
  obtain ⟨f1, f2, f3, f4, f5, f6, f7⟩ :=
    activateFooter_shown (activateDims plot (beforeDims plot plotRect options d)) hfoot2
  obtain ⟨mL, mR⟩ := beforeDims_sideMargins plot plotRect options d
  have hset : SameSettings d (beforeDims plot plotRect options d).1 :=
    sameSettings_beforeExpand plot plotRect options d
  have eL := activateDims_isEnabled plot plotRect options d Axis.yLeft
  have eR := activateDims_isEnabled plot plotRect options d Axis.yRight
  obtain ⟨c1, c2, -, -⟩ := provisionalCanvas_edges
    (activateFooter (activateDims plot (beforeDims plot plotRect options d))).2
  rw [marginRect_left, f2, f4, f5, f7] at c1
  rw [marginRect_right, f3, f4, f6, f7] at c2
  have aL : (activateDims plot (beforeDims plot plotRect options d)).2.axisMargin Axis.yLeft =
      max ((beforeDims plot plotRect options d).2.axisMargin Axis.yLeft)
        (hintMarginOfAxis d Axis.yLeft) := by
    rw [hloc]
    show max ((beforeDims plot plotRect options d).2.axisMargin Axis.yLeft)
      ((beforeDims plot plotRect options d).1.layoutData.scale Axis.yLeft).hintMargin = _
    rw [← hset.hintMargin Axis.yLeft]
    rfl
  have aR : (activateDims plot (beforeDims plot plotRect options d)).2.axisMargin Axis.yRight =
      max ((beforeDims plot plotRect options d).2.axisMargin Axis.yRight)
        (hintMarginOfAxis d Axis.yRight) := by
    rw [hloc]
    show max ((beforeDims plot plotRect options d).2.axisMargin Axis.yRight)
      ((beforeDims plot plotRect options d).1.layoutData.scale Axis.yRight).hintMargin = _
    rw [← hset.hintMargin Axis.yRight]
    rfl
  have sL : (activateDims plot (beforeDims plot plotRect options d)).2.axisSubtracted Axis.yLeft =
      (beforeDims plot plotRect options d).2.axisMargin Axis.yLeft := by
    rw [hloc]
    exact mL.symm
  have sR : (activateDims plot (beforeDims plot plotRect options d)).2.axisSubtracted
      Axis.yRight = (beforeDims plot plotRect options d).2.axisMargin Axis.yRight := by
    rw [hloc]
    exact mR.symm
  have rl : (activateDims plot (beforeDims plot plotRect options d)).2.rect =
      (beforeDims plot plotRect options d).2.rect := by
    rw [hloc]
  rw [aL, sL] at c1
  rw [aR, sR] at c2
  rw [activate_footerRect, f1, eL, eR, hcanvas, QRectF.width_eq (provisionalCanvas _), c1, c2]
  constructor
  · intro hne
    rw [if_pos hne]
    simp only [QRectF.left, QRectF.width, QRectF.right]
    refine ⟨by ring, by ring, ?_⟩
    intro h1 h2
    rw [max_eq_left h1, max_eq_left h2]
    constructor <;> ring
  · intro he
    rw [if_neg (not_not.mpr he), rl]
    exact ⟨rfl, rfl⟩

set_option maxRecDepth 8000 in
/-- Witness for `footer_centred`: the plot with a footer, the left and the bottom axis, in
(0, 0, 300, 500) with the hinted margin 30 for the left axis: the canvas starts 30 right
of the footer and is 30 narrower. -/
theorem footer_centred_witness :
    (activate Example.plotFooter ⟨0, 0, 300, 500⟩ Example.options
        Example.marginLeft).canvasRect.left =
      (activate Example.plotFooter ⟨0, 0, 300, 500⟩ Example.options
        Example.marginLeft).footerRect.left + 30 ∧
    (activate Example.plotFooter ⟨0, 0, 300, 500⟩ Example.options
        Example.marginLeft).canvasRect.width =
      (activate Example.plotFooter ⟨0, 0, 300, 500⟩ Example.options
        Example.marginLeft).footerRect.width - 30 :=
  have h := (footer_centred Example.plotFooter ⟨0, 0, 300, 500⟩ Example.options
    Example.marginLeft (by with_unfolding_all decide) (by with_unfolding_all decide)).1
    (by with_unfolding_all decide)
  ⟨h.1.trans (by with_unfolding_all decide), h.2.1.trans (by with_unfolding_all decide)⟩

end QwtPlotLayout

/-! # Properties of the zoomer -/

namespace QwtPlotZoomer

/-! ## The zoom stack -/

theorem toSigned_small (n : ℕ) (h : n < 2147483648) :
    QwtPlotLayout.toSigned n = (n : ℤ) := by
  unfold QwtPlotLayout.toSigned
  rw [if_pos h]

theorem toUnsigned_small (n : ℕ) (h : n < 4294967296) :
    QwtPlotLayout.toUnsigned (n : ℤ) = n := by
  unfold QwtPlotLayout.toUnsigned
  omega

theorem stackAt_some (stack : List QRectF) (i : ℕ) (r : QRectF) (h : stack[i]? = some r) :
    stackAt stack (i : ℤ) = Except.ok r := by
  unfold stackAt
  rw [if_pos (Int.natCast_nonneg i), Int.toNat_natCast, h]

theorem stackAt_none (stack : List QRectF) (i : ℕ) (h : stack.length ≤ i) :
    stackAt stack (i : ℤ) = Except.error Fault.outOfRange := by
  unfold stackAt
  rw [if_pos (Int.natCast_nonneg i), Int.toNat_natCast, List.getElem?_eq_none h]

theorem valid_current (d : PrivateData) (hv : Valid d) :
    ∃ cur, d.zoomStack[d.zoomRectIndex]? = some cur ∧ zoomRect d = Except.ok cur := by
  obtain ⟨h1, h2⟩ := hv
  refine ⟨d.zoomStack[d.zoomRectIndex], List.getElem?_eq_getElem h1, ?_⟩
  unfold zoomRect
  rw [toSigned_small _ (lt_trans h1 h2)]
  exact stackAt_some _ _ _ (List.getElem?_eq_getElem h1)

theorem rescale_valid (d : PrivateData) (hv : Valid d) : rescale d = Except.ok d := by
  obtain ⟨cur, -, hc⟩ := valid_current d hv
  unfold zoomRect at hc
  unfold rescale
  rw [hc]

theorem rescale_ok (d d1 : PrivateData) (h : rescale d = Except.ok d1) : d1 = d := by
  unfold rescale at h
  split at h
  · exact (Except.ok.inj h).symm
  · exact absurd h (by simp)

/-- The loop removes the rectangles above the index. -/
theorem popLoopAux_take (k : ℕ) (fuel : ℕ) (stack : List QRectF)
    (hf : fuel = stack.length + 1) (hk : k < stack.length) :
    popLoopAux (k : ℤ) fuel ((stack.length : ℤ) - 1) stack = Except.ok (stack.take (k + 1)) := by
  induction fuel generalizing stack with
  | zero => omega
  | succ n ih =>
    unfold popLoopAux
    by_cases hi : (stack.length : ℤ) - 1 > (k : ℤ)
    · rw [if_pos hi]
      cases stack with
      | nil => simp at hk
      | cons r rs =>
        dsimp only
        have hlen : (r :: rs).dropLast.length = rs.length := by simp
        have hlen2 : ((r :: rs).length : ℤ) - 1 - 1 = (((r :: rs).dropLast.length : ℕ) : ℤ) - 1 := by
          rw [hlen]
          simp
        have hk2 : k < (r :: rs).dropLast.length := by
          rw [hlen]
          simp only [List.length_cons] at hi
          omega
        rw [hlen2, ih (r :: rs).dropLast (by rw [hlen]; simpa using hf) hk2]
        rw [List.dropLast_eq_take, List.take_take]
        congr 2
        simp only [List.length_cons] at hi ⊢
        omega
    · rw [if_neg hi]
      have : stack.length = k + 1 := by omega
      rw [← this, List.take_length]

theorem popLoop_take (k : ℕ) (stack : List QRectF) (hk : k < stack.length) :
    popLoop (k : ℤ) ((stack.length : ℤ) - 1) stack = Except.ok (stack.take (k + 1)) :=
  popLoopAux_take k _ stack rfl hk

theorem qFuzzyCompare_self (p : ℚ) : qFuzzyCompare p p = true := by
  unfold qFuzzyCompare
  simp only [sub_self, ge_iff_le, le_refl, if_true, zero_mul, lt_self_iff_false, if_false,
    decide_eq_true_eq]
  split_ifs with h
  · exact h
  · linarith

theorem ne_self (r : QRectF) : QRectF.ne r r = false := by
  unfold QRectF.ne
  simp only [qFuzzyCompare_self, Bool.not_true, Bool.or_self]

/-- What `zoom( rect )` does when the depth is not reached and the rectangle differs from
the current one. -/
theorem zoom_push (rect : QRectF) (d : PrivateData) (cur : QRectF) (hv : Valid d)
    (hcur : d.zoomStack[d.zoomRectIndex]? = some cur)
    (hdepth : ¬ (d.maxStackDepth ≥ 0 ∧ (d.zoomRectIndex : ℤ) ≥ d.maxStackDepth))
    (hne : QRectF.ne rect.normalized cur = true) :
    (d.zoomRectIndex + 2 < 2147483648 →
      zoom rect d = Except.ok { d with
        zoomStack := d.zoomStack.take (d.zoomRectIndex + 1) ++ [rect.normalized]
        zoomRectIndex := d.zoomRectIndex + 1 }) ∧
    (¬ d.zoomRectIndex + 2 < 2147483648 → zoom rect d = Except.error Fault.outOfMemory) := by
  obtain ⟨h1, h2⟩ := hv
  have hs := toSigned_small d.zoomRectIndex (lt_trans h1 h2)
  have hlen : ((d.zoomStack.length : ℤ) - 1) = ((d.zoomStack.length - 1 : ℕ) : ℤ) := by omega
  have hu : ((QwtPlotLayout.toUnsigned ((d.zoomStack.length : ℤ) - 1) : ℕ) : ℤ) =
      (d.zoomStack.length : ℤ) - 1 := by
    rw [hlen, toUnsigned_small _ (by omega)]
  have hpop := popLoop_take d.zoomRectIndex d.zoomStack h1
  have htake : (d.zoomStack.take (d.zoomRectIndex + 1)).length = d.zoomRectIndex + 1 := by
    rw [List.length_take]
    omega
  have hmod : (d.zoomRectIndex + 1) % 4294967296 = d.zoomRectIndex + 1 := by omega
  unfold zoom
  rw [hs, if_neg hdepth]
  dsimp only
  rw [stackAt_some _ _ _ hcur]
  dsimp only
  rw [if_pos hne, hu, hpop]
  dsimp only
  unfold push
  rw [htake, hmod]
  constructor
  · intro hroom
    rw [if_pos (by omega)]
    dsimp only
    apply rescale_valid
    constructor
    · show d.zoomRectIndex + 1 < (d.zoomStack.take (d.zoomRectIndex + 1) ++ [rect.normalized]).length
      rw [List.length_append, htake]
      simp
    · show (d.zoomStack.take (d.zoomRectIndex + 1) ++ [rect.normalized]).length < 2147483648
      rw [List.length_append, htake]
      simp only [List.length_singleton]
      omega
  · intro hroom
    rw [if_neg (by omega)]

/-- C22: `zoom( rect )` on a zoomer whose index is a position of the stack.  When the
maximal stack depth is reached (`maxStackDepth >= 0` and
`zoomRectIndex >= maxStackDepth`) the call changes nothing.  Otherwise, if
`rect.normalized()` differs from the current zoom rectangle (the operator `!=` of
`QRectF`), the rectangles above the current position are removed, `rect.normalized()`
is pushed and `zoomRectIndex` increases by one, so that afterwards
`zoomStack().count() == zoomRectIndex() + 1`, `zoomRect() == rect.normalized()` and the
entries at the indices `0 .. old index` are unchanged (the stack has room for the
rectangle: its count is an `int`); if it equals the current rectangle, the stack and the
index are unchanged. -/
theorem zoom_rect_spec (rect : QRectF) (d : PrivateData) (cur : QRectF) (hv : Valid d)
    (hcur : d.zoomStack[d.zoomRectIndex]? = some cur) :
    (d.maxStackDepth ≥ 0 ∧ (d.zoomRectIndex : ℤ) ≥ d.maxStackDepth →
      zoom rect d = Except.ok d) ∧
    (¬ (d.maxStackDepth ≥ 0 ∧ (d.zoomRectIndex : ℤ) ≥ d.maxStackDepth) →
      (QRectF.ne rect.normalized cur = true → d.zoomRectIndex + 2 < 2147483648 →
        ∃ d1, zoom rect d = Except.ok d1 ∧
          d1.zoomStack = d.zoomStack.take (d.zoomRectIndex + 1) ++ [rect.normalized] ∧
          d1.zoomRectIndex = d.zoomRectIndex + 1 ∧
          d1.zoomStack.length = d1.zoomRectIndex + 1 ∧
          zoomRect d1 = Except.ok rect.normalized ∧
          (∀ i, i ≤ d.zoomRectIndex → d1.zoomStack[i]? = d.zoomStack[i]?) ∧
          d1.maxStackDepth = d.maxStackDepth ∧ d1.isAxisEnabled = d.isAxisEnabled) ∧
      (QRectF.ne rect.normalized cur = false → zoom rect d = Except.ok d) ∧
      (rect.normalized = cur → zoom rect d = Except.ok d)) := by
  have hs := toSigned_small d.zoomRectIndex (lt_trans hv.1 hv.2)
  have hsame : ¬ (d.maxStackDepth ≥ 0 ∧ (d.zoomRectIndex : ℤ) ≥ d.maxStackDepth) →
      QRectF.ne rect.normalized cur = false → zoom rect d = Except.ok d := by
    intro hdepth hn
    unfold zoom
    rw [hs, if_neg hdepth]
    dsimp only
    rw [stackAt_some _ _ _ hcur]
    dsimp only
    rw [hn]
    rfl
  have htake : (d.zoomStack.take (d.zoomRectIndex + 1)).length = d.zoomRectIndex + 1 := by
    rw [List.length_take]
    have := hv.1
    omega
  refine ⟨?_, ?_⟩
  · intro hdepth
    unfold zoom
    rw [hs, if_pos hdepth]
  · intro hdepth
    refine ⟨?_, hsame hdepth, ?_⟩
    · intro hne hroom
      refine ⟨_, (zoom_push rect d cur hv hcur hdepth hne).1 hroom, rfl, rfl, ?_, ?_, ?_, rfl,
        rfl⟩
      · show (d.zoomStack.take (d.zoomRectIndex + 1) ++ [rect.normalized]).length = _
        rw [List.length_append, htake]
        rfl
      · unfold zoomRect
        dsimp only
        rw [toSigned_small _ (by omega)]
        apply stackAt_some
        rw [List.getElem?_append_right (by rw [htake]), htake]
        simp
      · intro i hi
        show (d.zoomStack.take (d.zoomRectIndex + 1) ++ [rect.normalized])[i]? = _
        rw [List.getElem?_append_left (by rw [htake]; omega), List.getElem?_take]
        rw [if_pos (by omega)]
    · intro he
      apply hsame hdepth
      rw [he]
      exact ne_self cur

set_option maxRecDepth 8000 in
/-- Witness for `zoom_rect_spec`: after two steps back on a stack of four rectangles,
`zoom` replaces the two rectangles above the current one by the new rectangle. -/
theorem zoom_rect_spec_witness :
    ∃ d1, zoom ⟨25, 25, -5, 10⟩ { Example.zoomed with zoomRectIndex := 1 } = Except.ok d1 ∧
      d1.zoomStack = [⟨0, 0, 100, 100⟩, ⟨10, 10, 80, 80⟩, ⟨20, 25, 5, 10⟩] ∧
      d1.zoomRectIndex = 2 :=
  have h := ((zoom_rect_spec ⟨25, 25, -5, 10⟩ { Example.zoomed with zoomRectIndex := 1 }
    ⟨10, 10, 80, 80⟩ (by with_unfolding_all decide) (by with_unfolding_all decide)).2
    (by with_unfolding_all decide)).1 (by with_unfolding_all decide)
    (by with_unfolding_all decide)
  h.imp fun _ hd => ⟨hd.1, hd.2.1.trans (by with_unfolding_all decide), hd.2.2.1⟩

/-! ## The limit of the stack depth -/

/-- The index `zoom( offset )` computes, when the sum is an `int`. -/
theorem wrap_add (idx : ℕ) (k : ℤ)
    (h2 : -2147483648 ≤ (idx : ℤ) + k) (h3 : (idx : ℤ) + k < 2147483648) :
    QwtPlotLayout.toSigned ((idx + QwtPlotLayout.toUnsigned k) % 4294967296) =
      (idx : ℤ) + k := by
  unfold QwtPlotLayout.toSigned QwtPlotLayout.toUnsigned
  split_ifs with h <;> omega

/-- `zoom( offset )` on a zoomer whose index is a position of the stack sets the index
to a position of the stack. -/
theorem zoomOffset_valid (offset : ℤ) (d : PrivateData) (hv : Valid d) :
    ∃ j : ℕ, j < d.zoomStack.length ∧
      zoomOffset offset d = Except.ok { d with zoomRectIndex := j } ∧
      (offset ≠ 0 → -2147483648 ≤ (d.zoomRectIndex : ℤ) + offset →
        (d.zoomRectIndex : ℤ) + offset < 2147483648 →
        (j : ℤ) = min ((d.zoomStack.length : ℤ) - 1) (max 0 ((d.zoomRectIndex : ℤ) + offset))) := by
  obtain ⟨h1, h2⟩ := hv
  unfold zoomOffset
  dsimp only
  by_cases h0 : offset = 0
  · rw [if_pos h0]
    refine ⟨0, by omega, rescale_valid _ ⟨by show 0 < d.zoomStack.length; omega, h2⟩,
      fun h => absurd h0 h⟩
  · rw [if_neg h0]
    have hn : 0 ≤ min ((d.zoomStack.length : ℤ) - 1)
        (max 0 (QwtPlotLayout.toSigned
          ((d.zoomRectIndex + QwtPlotLayout.toUnsigned offset) % 4294967296))) :=
      le_min (by omega) (le_max_left _ _)
    have hlt : min ((d.zoomStack.length : ℤ) - 1)
        (max 0 (QwtPlotLayout.toSigned
          ((d.zoomRectIndex + QwtPlotLayout.toUnsigned offset) % 4294967296))) <
        (d.zoomStack.length : ℤ) :=
      lt_of_le_of_lt (min_le_left _ _) (by omega)
    obtain ⟨j, hj⟩ := Int.eq_ofNat_of_zero_le hn
    rw [hj] at hlt
    have hjl : j < d.zoomStack.length := by exact_mod_cast hlt
    refine ⟨j, hjl, ?_, ?_⟩
    · rw [hj, toUnsigned_small j (by omega)]
      exact rescale_valid _ ⟨hjl, h2⟩
    · intro _ hlo hhi
      rw [← hj, wrap_add _ _ hlo hhi]

/-- `setMaxStackDepth( depth )` with `depth >= 0` leaves at most `depth + 1` rectangles
and an index of at most `depth`; the stack left is a beginning of the old stack. -/
theorem setMaxStackDepth_bounded (depth : ℤ) (d : PrivateData) (hv : Valid d)
    (hd : 0 ≤ depth) :
    ∃ d1, setMaxStackDepth depth d = Except.ok d1 ∧ Bounded depth d1 ∧
      d1.isAxisEnabled = d.isAxisEnabled ∧
      ∃ n, 0 < n ∧ d1.zoomStack = d.zoomStack.take n := by
  obtain ⟨h1, h2⟩ := hv
  unfold setMaxStackDepth
  dsimp only
  rw [if_pos hd]
  by_cases hz : (d.zoomStack.length : ℤ) - 1 - depth > 0
  · rw [if_pos hz]
    obtain ⟨j, hj, hzo, hval⟩ := zoomOffset_valid (-((d.zoomStack.length : ℤ) - 1 - depth))
      { d with maxStackDepth := depth } ⟨h1, h2⟩
    have hj2 := hval (by omega) (by dsimp only; omega) (by dsimp only; omega)
    dsimp only at hj hj2
    rw [hzo]
    dsimp only
    rw [toSigned_small j (by omega), popLoop_take j d.zoomStack hj]
    refine ⟨_, rfl, ⟨rfl, ⟨?_, ?_⟩, ?_, ?_⟩, rfl, j + 1, by omega, rfl⟩
    · show j < (d.zoomStack.take (j + 1)).length
      rw [List.length_take]
      omega
    · show (d.zoomStack.take (j + 1)).length < 2147483648
      rw [List.length_take]
      omega
    · show (((d.zoomStack.take (j + 1)).length : ℕ) : ℤ) ≤ depth + 1
      rw [List.length_take]
      have : min (j + 1) d.zoomStack.length = j + 1 := by omega
      rw [this]
      push_cast
      rcases le_total ((d.zoomStack.length : ℤ) - 1)
        (max 0 ((d.zoomRectIndex : ℤ) + -((d.zoomStack.length : ℤ) - 1 - depth))) with hc | hc
      · rw [min_eq_left hc] at hj2
        rcases le_total (0 : ℤ) ((d.zoomRectIndex : ℤ) + -((d.zoomStack.length : ℤ) - 1 - depth))
          with hm | hm
        · rw [max_eq_right hm] at hc
          omega
        · rw [max_eq_left hm] at hc
          omega
      · rw [min_eq_right hc] at hj2
        rcases le_total (0 : ℤ) ((d.zoomRectIndex : ℤ) + -((d.zoomStack.length : ℤ) - 1 - depth))
          with hm | hm
        · rw [max_eq_right hm] at hj2
          omega
        · rw [max_eq_left hm] at hj2
          omega
    · show ((j : ℕ) : ℤ) ≤ depth
      rcases le_total ((d.zoomStack.length : ℤ) - 1)
        (max 0 ((d.zoomRectIndex : ℤ) + -((d.zoomStack.length : ℤ) - 1 - depth))) with hc | hc
      · rw [min_eq_left hc] at hj2
        rcases le_total (0 : ℤ) ((d.zoomRectIndex : ℤ) + -((d.zoomStack.length : ℤ) - 1 - depth))
          with hm | hm
        · rw [max_eq_right hm] at hc
          omega
        · rw [max_eq_left hm] at hc
          omega
      · rw [min_eq_right hc] at hj2
        rcases le_total (0 : ℤ) ((d.zoomRectIndex : ℤ) + -((d.zoomStack.length : ℤ) - 1 - depth))
          with hm | hm
        · rw [max_eq_right hm] at hj2
          omega
        · rw [max_eq_left hm] at hj2
          omega
  · rw [if_neg hz]
    refine ⟨_, rfl, ⟨rfl, ⟨h1, h2⟩, ?_, ?_⟩, rfl, d.zoomStack.length, by omega, ?_⟩
    · show (d.zoomStack.length : ℤ) ≤ depth + 1
      omega
    · show (d.zoomRectIndex : ℤ) ≤ depth
      omega
    · exact (List.take_length _).symm

/-- `zoom( rect )` keeps the bound of the stack depth. -/
theorem zoom_bounded (depth : ℤ) (rect : QRectF) (d : PrivateData) (hb : Bounded depth d) :
    zoom rect d ≠ Except.error Fault.outOfRange ∧
      (∀ d1, zoom rect d = Except.ok d1 → Bounded depth d1) ∧
      (depth + 1 < 2147483648 → ∃ d1, zoom rect d = Except.ok d1) := by
  obtain ⟨hm, hv, hl, hi⟩ := hb
  obtain ⟨cur, hcur, -⟩ := valid_current d hv
  have hs := toSigned_small d.zoomRectIndex (lt_trans hv.1 hv.2)
  by_cases hdepth : d.maxStackDepth ≥ 0 ∧ (d.zoomRectIndex : ℤ) ≥ d.maxStackDepth
  · have e : zoom rect d = Except.ok d := by
      unfold zoom
      rw [hs, if_pos hdepth]
    rw [e]
    refine ⟨by simp, ?_, fun _ => ⟨d, rfl⟩⟩
    intro d1 h1
    rw [← Except.ok.inj h1]
    exact ⟨hm, hv, hl, hi⟩
  · have hlt : (d.zoomRectIndex : ℤ) < depth := by
      rw [hm] at hdepth
      by_contra hc
      exact hdepth ⟨by omega, by omega⟩
    cases hne : QRectF.ne rect.normalized cur
    · have e : zoom rect d = Except.ok d := by
        unfold zoom
        rw [hs, if_neg hdepth]
        dsimp only
        rw [stackAt_some _ _ _ hcur]
        dsimp only
        rw [hne]
        rfl
      rw [e]
      refine ⟨by simp, ?_, fun _ => ⟨d, rfl⟩⟩
      intro d1 h1
      rw [← Except.ok.inj h1]
      exact ⟨hm, hv, hl, hi⟩
    · obtain ⟨p1, p2⟩ := zoom_push rect d cur hv hcur hdepth hne
      have htake : (d.zoomStack.take (d.zoomRectIndex + 1)).length = d.zoomRectIndex + 1 := by
        rw [List.length_take]
        have := hv.1
        omega
      by_cases hroom : d.zoomRectIndex + 2 < 2147483648
      · rw [p1 hroom]
        refine ⟨by simp, ?_, fun _ => ⟨_, rfl⟩⟩
        intro d1 h1
        rw [← Except.ok.inj h1]
        refine ⟨hm, ⟨?_, ?_⟩, ?_, ?_⟩
        · show d.zoomRectIndex + 1 <
            (d.zoomStack.take (d.zoomRectIndex + 1) ++ [rect.normalized]).length
          rw [List.length_append, htake]
          simp
        · show (d.zoomStack.take (d.zoomRectIndex + 1) ++ [rect.normalized]).length < 2147483648
          rw [List.length_append, htake]
          simp only [List.length_singleton]
          omega
        · show (((d.zoomStack.take (d.zoomRectIndex + 1) ++ [rect.normalized]).length : ℕ) : ℤ)
            ≤ depth + 1
          rw [List.length_append, htake]
          simp only [List.length_singleton]
          push_cast
          omega
        · show ((d.zoomRectIndex + 1 : ℕ) : ℤ) ≤ depth
          push_cast
          omega
      · rw [p2 hroom]
        refine ⟨by simp, fun d1 h1 => absurd h1 (by simp), ?_⟩
        intro hsmall
        omega

/-- `zoom( offset )` keeps the bound of the stack depth. -/
theorem zoomOffset_bounded (depth : ℤ) (offset : ℤ) (d : PrivateData)
    (hb : Bounded depth d) :
    ∃ d1, zoomOffset offset d = Except.ok d1 ∧ Bounded depth d1 := by
  obtain ⟨hm, hv, hl, hi⟩ := hb
  obtain ⟨j, hj, hzo, -⟩ := zoomOffset_valid offset d hv
  refine ⟨_, hzo, hm, ⟨hj, hv.2⟩, hl, ?_⟩
  show (j : ℤ) ≤ depth
  omega

/-- A sequence of calls of `zoom( rect )` and `zoom( offset )` keeps the bound of the
stack depth. -/
theorem runCalls_bounded (depth : ℤ) (calls : List Call) (d : PrivateData)
    (hb : Bounded depth d) (hz : ∀ c ∈ calls, c.isZoom = true) :
    runCalls calls d ≠ Except.error Fault.outOfRange ∧
      (∀ d1, runCalls calls d = Except.ok d1 → Bounded depth d1) ∧
      (depth + 1 < 2147483648 → ∃ d1, runCalls calls d = Except.ok d1) := by
  induction calls generalizing d with
  | nil =>
    refine ⟨by simp [runCalls], ?_, fun _ => ⟨d, rfl⟩⟩
    intro d1 h1
    rw [← Except.ok.inj h1]
    exact hb
  | cons c t ih =>
    have hc := hz c (List.mem_cons_self c t)
    have ht : ∀ x ∈ t, x.isZoom = true := fun x hx => hz x (List.mem_cons_of_mem c hx)
    have step : c.run d ≠ Except.error Fault.outOfRange ∧
        (∀ d1, c.run d = Except.ok d1 → Bounded depth d1) ∧
        (depth + 1 < 2147483648 → ∃ d1, c.run d = Except.ok d1) := by
      cases c with
      | zoom rect => exact zoom_bounded depth rect d hb
      | zoomOffset offset =>
        obtain ⟨d1, h1, hb1⟩ := zoomOffset_bounded depth offset d hb
        refine ⟨?_, ?_, fun _ => ⟨d1, h1⟩⟩
        · show zoomOffset offset d ≠ _
          rw [h1]
          simp
        · intro d2 h2
          have h3 : zoomOffset offset d = Except.ok d2 := h2
          rw [h1] at h3
          rw [← Except.ok.inj h3]
          exact hb1
      | setZoomBaseOfScale _ => exact absurd hc (by simp [Call.isZoom])
      | setZoomBase _ _ => exact absurd hc (by simp [Call.isZoom])
      | setMaxStackDepth _ => exact absurd hc (by simp [Call.isZoom])
      | setZoomStack _ _ => exact absurd hc (by simp [Call.isZoom])
    obtain ⟨s1, s2, s3⟩ := step
    unfold runCalls
    cases hr : c.run d with
    | error e =>
      dsimp only
      refine ⟨?_, fun d1 h1 => absurd h1 (by simp), ?_⟩
      · intro he
        rw [Except.error.inj he] at hr
        exact s1 hr
      · intro hsmall
        obtain ⟨d1, h1⟩ := s3 hsmall
        rw [h1] at hr
        exact absurd hr (by simp)
    | ok d1 =>
      dsimp only
      exact ih d1 (s2 d1 hr) ht

/-- C23: the limit of the zoom depth.  For every depth `d >= 0`, on a zoomer whose index
is a position of the stack: after `setMaxStackDepth( d )` the zoom stack holds at most
`d + 1` rectangles (the zoom base is not counted), `zoomRectIndex() <= d` and the zoom
base `zoomStack()[0]` is unchanged; and after every later sequence of calls of
`zoom( rect )` and `zoom( offset )` the stack still holds at most `d + 1` rectangles,
`zoomRectIndex() <= d` and the index is a position of the stack; no such call reads
outside of the stack, and for `d + 1 < 2^31` every such call returns. -/
theorem depth_limit (depth : ℤ) (d : PrivateData) (hv : Valid d) (hd : 0 ≤ depth) :
    ∃ d1, setMaxStackDepth depth d = Except.ok d1 ∧
      maxStackDepth d1 = depth ∧
      ((zoomStack d1).length : ℤ) ≤ depth + 1 ∧
      (zoomRectIndex d1 : ℤ) ≤ depth ∧
      zoomRectIndex d1 < (zoomStack d1).length ∧
      zoomBase d1 = zoomBase d ∧
      ∀ calls : List Call, (∀ c ∈ calls, c.isZoom = true) →
        runCalls calls d1 ≠ Except.error Fault.outOfRange ∧
        (∀ d2, runCalls calls d1 = Except.ok d2 →
          ((zoomStack d2).length : ℤ) ≤ depth + 1 ∧ (zoomRectIndex d2 : ℤ) ≤ depth ∧
            zoomRectIndex d2 < (zoomStack d2).length ∧ maxStackDepth d2 = depth) ∧
        (depth + 1 < 2147483648 → ∃ d2, runCalls calls d1 = Except.ok d2) := by
  obtain ⟨d1, h1, hb, -, n, hn, htake⟩ := setMaxStackDepth_bounded depth d hv hd
  refine ⟨d1, h1, hb.1, hb.2.2.1, hb.2.2.2, hb.2.1.1, ?_, ?_⟩
  · unfold zoomBase stackAt
    rw [htake]
    simp only [le_refl, if_true, Int.toNat_zero]
    rw [List.getElem?_take]
    rw [if_pos hn]
  · intro calls hz
    obtain ⟨r1, r2, r3⟩ := runCalls_bounded depth calls d1 hb hz
    refine ⟨r1, ?_, r3⟩
    intro d2 h2
    obtain ⟨b1, b2, b3, b4⟩ := r2 d2 h2
    exact ⟨b3, b4, b2.1, b1⟩

set_option maxRecDepth 8000 in
/-- Witness for `depth_limit`: the stack of four rectangles at the index 3, with the
depth 1. -/
theorem depth_limit_witness :
    ∃ d1, setMaxStackDepth 1 Example.zoomed = Except.ok d1 ∧
      ((zoomStack d1).length : ℤ) ≤ 1 + 1 ∧ (zoomRectIndex d1 : ℤ) ≤ 1 :=
  (depth_limit 1 Example.zoomed (by with_unfolding_all decide) (by decide)).imp
    fun _ h => ⟨h.1, h.2.2.1, h.2.2.2.1⟩

/-! ## The index and the count of the stack -/

theorem valid_mk (i : ℕ) (stack : List QRectF) (m : ℤ) (e : Axis → Bool)
    (h1 : i < stack.length) (h2 : stack.length < 2147483648) : Valid ⟨i, stack, m, e⟩ :=
  ⟨h1, h2⟩

theorem valid_setZoomBaseOfScale (sRect : QRectF) (d : PrivateData) :
    ∃ d1, setZoomBaseOfScale sRect d = Except.ok d1 ∧ Valid d1 :=
  ⟨_, rescale_valid _ (valid_mk 0 [sRect] _ _ (by simp) (by simp)),
    valid_mk 0 [sRect] _ _ (by simp) (by simp)⟩

theorem valid_setZoomBase (base sRect : QRectF) (d : PrivateData) :
    ∃ d1, setZoomBase base sRect d = Except.ok d1 ∧ Valid d1 := by
  unfold setZoomBase
  dsimp only
  split_ifs
  · exact ⟨_, rescale_valid _ (valid_mk 1 [base.united sRect, sRect] _ _ (by simp) (by simp)),
      valid_mk 1 [base.united sRect, sRect] _ _ (by simp) (by simp)⟩
  · exact ⟨_, rescale_valid _ (valid_mk 0 [base.united sRect] _ _ (by simp) (by simp)),
      valid_mk 0 [base.united sRect] _ _ (by simp) (by simp)⟩

/-- The constructors leave a stack with the zoom base and the index 0. -/
theorem valid_init (sRect : QRectF) : ∃ d1, init sRect = Except.ok d1 ∧ Valid d1 :=
  valid_setZoomBase sRect sRect _

theorem valid_zoom (rect : QRectF) (d : PrivateData) (hv : Valid d) :
    zoom rect d ≠ Except.error Fault.outOfRange ∧
      ∀ d1, zoom rect d = Except.ok d1 → Valid d1 := by
  obtain ⟨cur, hcur, -⟩ := valid_current d hv
  have hs := toSigned_small d.zoomRectIndex (lt_trans hv.1 hv.2)
  have keep : zoom rect d = Except.ok d →
      zoom rect d ≠ Except.error Fault.outOfRange ∧
        ∀ d1, zoom rect d = Except.ok d1 → Valid d1 := by
    intro e
    rw [e]
    refine ⟨by simp, ?_⟩
    intro d1 h1
    rw [← Except.ok.inj h1]
    exact hv
  by_cases hdepth : d.maxStackDepth ≥ 0 ∧ (d.zoomRectIndex : ℤ) ≥ d.maxStackDepth
  · apply keep
    unfold zoom
    rw [hs, if_pos hdepth]
  · cases hne : QRectF.ne rect.normalized cur
    · apply keep
      unfold zoom
      rw [hs, if_neg hdepth]
      dsimp only
      rw [stackAt_some _ _ _ hcur]
      dsimp only
      rw [hne]
      rfl
    · obtain ⟨p1, p2⟩ := zoom_push rect d cur hv hcur hdepth hne
      have htake : (d.zoomStack.take (d.zoomRectIndex + 1)).length = d.zoomRectIndex + 1 := by
        rw [List.length_take]
        have := hv.1
        omega
      by_cases hroom : d.zoomRectIndex + 2 < 2147483648
      · rw [p1 hroom]
        refine ⟨by simp, ?_⟩
        intro d1 h1
        rw [← Except.ok.inj h1]
        constructor
        · show d.zoomRectIndex + 1 <
            (d.zoomStack.take (d.zoomRectIndex + 1) ++ [rect.normalized]).length
          rw [List.length_append, htake]
          simp
        · show (d.zoomStack.take (d.zoomRectIndex + 1) ++ [rect.normalized]).length < 2147483648
          rw [List.length_append, htake]
          simp only [List.length_singleton]
          omega
      · rw [p2 hroom]
        exact ⟨by simp, fun d1 h1 => absurd h1 (by simp)⟩

theorem valid_setMaxStackDepth (depth : ℤ) (d : PrivateData) (hv : Valid d) :
    ∃ d1, setMaxStackDepth depth d = Except.ok d1 ∧ Valid d1 := by
  by_cases hd : 0 ≤ depth
  · obtain ⟨d1, h1, hb, -⟩ := setMaxStackDepth_bounded depth d hv hd
    exact ⟨d1, h1, hb.2.1⟩
  · unfold setMaxStackDepth
    dsimp only
    rw [if_neg hd]
    exact ⟨_, rfl, hv⟩

/-- `setZoomStack( stack, index )` with an index that is not the count of the stack. -/
theorem valid_setZoomStack (stack : List QRectF) (index : ℤ) (d : PrivateData)
    (hv : Valid d) (hi : index ≠ (stack.length : ℤ)) (hl : stack.length < 2147483648) :
    ∃ d1, setZoomStack stack index d = Except.ok d1 ∧ Valid d1 := by
  obtain ⟨cur, -, hzr⟩ := valid_current d hv
  unfold setZoomStack
  by_cases he : stack.isEmpty = true
  · rw [if_pos he]
    exact ⟨d, rfl, hv⟩
  rw [if_neg he]
  by_cases hr : d.maxStackDepth ≥ 0 ∧ (stack.length : ℤ) > d.maxStackDepth
  · rw [if_pos hr]
    exact ⟨d, rfl, hv⟩
  rw [if_neg hr]
  have hpos : 0 < stack.length := by
    cases stack with
    | nil => exact absurd rfl he
    | cons _ _ => simp
  dsimp only
  have hidx : ∃ j : ℕ, j < stack.length ∧
      (if index < 0 ∨ index > (stack.length : ℤ) then (stack.length : ℤ) - 1 else index) =
        (j : ℤ) := by
    split_ifs with hc
    · exact ⟨stack.length - 1, by omega, by omega⟩
    · rw [not_or, not_lt, not_lt] at hc
      obtain ⟨j, hj⟩ := Int.eq_ofNat_of_zero_le hc.1
      refine ⟨j, ?_, hj⟩
      have : (j : ℤ) < (stack.length : ℤ) := by
        rw [← hj]
        exact lt_of_le_of_ne hc.2 hi
      exact_mod_cast this
  obtain ⟨j, hj, hje⟩ := hidx
  rw [hje, stackAt_some stack j _ (List.getElem?_eq_getElem hj), hzr]
  dsimp only
  rw [toUnsigned_small j (by omega)]
  have hv1 : Valid { d with zoomStack := stack, zoomRectIndex := j } := ⟨hj, hl⟩
  split_ifs
  · exact ⟨_, rescale_valid _ hv1, hv1⟩
  · exact ⟨_, rfl, hv1⟩

/-- `setZoomStack( stack, index )` with the index `stack.count()`, for a stack that is
not empty and not longer than the depth allows: the test
`zoomRectIndex > int( zoomStack.count() )` lets the index pass, and
`zoomStack[zoomRectIndex]` reads behind the last rectangle. -/
theorem setZoomStack_count (stack : List QRectF) (d : PrivateData)
    (he : stack ≠ [])
    (hr : ¬ (d.maxStackDepth ≥ 0 ∧ (stack.length : ℤ) > d.maxStackDepth)) :
    setZoomStack stack (stack.length : ℤ) d = Except.error Fault.outOfRange := by
  unfold setZoomStack
  have h1 : stack.isEmpty = false := by
    cases stack with
    | nil => exact absurd rfl he
    | cons _ _ => rfl
  rw [h1, if_neg (by simp), if_neg hr]
  dsimp only
  rw [if_neg (by simp), stackAt_none stack stack.length (le_refl _)]

/-- Every call but `setZoomStack` with the index `stack.count()` keeps the index a
position of the stack. -/
theorem valid_run (c : Call) (d : PrivateData) (hv : Valid d) (hc : c.inRange) :
    c.run d ≠ Except.error Fault.outOfRange ∧ ∀ d1, c.run d = Except.ok d1 → Valid d1 := by
  have total : ∀ r : Except Fault PrivateData, (∃ d1, r = Except.ok d1 ∧ Valid d1) →
      r ≠ Except.error Fault.outOfRange ∧ ∀ d1, r = Except.ok d1 → Valid d1 := by
    rintro r ⟨d1, rfl, h1⟩
    refine ⟨by simp, ?_⟩
    intro d2 h2
    rw [← Except.ok.inj h2]
    exact h1
  cases c with
  | setZoomBaseOfScale sRect => exact total _ (valid_setZoomBaseOfScale sRect d)
  | setZoomBase base sRect => exact total _ (valid_setZoomBase base sRect d)
  | zoom rect => exact valid_zoom rect d hv
  | zoomOffset offset =>
    obtain ⟨j, hj, hzo, -⟩ := zoomOffset_valid offset d hv
    exact total _ ⟨_, hzo, hj, hv.2⟩
  | setMaxStackDepth depth => exact total _ (valid_setMaxStackDepth depth d hv)
  | setZoomStack stack index => exact total _ (valid_setZoomStack stack index d hv hc.1 hc.2)

theorem valid_runCalls (calls : List Call) (d : PrivateData) (hv : Valid d)
    (hc : ∀ c ∈ calls, c.inRange) :
    runCalls calls d ≠ Except.error Fault.outOfRange ∧
      ∀ d1, runCalls calls d = Except.ok d1 → Valid d1 := by
  induction calls generalizing d with
  | nil =>
    refine ⟨by simp [runCalls], ?_⟩
    intro d1 h1
    rw [← Except.ok.inj h1]
    exact hv
  | cons c t ih =>
    obtain ⟨s1, s2⟩ := valid_run c d hv (hc c (List.mem_cons_self c t))
    have ht : ∀ x ∈ t, x.inRange := fun x hx => hc x (List.mem_cons_of_mem c hx)
    unfold runCalls
    cases hr : c.run d with
    | error e =>
      dsimp only
      refine ⟨?_, fun d1 h1 => absurd h1 (by simp)⟩
      intro he
      rw [Except.error.inj he] at hr
      exact s1 hr
    | ok d1 =>
      dsimp only
      exact ih d1 (s2 d1 hr) ht

/-- C30: the index of the zoom stack.  `setZoomStack( stack, index )` with a stack that
is not empty (and not longer than the depth allows) and `index == stack.count()` does
not leave a valid index: it reads `stack[stack.count()]`, behind the last rectangle.
Every other call is safe: from the state the constructors leave (and from every state
whose index is a position of the stack), after any sequence of calls of `setZoomBase`,
`zoom( rect )`, `zoom( offset )`, `setMaxStackDepth` and of `setZoomStack( stack, index )`
with any other integer index, the zoom stack is not empty and
`zoomRectIndex() < zoomStack().count()`, so that `zoomRect()` and `zoomBase()` return a
rectangle of the stack, and no call has read outside of the stack. -/
theorem zoom_index_safety (d : PrivateData) (hv : Valid d) :
    (∀ stack : List QRectF, stack ≠ [] →
      ¬ (maxStackDepth d ≥ 0 ∧ (stack.length : ℤ) > maxStackDepth d) →
      setZoomStack stack (stack.length : ℤ) d = Except.error Fault.outOfRange) ∧
    (∀ sRect, ∃ d0, init sRect = Except.ok d0 ∧
      zoomRectIndex d0 < (zoomStack d0).length) ∧
    (∀ calls : List Call, (∀ c ∈ calls, c.inRange) →
      runCalls calls d ≠ Except.error Fault.outOfRange ∧
      ∀ d1, runCalls calls d = Except.ok d1 →
        (zoomStack d1) ≠ [] ∧ zoomRectIndex d1 < (zoomStack d1).length ∧
        (∃ r, zoomRect d1 = Except.ok r) ∧ (∃ b, zoomBase d1 = Except.ok b) ∧
        rescale d1 = Except.ok d1) := by
  refine ⟨fun stack he hr => setZoomStack_count stack d he hr, ?_, ?_⟩
  · intro sRect
    obtain ⟨d0, h0, hv0⟩ := valid_init sRect
    exact ⟨d0, h0, hv0.1⟩
  · intro calls hc
    obtain ⟨r1, r2⟩ := valid_runCalls calls d hv hc
    refine ⟨r1, ?_⟩
    intro d1 h1
    have hv1 := r2 d1 h1
    obtain ⟨cur, -, hcur⟩ := valid_current d1 hv1
    have hpos : 0 < d1.zoomStack.length := lt_of_le_of_lt (Nat.zero_le _) hv1.1
    refine ⟨?_, hv1.1, ⟨cur, hcur⟩, ⟨d1.zoomStack[0], ?_⟩, rescale_valid d1 hv1⟩
    · intro hnil
      unfold zoomStack at hnil
      rw [hnil] at hpos
      exact absurd hpos (by simp)
    · exact stackAt_some d1.zoomStack 0 _ (List.getElem?_eq_getElem hpos)

set_option maxRecDepth 8000 in
/-- Witness for `zoom_index_safety`: on the zoomer as constructed, `setZoomStack` with
one rectangle and the index 1 reads outside of the stack. -/
theorem zoom_index_safety_witness :
    setZoomStack [⟨10, 10, 50, 50⟩] 1 Example.zoomer = Except.error Fault.outOfRange :=
  (zoom_index_safety Example.zoomer (by with_unfolding_all decide)).1 [⟨10, 10, 50, 50⟩]
    (by simp) (by with_unfolding_all decide)

/-! ## Moving the zoom rectangle -/

set_option maxRecDepth 8000 in
/-- Three selections.  With the zoom of all axes enabled the selection from (0, 0) to
(0, 0), 1 x 1, is accepted and expanded to 20 x 20, from (-9, -9) to (10, 10), and the
selection from (0, 0) to (11, 11), 12 x 12, is expanded to 20 x 20, from (-4, -4) to
(15, 15).  With the zoom of the left axis disabled the selection from (0, 0) to (9, 99),
10 x 100, is rejected. -/
theorem accept_examples :
    accept Example.zoomer [⟨0, 0⟩, ⟨0, 0⟩] = (true, [⟨-9, -9⟩, ⟨10, 10⟩]) ∧
    accept Example.zoomer [⟨0, 0⟩, ⟨11, 11⟩] = (true, [⟨-4, -4⟩, ⟨15, 15⟩]) ∧
    accept Example.zoomerX [⟨0, 0⟩, ⟨9, 99⟩] = (false, [⟨0, 0⟩, ⟨9, 99⟩]) := by
  refine ⟨?_, ?_, ?_⟩ <;> with_unfolding_all decide

/-- The rectangle that `accept` writes back. -/
theorem expandedSelection_size (r : QRect) :
    (expandedSelection r).width = max r.width 20 ∧
      (expandedSelection r).height = max r.height 20 ∧
      (expandedSelection r).x1 = r.center.xp - (max r.width 20 - 1).tdiv 2 ∧
      (expandedSelection r).y1 = r.center.yp - (max r.height 20 - 1).tdiv 2 := by
  unfold expandedSelection QRect.moveCenter QRect.setSize QSize.expandedTo QRect.size
    QRect.width QRect.height QSize.width QSize.height
  dsimp only
  have e1 : ∀ a b : ℤ, a + b - 1 - b = a - 1 := fun a b => by ring
  refine ⟨by ring, by ring, ?_, ?_⟩
  · rw [e1]
  · rw [e1]

/-- The centre of the rectangle that `accept` writes back is the centre of the selection
when its coordinates are not negative. -/
theorem expandedSelection_center (r : QRect) (hx : 0 ≤ r.center.xp) (hy : 0 ≤ r.center.yp) :
    (expandedSelection r).center = r.center := by
  have key : ∀ (c m : ℤ), 0 ≤ c → 20 ≤ m →
      ((c - (m - 1).tdiv 2) + ((c - (m - 1).tdiv 2) + (m - 1))).tdiv 2 = c := by
    intro c m hc hm
    have h1 : (m - 1).tdiv 2 = (m - 1) / 2 := Int.tdiv_eq_ediv (by omega) (by omega)
    rw [h1]
    have h2 : 0 ≤ (c - (m - 1) / 2) + ((c - (m - 1) / 2) + (m - 1)) := by omega
    rw [Int.tdiv_eq_ediv h2 (by omega)]
    omega
  have hxs := key r.center.xp (max r.width 20) hx (le_max_right _ _)
  have hys := key r.center.yp (max r.height 20) hy (le_max_right _ _)
  have e1 : ∀ a b : ℤ, a + b - 1 - b = a - 1 := fun a b => by ring
  unfold expandedSelection QRect.moveCenter QRect.setSize QSize.expandedTo QRect.size
    QSize.width QSize.height
  unfold QRect.center at hxs hys ⊢
  dsimp only at hxs hys ⊢
  rw [e1, e1]
  simp only [QPoint.mk.injEq]
  exact ⟨hxs, hys⟩

/-- C21: `accept()` does not do what its comment says, "Reject rectangles with a height
or width < 2, otherwise expand the selected rectangle to a minimum size of 11x11 and
accept it".  A polygon with less than two points is rejected.  For a selection polygon
with at least two points and the rectangle spanned by its first and last point: it is
rejected (false, polygon unchanged) when the zoom of the left or the right axis is
disabled and its width is < 15, or the zoom of the bottom or the top axis is disabled and
its height is < 15; so with the zoom of all axes enabled no such polygon is rejected,
whatever its size.  Otherwise it is expanded to a minimum size of 20 x 20 (its centre, if
the coordinates of that are not negative, stays the centre), written back as the
two-point polygon (topLeft, bottomRight), and accepted (true). -/
theorem accept_spec (d : PrivateData) (first last : QPoint) (mid : List QPoint) :
    (∀ pa : List QPoint, pa.length < 2 → accept d pa = (false, pa)) ∧
    (((d.isAxisEnabled Axis.yLeft = false ∨ d.isAxisEnabled Axis.yRight = false) ∧
          ((QRect.ofPoints first last).normalized).width < 15) ∨
        ((d.isAxisEnabled Axis.xBottom = false ∨ d.isAxisEnabled Axis.xTop = false) ∧
          ((QRect.ofPoints first last).normalized).height < 15) →
      accept d (first :: (mid ++ [last])) = (false, first :: (mid ++ [last]))) ∧
    (¬ (((d.isAxisEnabled Axis.yLeft = false ∨ d.isAxisEnabled Axis.yRight = false) ∧
          ((QRect.ofPoints first last).normalized).width < 15) ∨
        ((d.isAxisEnabled Axis.xBottom = false ∨ d.isAxisEnabled Axis.xTop = false) ∧
          ((QRect.ofPoints first last).normalized).height < 15)) →
      accept d (first :: (mid ++ [last])) =
        (true, [(expandedSelection (QRect.ofPoints first last).normalized).topLeft,
          (expandedSelection (QRect.ofPoints first last).normalized).bottomRight])) ∧
    ((∀ a, d.isAxisEnabled a = true) →
      accept d (first :: (mid ++ [last])) =
        (true, [(expandedSelection (QRect.ofPoints first last).normalized).topLeft,
          (expandedSelection (QRect.ofPoints first last).normalized).bottomRight])) ∧
    (expandedSelection (QRect.ofPoints first last).normalized).width =
      max ((QRect.ofPoints first last).normalized).width 20 ∧
    (expandedSelection (QRect.ofPoints first last).normalized).height =
      max ((QRect.ofPoints first last).normalized).height 20 ∧
    (0 ≤ ((QRect.ofPoints first last).normalized).center.xp →
      0 ≤ ((QRect.ofPoints first last).normalized).center.yp →
      (expandedSelection (QRect.ofPoints first last).normalized).center =
        ((QRect.ofPoints first last).normalized).center) := by
  have hlen : ¬ (first :: (mid ++ [last])).length < 2 := by
    simp
  have hhead : (first :: (mid ++ [last])).head? = some first := rfl
  have hlast : (first :: (mid ++ [last])).getLast? = some last := by
    rw [← List.cons_append, List.getLast?_append]
    rfl
  have hacc : ¬ (((d.isAxisEnabled Axis.yLeft = false ∨ d.isAxisEnabled Axis.yRight = false) ∧
          ((QRect.ofPoints first last).normalized).width < 15) ∨
        ((d.isAxisEnabled Axis.xBottom = false ∨ d.isAxisEnabled Axis.xTop = false) ∧
          ((QRect.ofPoints first last).normalized).height < 15)) →
      accept d (first :: (mid ++ [last])) =
        (true, [(expandedSelection (QRect.ofPoints first last).normalized).topLeft,
          (expandedSelection (QRect.ofPoints first last).normalized).bottomRight]) := by
    intro hn
    rw [not_or] at hn
    unfold accept
    rw [if_neg hlen, hhead, hlast]
    dsimp only
    rw [if_neg, if_neg]
    · simpa using hn.2
    · simpa using hn.1
  refine ⟨?_, ?_, hacc, ?_, (expandedSelection_size _).1, (expandedSelection_size _).2.1,
    expandedSelection_center _⟩
  · intro pa hpa
    unfold accept
    rw [if_pos hpa]
  · intro hrej
    unfold accept
    rw [if_neg hlen, hhead, hlast]
    dsimp only
    rcases hrej with h | h
    · rw [if_pos]
      simpa using h
    · by_cases hy : ((d.isAxisEnabled Axis.yLeft == false ||
          d.isAxisEnabled Axis.yRight == false) &&
          decide (((QRect.ofPoints first last).normalized).width < 15)) = true
      · rw [if_pos hy]
      · rw [if_neg hy, if_pos]
        simpa using h
  · intro hall
    apply hacc
    rw [hall, hall, hall, hall]
    simp

set_option maxRecDepth 8000 in
/-- Witness for `accept_spec`: with the zoom of all axes enabled, as after the
construction, the selection from (0, 0) to (0, 0), which is 1 x 1, is not rejected: it
is accepted and written back as (-9, -9) to (10, 10), which is 20 x 20. -/
theorem accept_spec_witness :
    accept Example.zoomer [⟨0, 0⟩, ⟨0, 0⟩] = (true, [⟨-9, -9⟩, ⟨10, 10⟩]) :=
  ((accept_spec Example.zoomer ⟨0, 0⟩ ⟨0, 0⟩ []).2.2.2.1
    (fun _ => rfl)).trans (by with_unfolding_all decide)

end QwtPlotZoomer

end Qwt
